import Mathlib

/-!
GIMP procedure dialog: widget builder and increment estimation.

A shallow embedding of `libgimp/gimpproceduredialog.c` (namespace
`GimpProcedureDialog`) and of the procedure metadata registrar
`app/plug-in/gimpplugin-proc.c` (namespace `GimpPlugInProc`).

* `gimp_procedure_dialog_estimate_increments` is embedded twice. The embedding
  `gimp_procedure_dialog_estimate_increments_binary64` computes in binary64, as
  the `gdouble` code does. The embedding over exact rationals reads bounds and
  literals as the numbers they are written as; it is the one the embedding of
  the widget getter calls, on the integer bounds of a property, where the two
  agree up to the rounding of the values stored. The two out-pointers are
  `Option` cells (`none` is a `NULL` pointer, `some v` a cell holding `v`).
* The builder functions are embedded as state-passing functions on a `Dialog`
  record holding the configuration's property list, the widget hash table, the
  label size group, the dialog's content area and the emitted warnings.
* A `GtkWidget *` result is an `Option Widget`, `none` being `NULL`.
* Construction, the reset and defaults buttons and `gimp_procedure_dialog_run`
  are embedded on a `DialogSession` record; the modal loop is driven by the
  list of responses `gimp_dialog_run` returns.
* The registrar functions are state-passing functions on a `PlugIn` record with
  its two procedure tables and the messages sent; a pointer to a procedure is
  a table and a position.
-/

namespace GimpProcedureDialog

/-! ## Increment estimation over the rationals

The function in exact arithmetic: a `gdouble` is read as a rational number, a
decimal literal as the number it is written as, and no operation rounds. On the
integer bounds the widget getter passes, the range is an integer, every
comparison of the function is exact in binary64 too, and the loop makes no
turn. -/

/-- The loop `while (range * places < 5.0) places *= 10.0;` of
`gimp_procedure_dialog_estimate_increments` in exact arithmetic, returning the
final `places`. The loop is only entered with `range > 0` and starts from
`places = 10.0`. -/
def places_loop (range places : ℚ) (hr : 0 < range) (hp : 0 < places) : ℚ :=
  if h : range * places < 5.0 then
    places_loop range (places * 10.0) hr (mul_pos hp (by norm_num))
  else
    places
termination_by Nat.ceil (5 / (range * places))
decreasing_by
  -- the measure `⌈5 / (range * places)⌉` strictly decreases on each turn
  have hrp : 0 < range * places := mul_pos hr hp
  have hx : (1 : ℚ) < 5 / (range * places) := by
    rw [lt_div_iff₀ hrp]; linarith
  have e : 5 / (range * (places * 10.0)) = 5 / (range * places) / 10 := by
    field_simp; ring
  rw [e]
  generalize 5 / (range * places) = x at hx
  have hn : 1 < Nat.ceil x := Nat.lt_ceil.mpr (by exact_mod_cast hx)
  have hle : x ≤ (Nat.ceil x : ℚ) := Nat.le_ceil x
  have h2 : (2 : ℚ) ≤ (Nat.ceil x : ℚ) := by exact_mod_cast hn
  have hc : Nat.ceil (x / 10) ≤ Nat.ceil x - 1 := by
    apply Nat.ceil_le.mpr
    have hcast : ((Nat.ceil x - 1 : ℕ) : ℚ) = (Nat.ceil x : ℚ) - 1 := by
      rw [Nat.cast_sub (by omega)]; simp
    rw [hcast]; linarith
  omega

/-- The guarded store `if (p) *p = v;` through an out-pointer `p`: nothing
happens for a `NULL` pointer, otherwise the cell now holds `v`. -/
def write_cell (p : Option ℚ) (v : ℚ) : Option ℚ :=
  p.map (fun _ => v)

/-- Embedding of `gimp_procedure_dialog_estimate_increments (lower, upper, &step, &page)`
in exact arithmetic. `step` and `page` are the out-pointers: `none` for `NULL`,
`some v` for a cell currently holding `v`; the result is the pair of cells after
the call. -/
def gimp_procedure_dialog_estimate_increments (lower upper : ℚ)
    (step page : Option ℚ) : Option ℚ × Option ℚ :=
  if ¬ (upper ≥ lower) then (step, page)                      -- g_return_if_fail
  else if ¬ (step.isSome ∨ page.isSome) then (step, page)      -- g_return_if_fail
  else
    let range := upper - lower
    if h : range > 0 ∧ range ≤ 1.0 then
      let places := places_loop range 10.0 h.1 (by norm_num)
      (write_cell step (0.1 / places), write_cell page (1.0 / places))
    else if range ≤ 2.0 then
      (write_cell step (0.01), write_cell page (0.1))
    else if range ≤ 5.0 then
      (write_cell step (0.1), write_cell page (1.0))
    else if range ≤ 40.0 then
      (write_cell step (1.0), write_cell page (2.0))
    else
      (write_cell step (1.0), write_cell page (10.0))

/-! ## Increment estimation in binary64

`gdouble` is the IEEE 754 binary64 format. The arithmetic below is the
round-to-nearest, ties-to-even arithmetic of that format, every operation
rounded once (`FLT_EVAL_METHOD` 0). -/

/-- A `gdouble`. A finite datum is given by its value, a rational number; the
sign of a zero is not kept (the function compares zeros only with `<`, `<=` and
`>=` and never divides by one). The operations below round each result with
`round64`. The type has room for rationals that are not binary64 numbers: a
statement quantified over all of `Binary64` covers the binary64 numbers among
them. -/
inductive Binary64 where
  | finite (value : ℚ)
  | pos_inf
  | neg_inf
  | nan
deriving DecidableEq, Repr

/-- Number of binary digits of a number `n` below `2 ^ 2 ^ k`, by bisection:
the upper half of the `2 ^ k` digits is looked at first. -/
def binary_digits_below : ℕ → ℕ → ℕ
  | 0, n => if n = 0 then 0 else 1
  | k + 1, n =>
    if 2 ^ 2 ^ k ≤ n then binary_digits_below k (n / 2 ^ 2 ^ k) + 2 ^ k
    else binary_digits_below k n

/-- The first `k` from `k` on, within `fuel` steps, with `n < 2 ^ 2 ^ k`. -/
def binary_level : ℕ → ℕ → ℕ → ℕ
  | 0, k, _ => k
  | fuel + 1, k, n => if n < 2 ^ 2 ^ k then k else binary_level fuel (k + 1) n

/-- Number of binary digits of `n`: the least `b` with `n < 2 ^ b`. Numbers
below `2 ^ 8192`, as are all that the arithmetic of `gdouble`s gives rise to,
are bisected from 8192 digits; for larger ones the number of digits to bisect
from is looked for first. -/
def binary_digits (n : ℕ) : ℕ :=
  if n < 2 ^ 2 ^ 13 then binary_digits_below 13 n
  else binary_digits_below (binary_level n 0 n) n

/-- The exponent of `n / d` for positive `n` and `d`: the integer `c` with
`2 ^ c ≤ n / d < 2 ^ (c + 1)`. -/
def floor_log2 (n d : ℕ) : ℤ :=
  let c : ℤ := (binary_digits n : ℤ) - (binary_digits d : ℤ)
  if d * 2 ^ c.toNat ≤ n * 2 ^ (-c).toNat then c else c - 1

/-- The integer nearest to `n / d`, the even one of the two when `n / d` lies
half way. -/
def round_half_even (n d : ℕ) : ℕ :=
  let q := n / d
  let r := n % d
  if 2 * r < d then q
  else if d < 2 * r then q + 1
  else if q % 2 = 0 then q else q + 1

/-- Rounding to binary64 of the real number `n / d` (`d` positive), negated when
`negative`: with `e` the exponent of the last place (that of a subnormal for
magnitudes below `2 ^ (-1022)`) the significand is `n / d / 2 ^ e` rounded to
the nearest integer, ties to even; a result of magnitude `2 ^ 1024` or more is
an infinity. -/
def round_ratio (negative : Bool) (n d : ℕ) : Binary64 :=
  if n = 0 then .finite 0
  else
    let e : ℤ := max (floor_log2 n d) (-1022) - 52
    let m : ℕ := round_half_even (n * 2 ^ (-e).toNat) (d * 2 ^ e.toNat)
    if 2 ^ 1024 * 2 ^ (-e).toNat ≤ m * 2 ^ e.toNat then
      (if negative then .neg_inf else .pos_inf)
    else
      .finite (mkRat
        (if negative then -((m * 2 ^ e.toNat : ℕ) : ℤ) else ((m * 2 ^ e.toNat : ℕ) : ℤ))
        (2 ^ (-e).toNat))

/-- Rounding of a rational number to binary64. -/
def round64 (q : ℚ) : Binary64 :=
  round_ratio (decide (q < 0)) q.num.natAbs q.den

/-- The binary64 product `a * b`. -/
def fmul : Binary64 → Binary64 → Binary64
  | .finite a, .finite b => round64 (a * b)
  | .finite a, .pos_inf => if 0 < a then .pos_inf else if a < 0 then .neg_inf else .nan
  | .finite a, .neg_inf => if 0 < a then .neg_inf else if a < 0 then .pos_inf else .nan
  | .pos_inf, .finite b => if 0 < b then .pos_inf else if b < 0 then .neg_inf else .nan
  | .neg_inf, .finite b => if 0 < b then .neg_inf else if b < 0 then .pos_inf else .nan
  | .pos_inf, .pos_inf => .pos_inf
  | .neg_inf, .neg_inf => .pos_inf
  | .pos_inf, .neg_inf => .neg_inf
  | .neg_inf, .pos_inf => .neg_inf
  | _, _ => .nan

/-- The binary64 difference `a - b`. -/
def fsub : Binary64 → Binary64 → Binary64
  | .finite a, .finite b => round64 (a - b)
  | .finite _, .pos_inf => .neg_inf
  | .finite _, .neg_inf => .pos_inf
  | .pos_inf, .finite _ => .pos_inf
  | .neg_inf, .finite _ => .neg_inf
  | .pos_inf, .neg_inf => .pos_inf
  | .neg_inf, .pos_inf => .neg_inf
  | _, _ => .nan

/-- The binary64 quotient `a / b`. A zero divisor is taken as `+0`. -/
def fdiv : Binary64 → Binary64 → Binary64
  | .finite a, .finite b =>
    if b = 0 then (if 0 < a then .pos_inf else if a < 0 then .neg_inf else .nan)
    else round64 (a / b)
  | .finite _, .pos_inf => .finite 0
  | .finite _, .neg_inf => .finite 0
  | .pos_inf, .finite b => if b < 0 then .neg_inf else .pos_inf
  | .neg_inf, .finite b => if b < 0 then .pos_inf else .neg_inf
  | _, _ => .nan

/-- The comparison `a < b` of two `gdouble`s; false when either is a NaN. -/
def flt : Binary64 → Binary64 → Bool
  | .finite a, .finite b => decide (a < b)
  | .finite _, .pos_inf => true
  | .neg_inf, .finite _ => true
  | .neg_inf, .pos_inf => true
  | _, _ => false

/-- The comparison `a <= b` of two `gdouble`s; false when either is a NaN. -/
def fle : Binary64 → Binary64 → Bool
  | .finite a, .finite b => decide (a ≤ b)
  | .finite _, .pos_inf => true
  | .neg_inf, .finite _ => true
  | .neg_inf, .pos_inf => true
  | .pos_inf, .pos_inf => true
  | .neg_inf, .neg_inf => true
  | _, _ => false

/-- The comparison `a >= b` of two `gdouble`s; false when either is a NaN. -/
def fge (a b : Binary64) : Bool := fle b a

/-- The loop `while (range * places < 5.0) places *= 10.0;` in binary64, run for
at most `fuel` tests: the final `places` and the number of turns made, `none`
when the fuel runs out. -/
def places_loop_binary64 : ℕ → Binary64 → Binary64 → ℕ → Option (Binary64 × ℕ)
  | 0, _, _, _ => none
  | fuel + 1, range, places, turns =>
    if flt (fmul range places) (.finite 5) then
      places_loop_binary64 fuel range (fmul places (.finite 10)) (turns + 1)
    else some (places, turns)

/-- The guarded store `if (p) *p = v;` through an out-pointer to a `gdouble`. -/
def write_cell_binary64 (p : Option Binary64) (v : Binary64) : Option Binary64 :=
  p.map (fun _ => v)

/-- Embedding of `gimp_procedure_dialog_estimate_increments (lower, upper, &step, &page)`
in binary64 arithmetic. `step` and `page` are the out-pointers, as in the
embedding over the rationals; the result is the pair of cells after the call,
`none` when the loop has not ended within `fuel` tests. -/
def gimp_procedure_dialog_estimate_increments_binary64 (fuel : ℕ) (lower upper : Binary64)
    (step page : Option Binary64) : Option (Option Binary64 × Option Binary64) :=
  if ¬ fge upper lower then some (step, page)                       -- g_return_if_fail
  else if ¬ (step.isSome ∨ page.isSome) then some (step, page)       -- g_return_if_fail
  else
    let range := fsub upper lower
    if flt (.finite 0) range ∧ fle range (.finite 1) then
      match places_loop_binary64 fuel range (.finite 10) 0 with
      | none => none
      | some (places, _) =>
        some (write_cell_binary64 step (fdiv (round64 0.1) places),
          write_cell_binary64 page (fdiv (.finite 1) places))
    else if fle range (.finite 2) then
      some (write_cell_binary64 step (round64 0.01), write_cell_binary64 page (round64 0.1))
    else if fle range (.finite 5) then
      some (write_cell_binary64 step (round64 0.1), write_cell_binary64 page (.finite 1))
    else if fle range (.finite 40) then
      some (write_cell_binary64 step (.finite 1), write_cell_binary64 page (.finite 2))
    else
      some (write_cell_binary64 step (.finite 1), write_cell_binary64 page (.finite 10))

/-- The values `places` takes in the loop: `10.0`, then each the product of the
one before by `10.0`, rounded. -/
def places_seq : ℕ → Binary64
  | 0 => .finite 10
  | k + 1 => fmul (places_seq k) (.finite 10)

/-- The loop overflows on `range`: the range is in `(0, 1]` and the test
`range * places < 5.0` holds for all the 308 finite values `places` takes, so
that the loop ends with `places` at `+inf`. -/
def places_overflow (range : Binary64) : Prop :=
  flt (.finite 0) range = true ∧ fle range (.finite 1) = true ∧
    ∀ j < 308, flt (fmul range (places_seq j)) (.finite 5) = true

/-- A check `p` holds of the `n` values of the sequence of `places` from
`places` on. -/
def check_places (p : Binary64 → Bool) : ℕ → Binary64 → Bool
  | 0, _ => true
  | n + 1, places => p places && check_places p n (fmul places (.finite 10))

/-- The check made on each finite value `places` of the loop: `places` is
positive; `0.1 / places` and `1.0 / places` are finite, the first positive and
at most half the second; `1.0 / places` times `places` is within `2 ^ (-52)` of
1; and the next value of `places` is `+inf` or at most
`10 * places * (1 + 2 ^ (-52))`. -/
def increments_check (places : Binary64) : Bool :=
  match places, fdiv (round64 0.1) places, fdiv (.finite 1) places with
  | .finite m, .finite s, .finite p =>
    decide (0 < m ∧ 0 < s ∧ 2 * s ≤ p ∧ p * m ≤ 1 + 1 / 2 ^ 52 ∧ 1 - 1 / 2 ^ 52 ≤ p * m) &&
    (match fmul places (.finite 10) with
      | .finite m2 => decide (m2 ≤ 10 * m * (1 + 1 / 2 ^ 52))
      | .pos_inf => true
      | _ => false)
  | _, _, _ => false

/-! ## Data model of the dialog builder -/

/-- The `G_PARAM_SPEC_TYPE` of a property: the three types the builder
dispatches on (an integer property carries the `minimum` and `maximum` of its
`GParamSpecInt`), and any other type, with its type name. -/
inductive ParamType where
  | boolean
  | int (minimum maximum : Int)
  | string
  | other (type_name : String)
deriving DecidableEq, Repr

/-- Type name of a parameter type, `G_PARAM_SPEC_TYPE_NAME`. -/
def ParamType.type_name : ParamType → String
  | .boolean => "GParamBoolean"
  | .int _ _ => "GParamInt"
  | .string => "GParamString"
  | .other n => n

/-- A `GParamSpec` of the configuration object: name, nick, type and whether its
`owner_type` is `GIMP_TYPE_PROCEDURE_CONFIG` (the base configuration type). -/
structure ParamSpec where
  name : String
  nick : String
  ptype : ParamType
  owner_is_procedure_config : Bool
deriving DecidableEq, Repr

/-- The `widget_type` argument: `G_TYPE_NONE`, the widget types the builder
compares against, and any other `GType`, with its type name. -/
inductive GType where
  | none
  | check_button
  | switch
  | label_spin
  | scale_entry
  | spin_button
  | text_view
  | entry
  | other (type_name : String)
deriving DecidableEq, Repr

/-- Name of a widget type, `g_type_name (widget_type)`: the text the "not
supported" warning is meant to print. The source does not call `g_type_name`
there but `G_OBJECT_TYPE_NAME (widget_type)`, which takes an object instance;
that read is recorded by `Dialog.invalid_read`. -/
def GType.type_name : GType → String
  | .none => "void"
  | .check_button => "GtkCheckButton"
  | .switch => "GtkSwitch"
  | .label_spin => "GimpLabelSpin"
  | .scale_entry => "GimpScaleEntry"
  | .spin_button => "GimpSpinButton"
  | .text_view => "GtkTextView"
  | .entry => "GtkEntry"
  | .other n => n

/-- What a constructed widget is. Children of containers are referred to by
their address. -/
inductive WidgetKind where
  | check_button (property label : String)
  | switch (property label : String)
  | label_spin (property : String)
  | scale_entry (property label : String)
  | spin_button (property : String) (step page : ℚ)
  | text_view (property : String)
  | entry (property : String)
  | label_int_widget (label property : String) (store : Nat)
  | label (text : String)
  | flow_box (children : List Nat)
  | frame (title contents : Option Nat)
deriving DecidableEq, Repr

/-- A widget instance: `addr` is its identity (the pointer), fresh for every
constructed widget. -/
structure Widget where
  addr : Nat
  kind : WidgetKind
deriving DecidableEq, Repr

/-- `GIMP_IS_LABELED`: label-spin, scale-entry and label-int widgets are
`GimpLabeled`. -/
def Widget.is_labeled (w : Widget) : Bool :=
  match w.kind with
  | .label_spin _ => true
  | .scale_entry _ _ => true
  | .label_int_widget _ _ _ => true
  | _ => false

/-- `GTK_IS_CHECK_BUTTON`. -/
def Widget.is_check_button (w : Widget) : Bool :=
  match w.kind with
  | .check_button _ _ => true
  | _ => false

/-- `GTK_IS_SWITCH`. -/
def Widget.is_switch (w : Widget) : Bool :=
  match w.kind with
  | .switch _ _ => true
  | _ => false

/-- A property binding `title.active -> contents.sensitive` made by
`g_object_bind_property`; `invert` is `G_BINDING_INVERT_BOOLEAN`. -/
structure Binding where
  source : Nat
  target : Nat
  invert : Bool
deriving DecidableEq, Repr

/-- The string-keyed `GHashTable` of widgets, as an association list with at
most one entry per key. -/
abbrev WidgetTable := List (String × Widget)

/-- Model of `g_hash_table_lookup`. -/
def g_hash_table_lookup : WidgetTable → String → Option Widget
  | [], _ => none
  | (k, v) :: rest, key => if k = key then some v else g_hash_table_lookup rest key

/-- Model of `g_hash_table_insert`: a value already stored under the key is
replaced. -/
def g_hash_table_insert : WidgetTable → String → Widget → WidgetTable
  | [], key, v => [(key, v)]
  | (k, w) :: rest, key, v =>
    if k = key then (k, v) :: rest else (k, w) :: g_hash_table_insert rest key v

/-- The state of a `GimpProcedureDialog` that the builder functions read and
write.

* `config` : the properties of the class of `priv->config`, in declaration order;
* `widgets` : `priv->widgets`;
* `label_group` : addresses of the widgets whose label was added to
  `priv->label_group`;
* `content_area` : addresses packed into the dialog's content area, in order;
* `shown` : addresses on which `gtk_widget_show` was called, in order;
* `bindings` : property bindings created;
* `warnings` : the `g_warning` messages emitted, in order;
* `next_addr` : the number of widgets constructed so far (the next fresh address);
* `replaced` : history variable, the keys for which a `g_hash_table_insert`
  replaced a value that was already stored;
* `invalid_reads` : history variable, the expressions evaluated so far that
  read through a value which is not a pointer to an object. Such a read is
  undefined behaviour in C; the embedding records it and carries on with what
  the statement visibly attempts. -/
structure Dialog where
  config : List ParamSpec
  widgets : WidgetTable
  label_group : List Nat
  content_area : List Nat
  shown : List Nat
  bindings : List Binding
  warnings : List String
  next_addr : Nat
  replaced : List String
  invalid_reads : List String
deriving DecidableEq, Repr

/-- A dialog as left by `gimp_procedure_dialog_init`: empty hash table, nothing
built. -/
def Dialog.init (config : List ParamSpec) : Dialog :=
  { config := config, widgets := [], label_group := [], content_area := [],
    shown := [], bindings := [], warnings := [], next_addr := 0, replaced := [],
    invalid_reads := [] }

/-- Model of `g_object_class_find_property` on the class of the configuration:
the property descriptor with that name, if any. -/
def g_object_class_find_property (config : List ParamSpec) (name : String) :
    Option ParamSpec :=
  config.find? (fun p => p.name = name)

/-- Emit a `g_warning`. -/
def Dialog.g_warning (d : Dialog) (msg : String) : Dialog :=
  { d with warnings := d.warnings ++ [msg] }

/-- Record the evaluation of an expression that reads through a value which is
not a pointer to an object. -/
def Dialog.invalid_read (d : Dialog) (expression : String) : Dialog :=
  { d with invalid_reads := d.invalid_reads ++ [expression] }

/-- Construct a widget: allocate a fresh address for it. -/
def Dialog.new_widget (d : Dialog) (kind : WidgetKind) : Widget × Dialog :=
  ({ addr := d.next_addr, kind := kind }, { d with next_addr := d.next_addr + 1 })

/-- The call `g_hash_table_insert (dialog->priv->widgets, g_strdup (key), widget)`,
recording in `replaced` when the key was already present. -/
def Dialog.insert_widget (d : Dialog) (key : String) (w : Widget) : Dialog :=
  { d with
    widgets := g_hash_table_insert d.widgets key w
    replaced :=
      if (g_hash_table_lookup d.widgets key).isSome then d.replaced ++ [key]
      else d.replaced }

/-! ## Widget constructors

The constructors live in `libgimpwidgets` and GTK; each is modelled by the kind
of widget it returns, and none of them returns `NULL` for a property of the
type it is called with here. -/

/-- Modelled from the spec: `gimp_prop_check_button_new` (libgimpwidgets, absent
from the sources at hand), the toggle control for a boolean property. -/
def gimp_prop_check_button_new (property label : String) : WidgetKind :=
  .check_button property label

/-- Modelled from the spec: `gimp_prop_switch_new` (libgimpwidgets, absent from
the sources at hand), the on/off switch for a boolean property; it also hands
back a label through its `&label` argument. -/
def gimp_prop_switch_new (property label : String) : WidgetKind :=
  .switch property label

/-- Modelled from the spec: `gimp_prop_label_spin_new` (libgimpwidgets, absent
from the sources at hand), the labeled numeric spinner. -/
def gimp_prop_label_spin_new (property : String) : WidgetKind :=
  .label_spin property

/-- Modelled from the spec: `gimp_prop_scale_entry_new` (libgimpwidgets, absent
from the sources at hand), the labeled scale entry. -/
def gimp_prop_scale_entry_new (property label : String) : WidgetKind :=
  .scale_entry property label

/-- Modelled from the spec: `gimp_prop_spin_button_new` (libgimpwidgets, absent
from the sources at hand), the bare spinner with the given step and page
increments. -/
def gimp_prop_spin_button_new (property : String) (step page : ℚ) : WidgetKind :=
  .spin_button property step page

/-- Modelled from the spec: `gimp_prop_text_buffer_new` followed by
`gtk_text_view_new_with_buffer` (libgimpwidgets and GTK, absent from the sources
at hand), the multi-line text editor. -/
def gtk_text_view_new_with_buffer (property : String) : WidgetKind :=
  .text_view property

/-- Modelled from the spec: `gimp_prop_entry_new` (libgimpwidgets, absent from
the sources at hand), the single-line entry. -/
def gimp_prop_entry_new (property : String) : WidgetKind :=
  .entry property

/-- Modelled from the spec: `gimp_prop_int_combo_box_new` wrapped by
`gimp_label_int_widget_new` (libgimpwidgets, absent from the sources at hand),
the labeled combo box bound to the caller's store. -/
def gimp_label_int_widget_new (label property : String) (store : Nat) : WidgetKind :=
  .label_int_widget label property store

/-! ## The builder functions -/

/-- Outcome of the type dispatch of `gimp_procedure_dialog_get_widget`:
`unsupported_type` is the final `else` branch (early return); `built w` is the
value of the local `widget` after the `if` chain, `none` when no branch assigned
it, together with whether the local `label` was set. -/
inductive Dispatch where
  | unsupported_type
  | built (widget : Option WidgetKind) (label : Bool)
deriving DecidableEq, Repr

/-- The `if` chain of `gimp_procedure_dialog_get_widget` over the type of `pspec`
and the requested `widget_type`. -/
def get_widget_dispatch (pspec : ParamSpec) (property : String) (widget_type : GType) :
    Dispatch :=
  match pspec.ptype with
  | .boolean =>
    if widget_type = .none ∨ widget_type = .check_button then
      .built (some (gimp_prop_check_button_new property pspec.nick)) false
    else if widget_type = .switch then
      .built (some (gimp_prop_switch_new property pspec.nick)) true
    else .built none false
  | .int minimum maximum =>
    if widget_type = .none ∨ widget_type = .label_spin then
      .built (some (gimp_prop_label_spin_new property)) false
    else if widget_type = .scale_entry then
      .built (some (gimp_prop_scale_entry_new property pspec.nick)) false
    else if widget_type = .spin_button then
      -- gdouble step = 0.0; gdouble page = 0.0;
      let r := gimp_procedure_dialog_estimate_increments minimum maximum (some 0.0) (some 0.0)
      .built (some (gimp_prop_spin_button_new property (r.1.getD 0.0) (r.2.getD 0.0))) false
    else .built none false
  | .string =>
    if widget_type = .none ∨ widget_type = .text_view then
      .built (some (gtk_text_view_new_with_buffer property)) false
    else if widget_type = .entry then
      .built (some (gimp_prop_entry_new property)) false
    else .built none false
  | .other _ => .unsupported_type

/-- Embedding of `gimp_procedure_dialog_get_widget (dialog, property, widget_type)`. -/
def gimp_procedure_dialog_get_widget (dialog : Dialog) (property : String)
    (widget_type : GType) : Option Widget × Dialog :=
  match g_hash_table_lookup dialog.widgets property with
  | some widget => (some widget, dialog)
  | none =>
    match g_object_class_find_property dialog.config property with
    | none =>
      (none, dialog.g_warning
        ("gimp_procedure_dialog_get_widget: parameter " ++ property ++ " does not exist."))
    | some pspec =>
      match get_widget_dispatch pspec property widget_type with
      | .unsupported_type =>
        (none, dialog.g_warning
          ("gimp_procedure_dialog_get_widget: parameter " ++ property ++
            " has non supported type " ++ pspec.ptype.type_name))
      | .built none _ =>
        -- the argument `G_OBJECT_TYPE_NAME (widget_type)` of the warning expands to
        -- `g_type_name (((GTypeInstance *) widget_type)->g_class->g_type)`: the
        -- `GType` number is read as a pointer to an instance
        (none, (dialog.invalid_read "G_OBJECT_TYPE_NAME (widget_type)").g_warning
          ("gimp_procedure_dialog_get_widget: widget type " ++ widget_type.type_name ++
            " not supported for parameter '" ++ property ++ "' of type " ++
            pspec.ptype.type_name))
      | .built (some kind) label =>
        let (widget, d1) := dialog.new_widget kind
        let d2 : Dialog :=
          if widget.is_labeled ∨ label then
            { d1 with label_group := d1.label_group ++ [widget.addr] }
          else d1
        (some widget, d2.insert_widget property widget)

/-- Embedding of `gimp_procedure_dialog_get_int_combo (dialog, property, store)`. -/
def gimp_procedure_dialog_get_int_combo (dialog : Dialog) (property : String)
    (store : Nat) : Option Widget × Dialog :=
  match g_hash_table_lookup dialog.widgets property with
  | some widget => (some widget, dialog)
  | none =>
    match g_object_class_find_property dialog.config property with
    | none =>
      (none, dialog.g_warning
        ("gimp_procedure_dialog_get_int_combo: parameter " ++ property ++ " does not exist."))
    | some pspec =>
      let isBoolOrInt : Bool :=
        match pspec.ptype with
        | .boolean => true
        | .int _ _ => true
        | _ => false
      if isBoolOrInt then
        let (widget, d1) := dialog.new_widget (gimp_label_int_widget_new pspec.nick property store)
        let d2 : Dialog :=
          if widget.is_labeled then
            { d1 with label_group := d1.label_group ++ [widget.addr] }
          else d1
        (some widget, d2.insert_widget property widget)
      else
        (none, dialog.g_warning
          ("gimp_procedure_dialog_get_int_combo: parameter '" ++ property ++ "' of type " ++
            pspec.ptype.type_name ++ " not suitable as GimpIntComboBox"))

/-- Embedding of `gimp_procedure_dialog_get_label (dialog, label_id, text)`. -/
def gimp_procedure_dialog_get_label (dialog : Dialog) (label_id text : String) :
    Option Widget × Dialog :=
  if (g_object_class_find_property dialog.config label_id).isSome then
    (none, dialog.g_warning
      ("gimp_procedure_dialog_get_label: label identifier '" ++ label_id ++
        "' cannot be an existing property name."))
  else
    match g_hash_table_lookup dialog.widgets label_id with
    | some label =>
      (some label, dialog.g_warning
        ("gimp_procedure_dialog_get_label: label identifier '" ++ label_id ++
          "' was already configured."))
    | none =>
      let (label, d1) := dialog.new_widget (.label text)
      (some label, d1.insert_widget label_id label)

/-- The list the fill functions iterate over: the given one, or, when it is
empty (`NULL`), the names of the properties whose owner type is not
`GIMP_TYPE_PROCEDURE_CONFIG`, in the order of `g_object_class_list_properties`. -/
def fill_properties (dialog : Dialog) (properties : List String) : List String :=
  match properties with
  | [] => (dialog.config.filter (fun p => ! p.owner_is_procedure_config)).map (fun p => p.name)
  | _ => properties

/-- The packing loop of `gimp_procedure_dialog_fill_list`. -/
def fill_list_loop : List String → Dialog → Dialog
  | [], dialog => dialog
  | p :: rest, dialog =>
    match gimp_procedure_dialog_get_widget dialog p .none with
    | (some widget, d1) =>
      fill_list_loop rest
        { d1 with
          content_area := d1.content_area ++ [widget.addr]
          shown := d1.shown ++ [widget.addr] }
    | (none, d1) => fill_list_loop rest d1

/-- Embedding of `gimp_procedure_dialog_fill_list (dialog, properties)`. -/
def gimp_procedure_dialog_fill_list (dialog : Dialog) (properties : List String) : Dialog :=
  fill_list_loop (fill_properties dialog properties) dialog

/-- The packing loop of `gimp_procedure_dialog_fill_flowbox_list`; the second
component accumulates the children of the flow box, in order. -/
def fill_flowbox_loop : List String → Dialog × List Nat → Dialog × List Nat
  | [], acc => acc
  | p :: rest, (dialog, children) =>
    match gimp_procedure_dialog_get_widget dialog p .none with
    | (some widget, d1) =>
      fill_flowbox_loop rest
        ({ d1 with shown := d1.shown ++ [widget.addr] }, children ++ [widget.addr])
    | (none, d1) => fill_flowbox_loop rest (d1, children)

/-- Embedding of
`gimp_procedure_dialog_fill_flowbox_list (dialog, container_id, properties)`. -/
def gimp_procedure_dialog_fill_flowbox_list (dialog : Dialog) (container_id : String)
    (properties : List String) : Option Widget × Dialog :=
  if (g_object_class_find_property dialog.config container_id).isSome then
    (none, dialog.g_warning
      ("gimp_procedure_dialog_fill_flowbox_list: container identifier '" ++ container_id ++
        "' cannot be an existing property name."))
  else
    match g_hash_table_lookup dialog.widgets container_id with
    | some flowbox =>
      (some flowbox, dialog.g_warning
        ("gimp_procedure_dialog_fill_flowbox_list: container identifier '" ++ container_id ++
          "' was already configured."))
    | none =>
      let (flowbox0, d1) := dialog.new_widget (.flow_box [])
      let (d2, children) := fill_flowbox_loop (fill_properties d1 properties) (d1, [])
      let flowbox : Widget := { flowbox0 with kind := .flow_box children }
      (some flowbox, d2.insert_widget container_id flowbox)

/-- Second half of `gimp_procedure_dialog_fill_frame`, from `if (title_id)` on;
`frame` is the frame so far and `contents` the contents widget, if any. -/
def fill_frame_title (dialog : Dialog) (container_id : String) (frame : Widget)
    (contents : Option Widget) (title_id : Option String) (invert_title : Bool) :
    Option Widget × Dialog :=
  match title_id with
  | none => (some frame, dialog.insert_widget container_id frame)
  | some tid =>
    match gimp_procedure_dialog_get_widget dialog tid .none with
    | (none, d1) =>
      (some frame, d1.g_warning
        ("gimp_procedure_dialog_fill_frame: no property or configured widget with identifier '"
          ++ tid ++ "'."))
    | (some title, d1) =>
      let frame1 : Widget :=
        { frame with kind := .frame (some title.addr) (contents.map (fun c => c.addr)) }
      let d2 : Dialog := { d1 with shown := d1.shown ++ [title.addr] }
      let d3 : Dialog :=
        match contents with
        | some c =>
          if title.is_check_button ∨ title.is_switch then
            { d2 with
              bindings := d2.bindings ++
                [Binding.mk title.addr c.addr invert_title] }
          else d2
        | none => d2
      (some frame1, d3.insert_widget container_id frame1)

/-- Embedding of `gimp_procedure_dialog_fill_frame (dialog, container_id, title_id,
invert_title, contents_id)`; `none` for a `NULL` `title_id` or `contents_id`. -/
def gimp_procedure_dialog_fill_frame (dialog : Dialog) (container_id : String)
    (title_id : Option String) (invert_title : Bool) (contents_id : Option String) :
    Option Widget × Dialog :=
  if (g_object_class_find_property dialog.config container_id).isSome then
    (none, dialog.g_warning
      ("gimp_procedure_dialog_fill_frame: frame identifier '" ++ container_id ++
        "' cannot be an existing property name."))
  else
    match g_hash_table_lookup dialog.widgets container_id with
    | some frame =>
      (some frame, dialog.g_warning
        ("gimp_procedure_dialog_fill_frame: frame identifier '" ++ container_id ++
          "' was already configured."))
    | none =>
      let (frame, d1) := dialog.new_widget (.frame none none)
      match contents_id with
      | none => fill_frame_title d1 container_id frame none title_id invert_title
      | some cid =>
        match gimp_procedure_dialog_get_widget d1 cid .none with
        | (none, d2) =>
          (some frame, d2.g_warning
            ("gimp_procedure_dialog_fill_frame: no property or configured widget with " ++
              "identifier '" ++ cid ++ "'."))
        | (some contents, d2) =>
          let frame1 : Widget := { frame with kind := .frame none (some contents.addr) }
          let d3 : Dialog := { d2 with shown := d2.shown ++ [contents.addr] }
          fill_frame_title d3 container_id frame1 (some contents) title_id invert_title

/-- A call of one of the builder functions, with its arguments. -/
inductive BuilderOp where
  | get_widget (property : String) (widget_type : GType)
  | get_int_combo (property : String) (store : Nat)
  | get_label (label_id text : String)
  | fill_list (properties : List String)
  | fill_flowbox_list (container_id : String) (properties : List String)
  | fill_frame (container_id : String) (title_id : Option String) (invert_title : Bool)
      (contents_id : Option String)
deriving DecidableEq, Repr

/-- Perform one builder call on a dialog: the returned widget (none for `NULL`
and for the `void` function `fill_list`) and the dialog afterwards. -/
def BuilderOp.call (op : BuilderOp) (dialog : Dialog) : Option Widget × Dialog :=
  match op with
  | .get_widget property widget_type =>
    gimp_procedure_dialog_get_widget dialog property widget_type
  | .get_int_combo property store => gimp_procedure_dialog_get_int_combo dialog property store
  | .get_label label_id text => gimp_procedure_dialog_get_label dialog label_id text
  | .fill_list properties => (none, gimp_procedure_dialog_fill_list dialog properties)
  | .fill_flowbox_list container_id properties =>
    gimp_procedure_dialog_fill_flowbox_list dialog container_id properties
  | .fill_frame container_id title_id invert_title contents_id =>
    gimp_procedure_dialog_fill_frame dialog container_id title_id invert_title contents_id

/-- Perform a sequence of builder calls, in order. -/
def run_ops : List BuilderOp → Dialog → Dialog
  | [], dialog => dialog
  | op :: rest, dialog => run_ops rest (op.call dialog).2

/-! ## Predicates used in the statements -/

/-- The widget kinds the specification lists for each property type: toggle or
switch for a boolean, labeled spinner, scale entry or bare spinner for an
integer, text view or entry for a string, `G_TYPE_NONE` standing for the
default; no kind for any other type. -/
def kind_accepted : ParamType → GType → Bool
  | .boolean, .none => true
  | .boolean, .check_button => true
  | .boolean, .switch => true
  | .int _ _, .none => true
  | .int _ _, .label_spin => true
  | .int _ _, .scale_entry => true
  | .int _ _, .spin_button => true
  | .string, .none => true
  | .string, .text_view => true
  | .string, .entry => true
  | _, _ => false

/-- The dialog `d2` keeps the configuration class of `d1`, keeps every entry of
its widget table under the same key with the same widget, and no insertion
between them replaced a stored value. -/
structure CacheKept (d1 d2 : Dialog) : Prop where
  config_eq : d2.config = d1.config
  kept : ∀ (key : String) (w : Widget),
    g_hash_table_lookup d1.widgets key = some w → g_hash_table_lookup d2.widgets key = some w
  replaced_eq : d2.replaced = d1.replaced

/-- Every key that is new in the widget table of `d2` is the name of a property
of the configuration. -/
def NewKeysAreProperties (d1 d2 : Dialog) : Prop :=
  ∀ key : String, g_hash_table_lookup d1.widgets key = none →
    g_object_class_find_property d1.config key = none →
    g_hash_table_lookup d2.widgets key = none

/-- An example dialog, freshly initialised, over a configuration with the base
type's own `procedure` property, a boolean, an integer and a string property. -/
def example_dialog : Dialog :=
  Dialog.init
    [⟨"procedure", "Procedure", .other "GParamObject", true⟩,
     ⟨"enabled", "Enabled", .boolean, false⟩,
     ⟨"count", "Count", .int 0 10, false⟩,
     ⟨"comment", "Comment", .string, false⟩]

/-! ## The bulk fill in the specification's words -/

/-- Following the specification's words for the bulk fill: the results of
`get_widget (p, default kind)` for the identifiers `p` of the list, in order,
each call made on the dialog the call before left; with the dialog after the
last call. -/
def get_widget_results : List String → Dialog → List (Option Widget) × Dialog
  | [], dialog => ([], dialog)
  | p :: rest, dialog =>
    let r := gimp_procedure_dialog_get_widget dialog p .none
    let rs := get_widget_results rest r.2
    (r.1 :: rs.1, rs.2)

/-- The addresses of the non-null widgets among a list of results, in order. -/
def packed_addresses (results : List (Option Widget)) : List Nat :=
  results.filterMap (fun r => r.map (fun w => w.addr))

/-! ## The configuration under edit, reset and run -/

/-- The value of a property of the configuration. -/
inductive PropValue where
  | boolean (b : Bool)
  | int (i : Int)
  | string (s : String)
deriving DecidableEq, Repr

/-- Values of the properties of a configuration, by property name. -/
abbrev ConfigValues := List (String × PropValue)

/-- A `GimpProcedureConfig` object: the declared default of each property and
its current value. -/
structure ProcedureConfig where
  defaults : ConfigValues
  values : ConfigValues
deriving DecidableEq, Repr

/-- Modelled from the spec: `gimp_config_duplicate` (libgimpconfig, absent from
the sources at hand), the snapshot of a configuration: a new object with the
same values. -/
def gimp_config_duplicate (config : ProcedureConfig) : ProcedureConfig :=
  config

/-- Modelled from the spec: `gimp_config_copy (src, dest, 0)` (libgimpconfig,
absent from the sources at hand), copy-from-snapshot: `dest` takes the values
of `src`. -/
def gimp_config_copy (src dest : ProcedureConfig) : ProcedureConfig :=
  { dest with values := src.values }

/-- Modelled from the spec: `gimp_config_reset` (libgimpconfig, absent from the
sources at hand), reset-to-declared-defaults. -/
def gimp_config_reset (config : ProcedureConfig) : ProcedureConfig :=
  { config with values := config.defaults }

/-- Write one property of a configuration (`g_object_set`), as a widget bound to
it does on an edit; a name that is no property changes nothing. -/
def ProcedureConfig.set_value (config : ProcedureConfig) (name : String) (value : PropValue) :
    ProcedureConfig :=
  { config with
    values := config.values.map (fun e => if e.1 = name then (e.1, value) else e) }

/-- The part of a `GimpProcedureDialog` that construction, the reset and
defaults buttons and `gimp_procedure_dialog_run` read and write.

* `config` : `priv->config`, the object under edit (shared with the caller);
* `initial_config` : `priv->initial_config`;
* `reset_popover` : `priv->reset_popover`, `none` for `NULL`, otherwise whether
  the popover is popped up;
* `printed` : what was written with `g_printerr`, in order. -/
structure DialogSession where
  config : Option ProcedureConfig
  initial_config : Option ProcedureConfig
  reset_popover : Option Bool
  printed : List String
deriving DecidableEq, Repr

/-- Embedding of the `PROP_CONFIG` case of `gimp_procedure_dialog_set_property`. -/
def gimp_procedure_dialog_set_property (dialog : DialogSession)
    (value : Option ProcedureConfig) : DialogSession :=
  match value with
  | some config =>
    { dialog with config := some config, initial_config := some (gimp_config_duplicate config) }
  | none => { dialog with config := none }

/-- The session of a dialog made by `gimp_procedure_dialog_new (procedure, config,
title)`: the `config` construct property is set once, on a dialog with no
popover. -/
def gimp_procedure_dialog_new (config : ProcedureConfig) : DialogSession :=
  gimp_procedure_dialog_set_property
    { config := none, initial_config := none, reset_popover := none, printed := [] }
    (some config)

/-- Embedding of `gimp_procedure_dialog_reset_initial`. -/
def gimp_procedure_dialog_reset_initial (dialog : DialogSession) : DialogSession :=
  let copied : Option ProcedureConfig :=
    match dialog.initial_config, dialog.config with
    | some initial, some config => some (gimp_config_copy initial config)
    | _, _ => dialog.config
  { dialog with config := copied, reset_popover := dialog.reset_popover.map (fun _ => false) }

/-- Embedding of `gimp_procedure_dialog_reset_factory`. -/
def gimp_procedure_dialog_reset_factory (dialog : DialogSession) : DialogSession :=
  { dialog with
    config := dialog.config.map gimp_config_reset
    reset_popover := dialog.reset_popover.map (fun _ => false) }

/-- Embedding of `gimp_procedure_dialog_load_defaults`. The outcome of
`gimp_procedure_config_load_default` (the persistence layer, absent from the
sources at hand) is an argument: whether it succeeded, the values it left in
the configuration, and the error it set, if any. -/
def gimp_procedure_dialog_load_defaults (dialog : DialogSession) (success : Bool)
    (values : ConfigValues) (error : Option String) : DialogSession :=
  let d1 : DialogSession :=
    { dialog with config := dialog.config.map (fun c => { c with values := values }) }
  if success then d1
  else
    match error with
    | some message =>
      { d1 with
        printed := d1.printed ++ ["Loading default values from disk failed: " ++ message ++ "\n"] }
    | none => { d1 with printed := d1.printed ++ ["No default values found on disk\n"] }

/-- Embedding of `gimp_procedure_dialog_save_defaults`. The outcome of
`gimp_procedure_config_save_default` (the persistence layer, absent from the
sources at hand) is an argument: the error message of a failed save, `none`
when it succeeded. -/
def gimp_procedure_dialog_save_defaults (dialog : DialogSession) (error : Option String) :
    DialogSession :=
  match error with
  | some message =>
    { dialog with
      printed := dialog.printed ++ ["Saving default values to disk failed: " ++ message ++ "\n"] }
  | none => dialog

/-- What can happen to the dialog while its modal loop runs: an edit of a
property through a bound widget, or a click on one of the four buttons, the two
defaults buttons with the outcome of the persistence layer. -/
inductive DialogAction where
  | edit (name : String) (value : PropValue)
  | load_defaults (success : Bool) (values : ConfigValues) (error : Option String)
  | save_defaults (error : Option String)
  | reset_initial
  | reset_factory
deriving DecidableEq, Repr

/-- Perform one action on the dialog. -/
def DialogAction.perform (action : DialogAction) (dialog : DialogSession) : DialogSession :=
  match action with
  | .edit name value =>
    { dialog with config := dialog.config.map (fun c => c.set_value name value) }
  | .load_defaults success values error =>
    gimp_procedure_dialog_load_defaults dialog success values error
  | .save_defaults error => gimp_procedure_dialog_save_defaults dialog error
  | .reset_initial => gimp_procedure_dialog_reset_initial dialog
  | .reset_factory => gimp_procedure_dialog_reset_factory dialog

/-- Perform a sequence of actions, in order. -/
def perform_actions : List DialogAction → DialogSession → DialogSession
  | [], dialog => dialog
  | action :: rest, dialog => perform_actions rest (action.perform dialog)

/-- The response id of the Reset button, `#define RESPONSE_RESET 1`. -/
def RESPONSE_RESET : Int := 1

/-- The GTK response id `GTK_RESPONSE_OK`. -/
def GTK_RESPONSE_OK : Int := -5

/-- The GTK response id `GTK_RESPONSE_CANCEL`. -/
def GTK_RESPONSE_CANCEL : Int := -6

/-- One call of `gimp_dialog_run` inside `gimp_procedure_dialog_run`: the
actions performed while it runs its event loop, and the response it returns. -/
structure RunEvent where
  actions : List DialogAction
  response : Int
deriving DecidableEq, Repr

/-- Embedding of `gimp_procedure_dialog_run (dialog)` over the calls of
`gimp_dialog_run` it makes: the result is the value returned, `none` while the
loop still waits for a response, and the dialog at that point. -/
def gimp_procedure_dialog_run : List RunEvent → DialogSession → Option Bool × DialogSession
  | [], dialog => (none, dialog)
  | event :: rest, dialog =>
    let d1 := perform_actions event.actions dialog
    if event.response = RESPONSE_RESET then
      -- the popover is made on the first Reset, then popped up
      gimp_procedure_dialog_run rest { d1 with reset_popover := some true }
    else
      (some (decide (event.response = GTK_RESPONSE_OK)), d1)

/-- An example configuration: a boolean and an integer property, both edited
away from their declared defaults. -/
def example_config : ProcedureConfig :=
  { defaults := [("enabled", .boolean false), ("count", .int 1)],
    values := [("enabled", .boolean true), ("count", .int 7)] }

/-! ## Counting the turns of the search loop -/

/-- The number of times the body `places *= 10.0` of the loop
`while (range * places < 5.0) places *= 10.0;` runs in exact arithmetic,
started from `places`: the same recursion as `places_loop`, counting the
turns. -/
def places_loop_iterations (range places : ℚ) (hr : 0 < range) (hp : 0 < places) : ℕ :=
  if h : range * places < 5.0 then
    places_loop_iterations range (places * 10.0) hr (mul_pos hp (by norm_num)) + 1
  else
    0
termination_by Nat.ceil (5 / (range * places))
decreasing_by
  -- the measure `⌈5 / (range * places)⌉` strictly decreases on each turn
  have hrp : 0 < range * places := mul_pos hr hp
  have hx : (1 : ℚ) < 5 / (range * places) := by
    rw [lt_div_iff₀ hrp]; linarith
  have e : 5 / (range * (places * 10.0)) = 5 / (range * places) / 10 := by
    field_simp; ring
  rw [e]
  generalize 5 / (range * places) = x at hx
  have hn : 1 < Nat.ceil x := Nat.lt_ceil.mpr (by exact_mod_cast hx)
  have hle : x ≤ (Nat.ceil x : ℚ) := Nat.le_ceil x
  have h2 : (2 : ℚ) ≤ (Nat.ceil x : ℚ) := by exact_mod_cast hn
  have hc : Nat.ceil (x / 10) ≤ Nat.ceil x - 1 := by
    apply Nat.ceil_le.mpr
    have hcast : ((Nat.ceil x - 1 : ℕ) : ℚ) = (Nat.ceil x : ℚ) - 1 := by
      rw [Nat.cast_sub (by omega)]; simp
    rw [hcast]; linarith
  omega

end GimpProcedureDialog

namespace GimpPlugInProc

/-! ## Procedure metadata registrar (`app/plug-in/gimpplugin-proc.c`): data model -/

/-- The `GimpIconType` of an icon. -/
inductive GimpIconType where
  | icon_name
  | pixbuf
  | image_file
deriving DecidableEq, Repr

/-- The icon descriptor of a procedure: the arguments of the icon setter. -/
structure Icon where
  icon_type : GimpIconType
  data : Option (List Nat)
  data_length : Int
deriving DecidableEq, Repr

/-- A procedure (`GimpPlugInProcedure`) with the metadata the registrar sets;
`none` is an unset (`NULL`) string. -/
structure Procedure where
  name : String
  image_types : Option String
  menu_label : Option String
  menu_paths : List String
  icon : Option Icon
  blurb : Option String
  help : Option String
  help_id : Option String
  authors : Option String
  copyright : Option String
  date : Option String
deriving DecidableEq, Repr

/-- Severity of a message sent through `gimp_message`. -/
inductive GimpMessageSeverity where
  | info
  | warning
  | error
deriving DecidableEq, Repr

/-- A message on the host's messaging channel. -/
structure Message where
  severity : GimpMessageSeverity
  text : String
deriving DecidableEq, Repr

/-- The two procedure tables of a plug-in. -/
inductive ProcTable where
  | static
  | temporary
deriving DecidableEq, Repr

/-- A `GimpPlugInProcedure *`: the table the procedure is in and its position. -/
structure ProcRef where
  table : ProcTable
  index : Nat
deriving DecidableEq, Repr

/-- The state of a `GimpPlugIn` the registrar reads and writes.

* `name` : `gimp_object_get_name (plug_in)`;
* `file` : `gimp_file_get_utf8_name (plug_in->file)`;
* `plug_in_def` : `plug_in->plug_in_def->procedures`, `none` when
  `plug_in->plug_in_def` is `NULL`;
* `temp_procedures` : `plug_in->temp_procedures`;
* `messages` : what was sent to `plug_in->manager->gimp` through
  `gimp_message`, in order. -/
structure PlugIn where
  name : String
  file : String
  plug_in_def : Option (List Procedure)
  temp_procedures : List Procedure
  messages : List Message
deriving DecidableEq, Repr

/-- The procedures of the static table, none when there is no static
definition. -/
def PlugIn.static_procedures (plug_in : PlugIn) : List Procedure :=
  plug_in.plug_in_def.getD []

/-- Write `proc` through the pointer `ref`: the procedure at that position of
that table now is `proc`. -/
def PlugIn.store (plug_in : PlugIn) (ref : ProcRef) (proc : Procedure) : PlugIn :=
  match ref.table with
  | .static =>
    { plug_in with plug_in_def := plug_in.plug_in_def.map (fun l => l.set ref.index proc) }
  | .temporary =>
    { plug_in with temp_procedures := plug_in.temp_procedures.set ref.index proc }

/-- Send an error through `gimp_message (plug_in->manager->gimp, NULL,
GIMP_MESSAGE_ERROR, ...)` or `gimp_message_literal`. -/
def PlugIn.gimp_message (plug_in : PlugIn) (text : String) : PlugIn :=
  { plug_in with messages := plug_in.messages ++ [⟨.error, text⟩] }

/-- The behaviour of the three procedure setters that can fail, which the
specification leaves open: for each, the error it reports on the given
arguments (`none` when it succeeds) and the state a failed call leaves the
procedure in. -/
structure SetterFailures where
  menu_label_error : Procedure → String → Option String
  menu_label_failed : Procedure → String → Procedure
  menu_path_error : Procedure → String → Option String
  menu_path_failed : Procedure → String → Procedure
  icon_error : Procedure → Icon → Option String
  icon_failed : Procedure → Icon → Procedure

/-! ## Procedure setters and table search -/

/-- Modelled from the spec: `gimp_plug_in_procedure_find` (gimppluginprocedure.c,
absent from the sources at hand), the search of a procedure by name in a table;
it returns the first procedure of that name with its position. -/
def gimp_plug_in_procedure_find : List Procedure → String → Option (Nat × Procedure)
  | [], _ => none
  | p :: rest, proc_name =>
    if p.name = proc_name then some (0, p)
    else (gimp_plug_in_procedure_find rest proc_name).map (fun r => (r.1 + 1, r.2))

/-- Modelled from the spec: `gimp_plug_in_procedure_set_image_types`
(gimppluginprocedure.c, absent from the sources at hand), the setter of the
image-type filter string; it cannot fail. -/
def gimp_plug_in_procedure_set_image_types (proc : Procedure) (image_types : Option String) :
    Procedure :=
  { proc with image_types := image_types }

/-- Modelled from the spec: `gimp_plug_in_procedure_set_menu_label`
(gimppluginprocedure.c, absent from the sources at hand). It may fail with a
descriptive error, leaving the procedure in whatever state the failed setter
left it; when it succeeds the menu label is the new one. The result is the
procedure after the call and the error, `none` for a `TRUE` return. -/
def gimp_plug_in_procedure_set_menu_label (env : SetterFailures) (proc : Procedure)
    (menu_label : String) : Procedure × Option String :=
  match env.menu_label_error proc menu_label with
  | some message => (env.menu_label_failed proc menu_label, some message)
  | none => ({ proc with menu_label := some menu_label }, none)

/-- Modelled from the spec: `gimp_plug_in_procedure_add_menu_path`
(gimppluginprocedure.c, absent from the sources at hand). It may fail with a
descriptive error (an invalid path syntax, say), leaving the procedure in
whatever state the failed setter left it; when it succeeds the path is appended
to the ordered list of menu paths. -/
def gimp_plug_in_procedure_add_menu_path (env : SetterFailures) (proc : Procedure)
    (menu_path : String) : Procedure × Option String :=
  match env.menu_path_error proc menu_path with
  | some message => (env.menu_path_failed proc menu_path, some message)
  | none => ({ proc with menu_paths := proc.menu_paths ++ [menu_path] }, none)

/-- Modelled from the spec: `gimp_plug_in_procedure_set_icon`
(gimppluginprocedure.c, absent from the sources at hand). It may fail with a
descriptive error (malformed icon data, say), leaving the procedure in whatever
state the failed setter left it; when it succeeds the icon descriptor is the
new one. -/
def gimp_plug_in_procedure_set_icon (env : SetterFailures) (proc : Procedure)
    (type : GimpIconType) (data : Option (List Nat)) (data_length : Int) :
    Procedure × Option String :=
  match env.icon_error proc ⟨type, data, data_length⟩ with
  | some message => (env.icon_failed proc ⟨type, data, data_length⟩, some message)
  | none => ({ proc with icon := some ⟨type, data, data_length⟩ }, none)

/-- Modelled from the spec: `gimp_procedure_set_help` (gimpprocedure.c, absent
from the sources at hand), the setter of the help blurb, text and id; it cannot
fail. -/
def gimp_procedure_set_help (proc : Procedure) (blurb help help_id : Option String) :
    Procedure :=
  { proc with blurb := blurb, help := help, help_id := help_id }

/-- Modelled from the spec: `gimp_procedure_set_attribution` (gimpprocedure.c,
absent from the sources at hand), the setter of the attribution strings; it
cannot fail. -/
def gimp_procedure_set_attribution (proc : Procedure) (authors copyright date : Option String) :
    Procedure :=
  { proc with authors := authors, copyright := copyright, date := date }

/-! ## The registrar -/

/-- Embedding of `gimp_plug_in_proc_find (plug_in, proc_name)`: the pointer to
the procedure found and the procedure it points to, `none` for `NULL`. -/
def gimp_plug_in_proc_find (plug_in : PlugIn) (proc_name : String) :
    Option (ProcRef × Procedure) :=
  let proc : Option (ProcRef × Procedure) :=
    match plug_in.plug_in_def with
    | some procedures =>
      (gimp_plug_in_procedure_find procedures proc_name).map
        (fun r => (⟨.static, r.1⟩, r.2))
    | none => none
  match proc with
  | some found => some found
  | none =>
    (gimp_plug_in_procedure_find plug_in.temp_procedures proc_name).map
      (fun r => (⟨.temporary, r.1⟩, r.2))

/-- The text of the message a registrar function sends when the procedure is
not found; `what` is the part that differs between the six functions. -/
def not_installed_message (plug_in : PlugIn) (what proc_name : String) : String :=
  "Plug-in \"" ++ plug_in.name ++ "\"\n(" ++ plug_in.file ++ ")\n" ++
    "attempted to " ++ what ++ " for procedure \"" ++ proc_name ++ "\".\n" ++
    "It has however not installed that procedure. This is not allowed."

/-- Embedding of `gimp_plug_in_set_proc_image_types (plug_in, proc_name, image_types)`. -/
def gimp_plug_in_set_proc_image_types (plug_in : PlugIn) (proc_name : String)
    (image_types : Option String) : Bool × PlugIn :=
  match gimp_plug_in_proc_find plug_in proc_name with
  | none =>
    (false, plug_in.gimp_message
      (not_installed_message plug_in "register images types" proc_name))
  | some (ref, proc) =>
    (true, plug_in.store ref (gimp_plug_in_procedure_set_image_types proc image_types))

/-- Embedding of `gimp_plug_in_set_proc_menu_label (plug_in, proc_name, menu_label)`. -/
def gimp_plug_in_set_proc_menu_label (env : SetterFailures) (plug_in : PlugIn)
    (proc_name menu_label : String) : Bool × PlugIn :=
  if menu_label = "" then (false, plug_in)      -- g_return_val_if_fail (strlen)
  else
    match gimp_plug_in_proc_find plug_in proc_name with
    | none =>
      (false, plug_in.gimp_message
        (not_installed_message plug_in
          ("register the menu label \"" ++ menu_label ++ "\"") proc_name))
    | some (ref, proc) =>
      match gimp_plug_in_procedure_set_menu_label env proc menu_label with
      | (proc1, some message) => (false, (plug_in.store ref proc1).gimp_message message)
      | (proc1, none) => (true, plug_in.store ref proc1)

/-- Embedding of `gimp_plug_in_add_proc_menu_path (plug_in, proc_name, menu_path)`. -/
def gimp_plug_in_add_proc_menu_path (env : SetterFailures) (plug_in : PlugIn)
    (proc_name menu_path : String) : Bool × PlugIn :=
  match gimp_plug_in_proc_find plug_in proc_name with
  | none =>
    (false, plug_in.gimp_message
      (not_installed_message plug_in
        ("register the menu item \"" ++ menu_path ++ "\"") proc_name))
  | some (ref, proc) =>
    match gimp_plug_in_procedure_add_menu_path env proc menu_path with
    | (proc1, some message) => (false, (plug_in.store ref proc1).gimp_message message)
    | (proc1, none) => (true, plug_in.store ref proc1)

/-- Embedding of `gimp_plug_in_set_proc_icon (plug_in, proc_name, type, data,
data_length)`. -/
def gimp_plug_in_set_proc_icon (env : SetterFailures) (plug_in : PlugIn)
    (proc_name : String) (type : GimpIconType) (data : Option (List Nat)) (data_length : Int) :
    Bool × PlugIn :=
  match gimp_plug_in_proc_find plug_in proc_name with
  | none =>
    (false, plug_in.gimp_message (not_installed_message plug_in "set the icon" proc_name))
  | some (ref, proc) =>
    match gimp_plug_in_procedure_set_icon env proc type data data_length with
    | (proc1, some message) => (false, (plug_in.store ref proc1).gimp_message message)
    | (proc1, none) => (true, plug_in.store ref proc1)

/-- Embedding of `gimp_plug_in_set_proc_help (plug_in, proc_name, blurb, help,
help_id)`. -/
def gimp_plug_in_set_proc_help (plug_in : PlugIn) (proc_name : String)
    (blurb help help_id : Option String) : Bool × PlugIn :=
  match gimp_plug_in_proc_find plug_in proc_name with
  | none =>
    (false, plug_in.gimp_message (not_installed_message plug_in "register help" proc_name))
  | some (ref, proc) =>
    (true, plug_in.store ref (gimp_procedure_set_help proc blurb help help_id))

/-- Embedding of `gimp_plug_in_set_proc_attribution (plug_in, proc_name, authors,
copyright, date)`. -/
def gimp_plug_in_set_proc_attribution (plug_in : PlugIn) (proc_name : String)
    (authors copyright date : Option String) : Bool × PlugIn :=
  match gimp_plug_in_proc_find plug_in proc_name with
  | none =>
    (false, plug_in.gimp_message
      (not_installed_message plug_in "register the attribution" proc_name))
  | some (ref, proc) =>
    (true, plug_in.store ref (gimp_procedure_set_attribution proc authors copyright date))

/-- A procedure with the given name and no metadata. -/
def Procedure.bare (name : String) : Procedure :=
  { name := name, image_types := none, menu_label := none, menu_paths := [], icon := none,
    blurb := none, help := none, help_id := none, authors := none, copyright := none,
    date := none }

/-- An example plug-in: the static procedure `plug-in-blur`, the temporary
procedures `plug-in-blur` (same name) and `temp-proc`. -/
def example_plug_in : PlugIn :=
  { name := "blur", file := "/usr/lib/gimp/plug-ins/blur",
    plug_in_def := some [Procedure.bare "plug-in-blur"],
    temp_procedures := [Procedure.bare "plug-in-blur", Procedure.bare "temp-proc"],
    messages := [] }

/-- An example of setters that can fail: the menu-path setter rejects, as of
invalid syntax, a path that does not begin with `<`, and changes nothing then;
the other two setters never fail. -/
def example_setters : SetterFailures :=
  { menu_label_error := fun _ _ => none
    menu_label_failed := fun proc _ => proc
    menu_path_error := fun _ menu_path =>
      if menu_path.front = '<' then none else some ("invalid menu location " ++ menu_path)
    menu_path_failed := fun proc _ => proc
    icon_error := fun _ _ => none
    icon_failed := fun proc _ => proc }

end GimpPlugInProc

namespace GimpProcedureDialog

/-! ## Lemmas on the search loop -/

theorem places_loop_done (range places : ℚ) (hr : 0 < range) (hp : 0 < places)
    (h : 5 ≤ range * places) : places_loop range places hr hp = places := by
  rw [places_loop]
  have : ¬ range * places < 5.0 := by norm_num; exact h
  simp [this]

theorem places_loop_again (range places : ℚ) (hr : 0 < range) (hp : 0 < places)
    (h : range * places < 5) :
    places_loop range places hr hp =
      places_loop range (places * 10) hr (mul_pos hp (by norm_num)) := by
  rw [places_loop]
  have h5 : range * places < 5.0 := by norm_num; exact h
  simp only [h5, dite_true]
  congr 1
  norm_num

/-- Started at `10^(j+1)` with every smaller power failing the exit test, the
loop stops at the first power of ten `10^(k+1)` that passes it. -/
theorem places_loop_pow (range : ℚ) (hr : 0 < range) (k : ℕ)
    (hk : 5 ≤ range * 10 ^ (k + 1))
    (hmin : ∀ i : ℕ, i < k → range * 10 ^ (i + 1) < 5) :
    ∀ (n j : ℕ), j + n = k → ∀ hp : (0 : ℚ) < 10 ^ (j + 1),
      places_loop range (10 ^ (j + 1)) hr hp = 10 ^ (k + 1) := by
  intro n
  induction n with
  | zero =>
    intro j hj hp
    have : j = k := by omega
    subst this
    exact places_loop_done range _ hr hp hk
  | succ n ih =>
    intro j hj hp
    have hlt : j < k := by omega
    rw [places_loop_again range _ hr hp (hmin j hlt)]
    have e : (10 : ℚ) ^ (j + 1) * 10 = 10 ^ (j + 1 + 1) := by ring
    have key := ih (j + 1) (by omega) (by positivity)
    simp only [e]
    exact key

/-- Value of the function on the bucket `0 < range <= 1`, in terms of the least
exponent `k` with `range * 10^(k+1) >= 5`. -/
theorem estimate_increments_places (lower upper : ℚ) (step page : Option ℚ)
    (h0 : 0 < upper - lower) (h1 : upper - lower ≤ 1) (hsp : step.isSome ∨ page.isSome)
    (k : ℕ) (hk : 5 ≤ (upper - lower) * 10 ^ (k + 1))
    (hmin : ∀ i : ℕ, i < k → (upper - lower) * 10 ^ (i + 1) < 5) :
    gimp_procedure_dialog_estimate_increments lower upper step page =
      (write_cell step (0.1 / 10 ^ (k + 1)), write_cell page (1 / 10 ^ (k + 1))) := by
  have hge : upper ≥ lower := by linarith
  have hcond : upper - lower > 0 ∧ upper - lower ≤ 1.0 := ⟨h0, by norm_num; linarith⟩
  have hloop := places_loop_pow (upper - lower) h0 k hk hmin k 0 (by omega) (by norm_num)
  have e10 : (10 : ℚ) ^ (0 + 1) = 10.0 := by norm_num
  simp only [e10] at hloop
  unfold gimp_procedure_dialog_estimate_increments
  simp only [hge, not_true_eq_false, if_false, hsp, hcond, and_self, dite_true, hloop]
  norm_num

/-- Value of the function outside the bucket `0 < range <= 1`. -/
theorem estimate_increments_large (lower upper : ℚ) (step page : Option ℚ)
    (hle : lower ≤ upper) (hsp : step.isSome ∨ page.isSome)
    (hr : upper - lower = 0 ∨ 1 < upper - lower) :
    gimp_procedure_dialog_estimate_increments lower upper step page =
      if upper - lower ≤ 2 then (write_cell step 0.01, write_cell page 0.1)
      else if upper - lower ≤ 5 then (write_cell step 0.1, write_cell page 1)
      else if upper - lower ≤ 40 then (write_cell step 1, write_cell page 2)
      else (write_cell step 1, write_cell page 10) := by
  have hge : upper ≥ lower := hle
  have hcond : ¬ (upper - lower > 0 ∧ upper - lower ≤ 1.0) := by
    norm_num
    intro hpos
    rcases hr with h | h
    · linarith
    · linarith
  unfold gimp_procedure_dialog_estimate_increments
  simp only [hge, not_true_eq_false, if_false, hsp, hcond, dite_false]
  norm_num

/-! ## Increment estimation in binary64: the loop and the buckets

Closed facts about the binary64 embedding are established by evaluating the
definitions (`decide!`). -/

/-- After 308 multiplications by `10.0` the value of `places` is `+inf`. -/
theorem places_seq_overflow : places_seq 308 = .pos_inf := by decide!

/-- A `gdouble` above zero is `+inf` or finite with a positive value. -/
theorem flt_zero_pos (range : Binary64) (h : flt (.finite 0) range = true) :
    range = .pos_inf ∨ ∃ q : ℚ, range = .finite q ∧ 0 < q := by
  cases range with
  | finite q =>
    right
    refine ⟨q, rfl, ?_⟩
    simpa [flt] using h
  | pos_inf => exact Or.inl rfl
  | neg_inf => simp [flt] at h
  | nan => simp [flt] at h

/-- The test of the loop fails once `places` is `+inf`. -/
theorem test_fails_at_overflow (range : Binary64) (h : flt (.finite 0) range = true) :
    flt (fmul range (places_seq 308)) (.finite 5) = false := by
  rw [places_seq_overflow]
  rcases flt_zero_pos range h with rfl | ⟨q, rfl, hq⟩
  · rfl
  · simp [fmul, hq, flt]

/-- The loop started at the `j`-th value of `places` stops at the first `k` from
`j` on at which the test fails, having made `k - j` turns. -/
theorem places_loop_binary64_stops (range : Binary64) (k : ℕ)
    (hk : flt (fmul range (places_seq k)) (.finite 5) = false) :
    ∀ (n j fuel turns : ℕ), j + n = k → n < fuel →
      (∀ i, j ≤ i → i < k → flt (fmul range (places_seq i)) (.finite 5) = true) →
      places_loop_binary64 fuel range (places_seq j) turns = some (places_seq k, turns + n) := by
  intro n
  induction n with
  | zero =>
    intro j fuel turns hj hf _
    obtain ⟨f, rfl⟩ : ∃ f, fuel = f + 1 := ⟨fuel - 1, by omega⟩
    have : j = k := by omega
    subst this
    simp [places_loop_binary64, hk]
  | succ n ih =>
    intro j fuel turns hj hf hlt
    obtain ⟨f, rfl⟩ : ∃ f, fuel = f + 1 := ⟨fuel - 1, by omega⟩
    have ht : flt (fmul range (places_seq j)) (.finite 5) = true := hlt j le_rfl (by omega)
    rw [places_loop_binary64]
    simp only [ht, if_true]
    have := ih (j + 1) f (turns + 1) (by omega) (by omega)
      (fun i h1 h2 => hlt i (by omega) h2)
    rw [show fmul (places_seq j) (.finite 10) = places_seq (j + 1) from rfl, this]
    congr 2
    omega

/-- For a positive range there is a first test that fails, among the first 309. -/
theorem exists_first_failing_test (range : Binary64) (h : flt (.finite 0) range = true) :
    ∃ k, k ≤ 308 ∧ flt (fmul range (places_seq k)) (.finite 5) = false ∧
      ∀ i, i < k → flt (fmul range (places_seq i)) (.finite 5) = true := by
  classical
  have hex : ∃ k, flt (fmul range (places_seq k)) (.finite 5) = false :=
    ⟨308, test_fails_at_overflow range h⟩
  refine ⟨Nat.find hex, Nat.find_min' hex (test_fails_at_overflow range h), Nat.find_spec hex, ?_⟩
  intro i hi
  have := Nat.find_min hex hi
  simpa using this

/-- The loop run from `places = 10.0` ends at the first failing test. -/
theorem places_loop_binary64_result (range : Binary64) (k fuel : ℕ) (hf : k < fuel)
    (hk : flt (fmul range (places_seq k)) (.finite 5) = false)
    (hlt : ∀ i, i < k → flt (fmul range (places_seq i)) (.finite 5) = true) :
    places_loop_binary64 fuel range (.finite 10) 0 = some (places_seq k, k) := by
  have := places_loop_binary64_stops range k hk k 0 fuel 0 (by omega) hf (fun i _ h => hlt i h)
  simpa [places_seq] using this

/-- A `gdouble` above a number is not below or equal to a smaller one. -/
theorem fle_eq_false_of_flt (a b : ℚ) (hab : a ≤ b) (r : Binary64)
    (h : flt (.finite b) r = true) : fle r (.finite a) = false := by
  cases r with
  | finite q =>
    simp only [flt, fle, decide_eq_true_eq, decide_eq_false_iff_not, not_le] at h ⊢
    linarith
  | pos_inf => rfl
  | neg_inf => simp [flt] at h
  | nan => rfl

/-- The check holds of every value of `places` it was run over. -/
theorem check_places_spec (p : Binary64 → Bool) :
    ∀ (n i : ℕ), check_places p n (places_seq i) = true →
      ∀ j, j < n → p (places_seq (i + j)) = true := by
  intro n
  induction n with
  | zero => intro i _ j hj; omega
  | succ n ih =>
    intro i h j hj
    rw [check_places, Bool.and_eq_true] at h
    cases j with
    | zero => exact h.1
    | succ j =>
      have := ih (i + 1) h.2 j (by omega)
      rw [show i + (j + 1) = i + 1 + j by omega]
      exact this

/-- The function in the bucket `0 < range <= 1.0`, given the first failing test
of the loop. -/
theorem estimate_increments_binary64_unit (fuel : ℕ) (lower upper : Binary64)
    (step page : Option Binary64) (hle : fge upper lower = true)
    (hsp : step.isSome ∨ page.isSome)
    (h0 : flt (.finite 0) (fsub upper lower) = true)
    (h1 : fle (fsub upper lower) (.finite 1) = true) (k : ℕ) (hf : k < fuel)
    (hk : flt (fmul (fsub upper lower) (places_seq k)) (.finite 5) = false)
    (hlt : ∀ i, i < k → flt (fmul (fsub upper lower) (places_seq i)) (.finite 5) = true) :
    gimp_procedure_dialog_estimate_increments_binary64 fuel lower upper step page =
      some (write_cell_binary64 step (fdiv (round64 0.1) (places_seq k)),
        write_cell_binary64 page (fdiv (.finite 1) (places_seq k))) := by
  unfold gimp_procedure_dialog_estimate_increments_binary64
  simp only [hle, hsp, h0, h1, not_true_eq_false, if_false, and_self, if_true,
    places_loop_binary64_result _ k fuel hf hk hlt]

/-- The function outside the bucket `0 < range <= 1.0`. -/
theorem estimate_increments_binary64_large (fuel : ℕ) (lower upper : Binary64)
    (step page : Option Binary64) (hle : fge upper lower = true)
    (hsp : step.isSome ∨ page.isSome)
    (h : ¬ (flt (.finite 0) (fsub upper lower) = true ∧
      fle (fsub upper lower) (.finite 1) = true)) :
    gimp_procedure_dialog_estimate_increments_binary64 fuel lower upper step page =
      if fle (fsub upper lower) (.finite 2) then
        some (write_cell_binary64 step (round64 0.01), write_cell_binary64 page (round64 0.1))
      else if fle (fsub upper lower) (.finite 5) then
        some (write_cell_binary64 step (round64 0.1), write_cell_binary64 page (.finite 1))
      else if fle (fsub upper lower) (.finite 40) then
        some (write_cell_binary64 step (.finite 1), write_cell_binary64 page (.finite 2))
      else
        some (write_cell_binary64 step (.finite 1), write_cell_binary64 page (.finite 10)) := by
  unfold gimp_procedure_dialog_estimate_increments_binary64
  simp only [hle, hsp, h, not_true_eq_false, if_false]

/-! ## Rounding to binary64 is monotone against binary64 numbers -/

/-- Bisection counts the binary digits of a number below `2 ^ 2 ^ k`. -/
theorem binary_digits_below_spec :
    ∀ (k n : ℕ), n < 2 ^ 2 ^ k →
      n < 2 ^ binary_digits_below k n ∧ (0 < n → 2 ^ binary_digits_below k n ≤ 2 * n) := by
  intro k
  induction k with
  | zero =>
    intro n hn
    have hn2 : n < 2 := by simpa using hn
    rw [binary_digits_below]
    by_cases h0 : n = 0
    · simp [h0]
    · have h1 : n = 1 := by omega
      simp [h1]
  | succ k ih =>
    intro n hn
    rw [binary_digits_below]
    have hpos : 0 < 2 ^ 2 ^ k := Nat.two_pow_pos _
    by_cases h : 2 ^ 2 ^ k ≤ n
    · simp only [h, if_true]
      have hlt : n / 2 ^ 2 ^ k < 2 ^ 2 ^ k := by
        rw [Nat.div_lt_iff_lt_mul hpos, ← pow_add, ← two_mul, ← pow_succ']
        exact hn
      have hge : 0 < n / 2 ^ 2 ^ k := Nat.div_pos h hpos
      obtain ⟨h1, h2⟩ := ih _ hlt
      have h2 := h2 hge
      refine ⟨?_, fun _ => ?_⟩
      · rw [pow_add]
        exact (Nat.div_lt_iff_lt_mul hpos).mp h1
      · rw [pow_add]
        calc 2 ^ binary_digits_below k (n / 2 ^ 2 ^ k) * 2 ^ 2 ^ k
            ≤ 2 * (n / 2 ^ 2 ^ k) * 2 ^ 2 ^ k := Nat.mul_le_mul_right _ h2
          _ = 2 * (n / 2 ^ 2 ^ k * 2 ^ 2 ^ k) := by ring
          _ ≤ 2 * n := Nat.mul_le_mul_left _ (Nat.div_mul_le_self n _)
    · simp only [h, if_false]
      exact ih n (by omega)

/-- The level found bounds the number, when one of the levels tried does. -/
theorem binary_level_spec :
    ∀ (fuel k n : ℕ), n < 2 ^ 2 ^ (k + fuel) → n < 2 ^ 2 ^ binary_level fuel k n := by
  intro fuel
  induction fuel with
  | zero => intro k n h; simpa [binary_level] using h
  | succ fuel ih =>
    intro k n h
    rw [binary_level]
    by_cases hk : n < 2 ^ 2 ^ k
    · simp [hk]
    · simp only [hk, if_false]
      exact ih (k + 1) n (by rw [show k + 1 + fuel = k + (fuel + 1) by omega]; exact h)

/-- A positive `n` has `binary_digits n` binary digits. -/
theorem binary_digits_spec (n : ℕ) (hn : 0 < n) :
    n < 2 ^ binary_digits n ∧ 2 ^ binary_digits n ≤ 2 * n := by
  unfold binary_digits
  split_ifs with h
  · exact ⟨(binary_digits_below_spec 13 n h).1, (binary_digits_below_spec 13 n h).2 hn⟩
  · have hlev : n < 2 ^ 2 ^ binary_level n 0 n := by
      apply binary_level_spec
      rw [Nat.zero_add]
      calc n < 2 ^ n := Nat.lt_two_pow n
        _ ≤ 2 ^ 2 ^ n := Nat.pow_le_pow_right (by norm_num) (Nat.lt_two_pow n).le
    exact ⟨(binary_digits_below_spec _ n hlev).1, (binary_digits_below_spec _ n hlev).2 hn⟩

/-- A power of two with an integer exponent, as a quotient of two natural
powers. -/
theorem two_zpow_eq (c : ℤ) :
    (2 : ℚ) ^ c = ((2 ^ c.toNat : ℕ) : ℚ) / ((2 ^ (-c).toNat : ℕ) : ℚ) := by
  rcases le_total 0 c with h | h
  · obtain ⟨k, rfl⟩ := Int.eq_ofNat_of_zero_le h
    have : (-(k : ℤ)).toNat = 0 := by simp
    simp [this]
  · obtain ⟨k, hk⟩ := Int.eq_ofNat_of_zero_le (neg_nonneg.mpr h)
    have hc : c = -(k : ℤ) := by omega
    subst hc
    have : (-(k : ℤ)).toNat = 0 := by simp
    simp [this, zpow_neg]

/-- The exponent `floor_log2 n d` is not above that of `n / d`. -/
theorem floor_log2_le (n d : ℕ) (hn : 0 < n) (hd : 0 < d) :
    (2 : ℚ) ^ floor_log2 n d ≤ (n : ℚ) / (d : ℚ) := by
  have hdq : (0 : ℚ) < d := by exact_mod_cast hd
  unfold floor_log2
  simp only
  split_ifs with h
  · generalize ((binary_digits n : ℤ) - (binary_digits d : ℤ)) = c at h
    rw [two_zpow_eq, div_le_div_iff₀ (by positivity) hdq]
    have hq : ((d * 2 ^ c.toNat : ℕ) : ℚ) ≤ ((n * 2 ^ (-c).toNat : ℕ) : ℚ) := Nat.cast_le.mpr h
    push_cast at hq ⊢
    linarith
  · have h1 := (binary_digits_spec n hn).2
    have h2 := (binary_digits_spec d hd).1
    generalize binary_digits n = a at h h1
    generalize binary_digits d = b at h h2
    have h1q : (2 : ℚ) ^ (a) ≤ 2 * n := by exact_mod_cast h1
    have h2q : (d : ℚ) < 2 ^ (b) := by exact_mod_cast h2
    have e : (2 : ℚ) ^ ((a : ℤ) - (b : ℤ) - 1) =
        (2 : ℚ) ^ (a) / (2 ^ (b) * 2) := by
      rw [zpow_sub₀ (by norm_num), zpow_sub₀ (by norm_num)]
      simp [div_div]
    rw [e, div_le_div_iff₀ (by positivity) hdq]
    have hnq : (0 : ℚ) < n := by exact_mod_cast hn
    nlinarith [mul_le_mul h1q h2q.le hdq.le (by positivity : (0 : ℚ) ≤ 2 * n)]

/-- The rounded quotient is at least every integer below the quotient and at
most every integer above it. -/
theorem round_half_even_spec (n d : ℕ) (hd : 0 < d) (z : ℕ) :
    (z * d ≤ n → z ≤ round_half_even n d) ∧ (n ≤ z * d → round_half_even n d ≤ z) := by
  have hq : n / d ≤ round_half_even n d ∧ round_half_even n d ≤ n / d + 1 ∧
      (n % d = 0 → round_half_even n d = n / d) := by
    unfold round_half_even
    simp only
    split_ifs <;> refine ⟨by omega, by omega, ?_⟩ <;> intro h0 <;> omega
  constructor
  · intro h
    have : z ≤ n / d := (Nat.le_div_iff_mul_le hd).mpr h
    omega
  · intro h
    by_cases h0 : n % d = 0
    · rw [hq.2.2 h0]
      exact Nat.div_le_of_le_mul (by rw [mul_comm]; exact h)
    · have hlt : n / d < z := by
        rw [Nat.div_lt_iff_lt_mul hd]
        rcases Nat.lt_or_ge n (z * d) with h1 | h1
        · exact h1
        · have : n = z * d := le_antisymm h h1
          rw [this] at h0
          simp at h0
      omega


/-- The two exponents used by `round_ratio` when the last place `2 ^ e` is at most
`2 ^ (-j)`. -/
theorem toNat_of_sum_nonpos (e : ℤ) (j : ℕ) (hej : e + j ≤ 0) :
    e.toNat = 0 ∧ (-e).toNat = j + (-e - j).toNat := by
  constructor <;> omega

/-- With a last place `2 ^ e` not above `2 ^ (-j)`, the rounding of `n / d` is not
below a multiple `A / 2 ^ j` of `2 ^ (-j)` that `n / d` is not below. -/
theorem significand_ge_of_small_exponent (n d A j : ℕ) (e : ℤ) (hd : 0 < d)
    (hej : e + j ≤ 0) (h : A * d ≤ n * 2 ^ j) :
    (A : ℚ) / 2 ^ j ≤
      ((round_half_even (n * 2 ^ (-e).toNat) (d * 2 ^ e.toNat) * 2 ^ e.toNat : ℕ) : ℚ) /
        ((2 ^ (-e).toNat : ℕ) : ℚ) := by
  obtain ⟨h1, h2⟩ := toNat_of_sum_nonpos e j hej
  rw [h1, h2]
  generalize (-e - (j : ℤ)).toNat = t
  have hz : A * 2 ^ t ≤ round_half_even (n * 2 ^ (j + t)) (d * 2 ^ 0) := by
    apply (round_half_even_spec _ _ (by simpa using hd) _).1
    calc A * 2 ^ t * (d * 2 ^ 0) = A * d * 2 ^ t := by ring
      _ ≤ n * 2 ^ j * 2 ^ t := Nat.mul_le_mul_right _ h
      _ = n * 2 ^ (j + t) := by ring
  generalize round_half_even (n * 2 ^ (j + t)) (d * 2 ^ 0) = m at hz
  have hzq : ((A * 2 ^ t : ℕ) : ℚ) ≤ (m : ℚ) := Nat.cast_le.mpr hz
  push_cast at hzq ⊢
  rw [div_le_div_iff₀ (by positivity) (by positivity)]
  calc (A : ℚ) * 2 ^ (j + t) = A * 2 ^ t * 2 ^ j := by ring
    _ ≤ m * 2 ^ j := by gcongr
    _ = m * 2 ^ 0 * 2 ^ j := by ring

/-- With a last place `2 ^ e` not above `2 ^ (-j)`, the rounding of `n / d` is
finite and not above a multiple `A / 2 ^ j` of `2 ^ (-j)`, `A < 2 ^ 53`, that
`n / d` is not above. -/
theorem significand_le_of_small_exponent (n d A j : ℕ) (e : ℤ) (hd : 0 < d)
    (hej : e + j ≤ 0) (h : n * 2 ^ j ≤ A * d) (hA : A < 2 ^ 53) :
    ¬ (2 ^ 1024 * 2 ^ (-e).toNat ≤
      round_half_even (n * 2 ^ (-e).toNat) (d * 2 ^ e.toNat) * 2 ^ e.toNat) ∧
    ((round_half_even (n * 2 ^ (-e).toNat) (d * 2 ^ e.toNat) * 2 ^ e.toNat : ℕ) : ℚ) /
        ((2 ^ (-e).toNat : ℕ) : ℚ) ≤ (A : ℚ) / 2 ^ j := by
  obtain ⟨h1, h2⟩ := toNat_of_sum_nonpos e j hej
  rw [h1, h2]
  generalize (-e - (j : ℤ)).toNat = t
  have hz : round_half_even (n * 2 ^ (j + t)) (d * 2 ^ 0) ≤ A * 2 ^ t := by
    apply (round_half_even_spec _ _ (by simpa using hd) _).2
    calc n * 2 ^ (j + t) = n * 2 ^ j * 2 ^ t := by ring
      _ ≤ A * d * 2 ^ t := Nat.mul_le_mul_right _ h
      _ = A * 2 ^ t * (d * 2 ^ 0) := by ring
  generalize round_half_even (n * 2 ^ (j + t)) (d * 2 ^ 0) = m at hz
  constructor
  · have hgen : ∀ c : ℕ, 53 ≤ c → A * 2 ^ t < 2 ^ c * 2 ^ (j + t) := by
      intro c hc
      calc A * 2 ^ t < 2 ^ 53 * 2 ^ t := Nat.mul_lt_mul_of_pos_right hA (Nat.two_pow_pos t)
        _ ≤ 2 ^ c * 2 ^ (j + t) := by
          apply Nat.mul_le_mul
          · exact Nat.pow_le_pow_right (by norm_num) hc
          · exact Nat.pow_le_pow_right (by norm_num) (by omega)
    have h53 := hgen 1024 (by norm_num)
    simp only [pow_zero, mul_one]
    omega
  · have hzq : (m : ℚ) ≤ ((A * 2 ^ t : ℕ) : ℚ) := Nat.cast_le.mpr hz
    push_cast at hzq ⊢
    rw [div_le_div_iff₀ (by positivity) (by positivity)]
    calc (m : ℚ) * 2 ^ 0 * 2 ^ j = m * 2 ^ j := by ring
      _ ≤ A * 2 ^ t * 2 ^ j := by gcongr
      _ = A * 2 ^ (j + t) := by ring

/-- With last place `2 ^ e` and `2 ^ (e + 52) ≤ n / d` the value of the rounding
is at least `2 ^ (e + 52)`. -/
theorem value_ge_of_exponent (n d : ℕ) (e : ℤ) (hd : 0 < d)
    (h : (2 : ℚ) ^ (e + 52) ≤ (n : ℚ) / d) :
    (2 : ℚ) ^ (e + 52) ≤
      ((round_half_even (n * 2 ^ (-e).toNat) (d * 2 ^ e.toNat) * 2 ^ e.toNat : ℕ) : ℚ) /
        ((2 ^ (-e).toNat : ℕ) : ℚ) := by
  have hdq : (0 : ℚ) < d := by exact_mod_cast hd
  have hP : (0 : ℚ) < ((2 ^ e.toNat : ℕ) : ℚ) := by positivity
  have hQ : (0 : ℚ) < ((2 ^ (-e).toNat : ℕ) : ℚ) := by positivity
  have he : (2 : ℚ) ^ (e + 52) = 2 ^ 52 * (((2 ^ e.toNat : ℕ) : ℚ) / ((2 ^ (-e).toNat : ℕ) : ℚ)) := by
    rw [zpow_add₀ (by norm_num), two_zpow_eq e]
    norm_num
    ring
  have hz : 2 ^ 52 ≤ round_half_even (n * 2 ^ (-e).toNat) (d * 2 ^ e.toNat) := by
    apply (round_half_even_spec _ _ (Nat.mul_pos hd (Nat.two_pow_pos _)) _).1
    rw [he, mul_div_assoc', div_le_div_iff₀ hQ hdq] at h
    have : ((2 ^ 52 * (d * 2 ^ e.toNat) : ℕ) : ℚ) ≤ ((n * 2 ^ (-e).toNat : ℕ) : ℚ) := by
      push_cast at h ⊢
      linarith
    exact Nat.cast_le.mp this
  generalize round_half_even (n * 2 ^ (-e).toNat) (d * 2 ^ e.toNat) = m at hz
  have hzq : (2 : ℚ) ^ 52 ≤ (m : ℚ) := by exact_mod_cast hz
  rw [he, Nat.cast_mul, mul_div_assoc]
  gcongr

/-- When the last place of the rounding of `n / d` is above `2 ^ (-j)`,
`j ≤ 1074`, the number is normal, at least `2 ^ (e + 52)`, which is at least
`2 ^ (53 - j)`. -/
theorem exponent_of_last_place (n d j : ℕ) (hn : 0 < n) (hd : 0 < d) (hj : j ≤ 1074)
    (hej : 0 < max (floor_log2 n d) (-1022) - 52 + (j : ℤ)) :
    (2 : ℚ) ^ (max (floor_log2 n d) (-1022) - 52 + 52) ≤ (n : ℚ) / d ∧
      (2 : ℚ) ^ (53 - j : ℤ) ≤ (2 : ℚ) ^ (max (floor_log2 n d) (-1022) - 52 + 52) := by
  have hmax : max (floor_log2 n d) (-1022) = floor_log2 n d := by
    apply max_eq_left
    by_contra hc
    rw [max_eq_right (by omega)] at hej
    omega
  rw [hmax] at hej ⊢
  constructor
  · rw [sub_add_cancel]
    exact floor_log2_le n d hn hd
  · apply zpow_le_zpow_right₀ (by norm_num)
    omega

/-- A number `A / 2 ^ j` with `A < 2 ^ 53` is below `2 ^ (53 - j)`. -/
theorem bound_lt_two_zpow (A j : ℕ) (hA : A < 2 ^ 53) : (A : ℚ) / 2 ^ j < (2 : ℚ) ^ (53 - j : ℤ) := by
  rw [zpow_sub₀ (by norm_num)]
  have : (A : ℚ) < 2 ^ 53 := by exact_mod_cast hA
  simp only [zpow_natCast]
  have h2 : ((2 : ℚ) ^ (53 : ℤ)) = 2 ^ 53 := by norm_num
  rw [h2]
  gcongr

/-- Rounding to binary64 does not go below a binary64 number `A / 2 ^ j` that
the rounded number is not below. -/
theorem round_ratio_ge (n d A j : ℕ) (hd : 0 < d) (hj : j ≤ 1074) (hA : A < 2 ^ 53)
    (h : A * d ≤ n * 2 ^ j) :
    round_ratio false n d = .pos_inf ∨
      ∃ v : ℚ, round_ratio false n d = .finite v ∧ (A : ℚ) / 2 ^ j ≤ v := by
  by_cases hn : n = 0
  · subst hn
    have hA0 : A = 0 := by
      rcases Nat.eq_zero_or_pos A with h0 | h0
      · exact h0
      · have := Nat.mul_pos h0 hd
        omega
    exact Or.inr ⟨0, by simp [round_ratio], by simp [hA0]⟩
  have hn0 : 0 < n := Nat.pos_of_ne_zero hn
  unfold round_ratio
  simp only [hn, if_false, Bool.false_eq_true]
  split_ifs with hov
  · exact Or.inl rfl
  · refine Or.inr ⟨_, rfl, ?_⟩
    rw [Rat.mkRat_eq_div, Int.cast_natCast]
    rcases le_or_lt (max (floor_log2 n d) (-1022) - 52 + (j : ℤ)) 0 with hej | hej
    · exact significand_ge_of_small_exponent n d A j _ hd hej h
    · obtain ⟨h1, h2⟩ := exponent_of_last_place n d j hn0 hd hj hej
      exact ((bound_lt_two_zpow A j hA).le.trans h2).trans (value_ge_of_exponent n d _ hd h1)

/-- Rounding to binary64 does not go above a binary64 number `A / 2 ^ j` that
the rounded number is not above. -/
theorem round_ratio_le (n d A j : ℕ) (hd : 0 < d) (hj : j ≤ 1074) (hA : A < 2 ^ 53)
    (h : n * 2 ^ j ≤ A * d) :
    ∃ v : ℚ, round_ratio false n d = .finite v ∧ v ≤ (A : ℚ) / 2 ^ j := by
  by_cases hn : n = 0
  · subst hn
    exact ⟨0, by simp [round_ratio], by positivity⟩
  have hn0 : 0 < n := Nat.pos_of_ne_zero hn
  have hdq : (0 : ℚ) < d := by exact_mod_cast hd
  have hej : max (floor_log2 n d) (-1022) - 52 + (j : ℤ) ≤ 0 := by
    by_contra hc
    obtain ⟨h1, h2⟩ := exponent_of_last_place n d j hn0 hd hj (by omega)
    have h3 : (n : ℚ) / d ≤ (A : ℚ) / 2 ^ j := by
      rw [div_le_div_iff₀ hdq (by positivity)]
      exact_mod_cast h
    have := bound_lt_two_zpow A j hA
    linarith
  obtain ⟨hno, hv⟩ := significand_le_of_small_exponent n d A j _ hd hej h hA
  unfold round_ratio
  simp only [hn, if_false, Bool.false_eq_true]
  rw [if_neg hno]
  refine ⟨_, rfl, ?_⟩
  rw [Rat.mkRat_eq_div, Int.cast_natCast]
  exact hv

/-! ## Rounding a product that the loop tests -/

/-- Rounding a non-negative rational: `round_ratio` on its numerator and
denominator. -/
theorem round64_of_nonneg (x : ℚ) (hx : 0 ≤ x) :
    round64 x = round_ratio false x.num.natAbs x.den ∧
      (x.num.natAbs : ℚ) / (x.den : ℚ) = x := by
  constructor
  · simp [round64, not_lt.mpr hx]
  · have hnum : (0 : ℤ) ≤ x.num := Rat.num_nonneg.mpr hx
    have : ((x.num.natAbs : ℕ) : ℚ) = ((x.num : ℤ) : ℚ) := by
      rw [← Int.cast_natCast, Int.natAbs_of_nonneg hnum]
    rw [this]
    exact Rat.num_div_den x

/-- Rounding to binary64 does not go below a binary64 number `A / 2 ^ j` that
the rounded number is not below. -/
theorem round64_ge (x : ℚ) (A j : ℕ) (hj : j ≤ 1074) (hA : A < 2 ^ 53)
    (h : (A : ℚ) / 2 ^ j ≤ x) :
    round64 x = .pos_inf ∨ ∃ v : ℚ, round64 x = .finite v ∧ (A : ℚ) / 2 ^ j ≤ v := by
  have hx : 0 ≤ x := le_trans (by positivity) h
  obtain ⟨h1, h2⟩ := round64_of_nonneg x hx
  rw [h1]
  apply round_ratio_ge _ _ A j x.den_pos hj hA
  have hd : (0 : ℚ) < x.den := by exact_mod_cast x.den_pos
  rw [← h2, div_le_div_iff₀ (by positivity) hd] at h
  exact_mod_cast h

/-- Rounding to binary64 does not go above a binary64 number `A / 2 ^ j` that
the rounded number is not above. -/
theorem round64_le (x : ℚ) (hx : 0 ≤ x) (A j : ℕ) (hj : j ≤ 1074) (hA : A < 2 ^ 53)
    (h : x ≤ (A : ℚ) / 2 ^ j) :
    ∃ v : ℚ, round64 x = .finite v ∧ v ≤ (A : ℚ) / 2 ^ j := by
  obtain ⟨h1, h2⟩ := round64_of_nonneg x hx
  rw [h1]
  apply round_ratio_le _ _ A j x.den_pos hj hA
  have hd : (0 : ℚ) < x.den := by exact_mod_cast x.den_pos
  rw [← h2, div_le_div_iff₀ hd (by positivity)] at h
  exact_mod_cast h

/-- A natural number below `2 ^ 53` is a binary64 number. -/
theorem round64_natCast (z : ℕ) (hz : z < 2 ^ 53) : round64 (z : ℚ) = .finite (z : ℚ) := by
  obtain ⟨v, hv, hle⟩ := round64_le (z : ℚ) (by positivity) z 0 (by norm_num) hz (by simp)
  rcases round64_ge (z : ℚ) z 0 (by norm_num) hz (by simp) with hinf | ⟨w, hw, hge⟩
  · rw [hinf] at hv
    exact Binary64.noConfusion hv
  · rw [hw] at hv
    have : w = v := by injection hv
    subst this
    rw [hw]
    congr 1
    simp at hle hge
    exact le_antisymm hle hge

/-- When the test `range * places < 5.0` holds, the exact product is below 5. -/
theorem lt_five_of_test (q m : ℚ)
    (h : flt (fmul (.finite q) (.finite m)) (.finite 5) = true) : q * m < 5 := by
  by_contra hc
  rw [not_lt] at hc
  rcases round64_ge (q * m) 5 0 (by norm_num) (by norm_num) (by simpa using hc) with
    hinf | ⟨v, hv, hge⟩
  · simp [fmul, hinf, flt] at h
  · simp only [fmul, hv, flt, decide_eq_true_eq] at h
    norm_num at hge
    linarith

/-- When the test `range * places < 5.0` fails on a positive product, the exact
product is above `5 - 2 ^ (-50)`, the binary64 number just below 5. -/
theorem gt_of_test_failing (q m : ℚ) (hqm : 0 ≤ q * m)
    (h : flt (fmul (.finite q) (.finite m)) (.finite 5) = false) :
    5 - 1 / 2 ^ 50 < q * m := by
  by_contra hc
  rw [not_lt] at hc
  have e : ((5 * 2 ^ 50 - 1 : ℕ) : ℚ) / 2 ^ 50 = 5 - 1 / 2 ^ 50 := by norm_num
  obtain ⟨v, hv, hle⟩ := round64_le (q * m) hqm (5 * 2 ^ 50 - 1) 50 (by norm_num)
    (by norm_num) (by rw [e]; exact hc)
  rw [e] at hle
  simp only [fmul, hv, flt, decide_eq_false_iff_not, not_lt] at h
  have : (0 : ℚ) < 1 / 2 ^ 50 := by positivity
  linarith

/-- The check holds of each of the 308 finite values of `places`. -/
theorem increments_check_all : check_places increments_check 308 (.finite 10) = true := by
  decide!

/-- What the check says of the `k`-th value of `places`, `k < 308`. -/
theorem increments_check_spec (k : ℕ) (hk : k < 308) :
    ∃ m s p : ℚ, places_seq k = .finite m ∧ fdiv (round64 0.1) (places_seq k) = .finite s ∧
      fdiv (.finite 1) (places_seq k) = .finite p ∧
      0 < m ∧ 0 < s ∧ 2 * s ≤ p ∧ p * m ≤ 1 + 1 / 2 ^ 52 ∧ 1 - 1 / 2 ^ 52 ≤ p * m ∧
      ∀ m2 : ℚ, places_seq (k + 1) = .finite m2 → m2 ≤ 10 * m * (1 + 1 / 2 ^ 52) := by
  have h := check_places_spec increments_check 308 0 increments_check_all k hk
  rw [Nat.zero_add] at h
  unfold increments_check at h
  rw [show places_seq (k + 1) = fmul (places_seq k) (.finite 10) from rfl]
  generalize places_seq k = places at h ⊢
  cases places with
  | finite m =>
    generalize fdiv (round64 0.1) (.finite m) = a at h ⊢
    generalize fdiv (.finite 1) (.finite m) = b at h ⊢
    cases a with
    | finite s =>
      cases b with
      | finite p =>
        simp only [Bool.and_eq_true, decide_eq_true_eq] at h
        obtain ⟨⟨h1, h2, h3, h4, h5⟩, h6⟩ := h
        refine ⟨m, s, p, rfl, rfl, rfl, h1, h2, h3, h4, h5, ?_⟩
        intro m2 hm2
        rw [hm2] at h6
        simpa using h6
      | pos_inf => simp at h
      | neg_inf => simp at h
      | nan => simp at h
    | pos_inf => simp at h
    | neg_inf => simp at h
    | nan => simp at h
  | pos_inf => simp at h
  | neg_inf => simp at h
  | nan => simp at h

/-! ## Increment estimation in binary64: results -/

/-- The `gdouble`s that the literals `0.1` and `0.01` denote. -/
theorem round64_literals :
    round64 0.1 = .finite (3602879701896397 / 36028797018963968) ∧
    round64 0.01 = .finite (5764607523034235 / 576460752303423488) := by
  decide!

/-- The loop overflows exactly when its first failing test is the 309th. -/
theorem places_overflow_iff (range : Binary64) (k : ℕ) (hk308 : k ≤ 308)
    (h0 : flt (.finite 0) range = true) (h1 : fle range (.finite 1) = true)
    (hk : flt (fmul range (places_seq k)) (.finite 5) = false)
    (hlt : ∀ i, i < k → flt (fmul range (places_seq i)) (.finite 5) = true) :
    places_overflow range ↔ k = 308 := by
  constructor
  · intro h
    by_contra hne
    have := h.2.2 k (by omega)
    rw [hk] at this
    exact Bool.noConfusion this
  · intro h
    subst h
    exact ⟨h0, h1, hlt⟩

/-- The last finite value of `places` is at least `5e307`. -/
theorem places_seq_last : ∃ m : ℚ, places_seq 307 = .finite m ∧ 5 * 10 ^ 307 ≤ m := by
  obtain ⟨m, _, _, hm, _⟩ := increments_check_spec 307 (by norm_num)
  have h : fle (.finite (5 * 10 ^ 307)) (places_seq 307) = true := by decide!
  rw [hm] at h
  exact ⟨m, hm, by simpa [fle] using h⟩

/-- C2, amended for binary64: for bounds with `upper >= lower` whose binary64
difference `range = upper - lower` satisfies `0 < range <= 1.0`, the function
returns (309 tests of the loop suffice), and it stores `step = 0.1 / m` and
`page = 1.0 / m`, binary64 quotients, where `m = places_seq k` is the first of
the values `places` takes (`10.0`, then each the rounded product of the one
before by `10.0`, `+inf` from the 309th on) at which the rounded product
`range * m` is not below `5.0`. -/
theorem estimate_increments_binary64_unit_bucket (fuel : ℕ) (lower upper : Binary64)
    (step page : Option Binary64) (hle : fge upper lower = true)
    (hsp : step.isSome ∨ page.isSome)
    (h0 : flt (.finite 0) (fsub upper lower) = true)
    (h1 : fle (fsub upper lower) (.finite 1) = true) (hfuel : 309 ≤ fuel) :
    ∃ k, k ≤ 308 ∧
      flt (fmul (fsub upper lower) (places_seq k)) (.finite 5) = false ∧
      (∀ i, i < k → flt (fmul (fsub upper lower) (places_seq i)) (.finite 5) = true) ∧
      gimp_procedure_dialog_estimate_increments_binary64 fuel lower upper step page =
        some (write_cell_binary64 step (fdiv (round64 0.1) (places_seq k)),
          write_cell_binary64 page (fdiv (.finite 1) (places_seq k))) := by
  obtain ⟨k, hk308, hk, hlt⟩ := exists_first_failing_test _ h0
  exact ⟨k, hk308, hk, hlt,
    estimate_increments_binary64_unit fuel lower upper step page hle hsp h0 h1 k (by omega)
      hk hlt⟩

/-- C3, amended for binary64: for `upper >= lower` the bucket is chosen by the
binary64 difference `range = upper - lower` (the exact difference, rounded):
`(0.01, 0.1)` when `1 < range <= 2`, `(0.1, 1.0)` when `2 < range <= 5`,
`(1.0, 2.0)` when `5 < range <= 40` and `(1.0, 10.0)` when `range > 40`, the
boundaries 2, 5 and 40 belonging to the lower bucket. -/
theorem estimate_increments_binary64_buckets (fuel : ℕ) (lower upper : Binary64)
    (step page : Option Binary64) (hle : fge upper lower = true)
    (hsp : step.isSome ∨ page.isSome) :
    (flt (.finite 1) (fsub upper lower) = true → fle (fsub upper lower) (.finite 2) = true →
      gimp_procedure_dialog_estimate_increments_binary64 fuel lower upper step page =
        some (write_cell_binary64 step (round64 0.01),
          write_cell_binary64 page (round64 0.1))) ∧
    (flt (.finite 2) (fsub upper lower) = true → fle (fsub upper lower) (.finite 5) = true →
      gimp_procedure_dialog_estimate_increments_binary64 fuel lower upper step page =
        some (write_cell_binary64 step (round64 0.1),
          write_cell_binary64 page (.finite 1))) ∧
    (flt (.finite 5) (fsub upper lower) = true → fle (fsub upper lower) (.finite 40) = true →
      gimp_procedure_dialog_estimate_increments_binary64 fuel lower upper step page =
        some (write_cell_binary64 step (.finite 1), write_cell_binary64 page (.finite 2))) ∧
    (flt (.finite 40) (fsub upper lower) = true →
      gimp_procedure_dialog_estimate_increments_binary64 fuel lower upper step page =
        some (write_cell_binary64 step (.finite 1), write_cell_binary64 page (.finite 10))) := by
  refine ⟨fun h1 h2 => ?_, fun h1 h2 => ?_, fun h1 h2 => ?_, fun h1 => ?_⟩
  · have n1 := fle_eq_false_of_flt 1 1 le_rfl _ h1
    rw [estimate_increments_binary64_large fuel lower upper step page hle hsp (by simp [n1])]
    simp [h2]
  · have n1 := fle_eq_false_of_flt 1 2 (by norm_num) _ h1
    have n2 := fle_eq_false_of_flt 2 2 le_rfl _ h1
    rw [estimate_increments_binary64_large fuel lower upper step page hle hsp (by simp [n1])]
    simp [h2, n2]
  · have n1 := fle_eq_false_of_flt 1 5 (by norm_num) _ h1
    have n2 := fle_eq_false_of_flt 2 5 (by norm_num) _ h1
    have n3 := fle_eq_false_of_flt 5 5 le_rfl _ h1
    rw [estimate_increments_binary64_large fuel lower upper step page hle hsp (by simp [n1])]
    simp [h2, n2, n3]
  · have n1 := fle_eq_false_of_flt 1 40 (by norm_num) _ h1
    have n2 := fle_eq_false_of_flt 2 40 (by norm_num) _ h1
    have n3 := fle_eq_false_of_flt 5 40 (by norm_num) _ h1
    have n4 := fle_eq_false_of_flt 40 40 le_rfl _ h1
    rw [estimate_increments_binary64_large fuel lower upper step page hle hsp (by simp [n1])]
    simp [n2, n3, n4]

/-- Outside the bucket `0 < range <= 1.0` the increments are two of the
constants, the step positive and at most half the page. -/
theorem estimate_increments_binary64_large_values (fuel : ℕ) (lower upper s0 p0 : Binary64)
    (hle : fge upper lower = true)
    (h : ¬ (flt (.finite 0) (fsub upper lower) = true ∧
      fle (fsub upper lower) (.finite 1) = true)) :
    ∃ s p : ℚ,
      gimp_procedure_dialog_estimate_increments_binary64 fuel lower upper (some s0) (some p0) =
        some (some (.finite s), some (.finite p)) ∧ 0 < s ∧ 2 * s ≤ p ∧
      ((fle (fsub upper lower) (.finite 2) = true ∧ p = 3602879701896397 / 36028797018963968) ∨
        (fle (fsub upper lower) (.finite 2) = false ∧
          fle (fsub upper lower) (.finite 5) = true ∧ p = 1) ∨
        (fle (fsub upper lower) (.finite 5) = false ∧
          fle (fsub upper lower) (.finite 40) = true ∧ p = 2) ∨
        (fle (fsub upper lower) (.finite 40) = false ∧ p = 10)) := by
  rw [estimate_increments_binary64_large fuel lower upper (some s0) (some p0) hle
    (Or.inl rfl) h, round64_literals.1, round64_literals.2]
  by_cases h2 : fle (fsub upper lower) (.finite 2) = true
  · exact ⟨5764607523034235 / 576460752303423488, 3602879701896397 / 36028797018963968,
      by simp [h2, write_cell_binary64], by norm_num, by norm_num, Or.inl ⟨h2, rfl⟩⟩
  by_cases h5 : fle (fsub upper lower) (.finite 5) = true
  · exact ⟨3602879701896397 / 36028797018963968, 1,
      by simp [h2, h5, write_cell_binary64], by norm_num, by norm_num,
      Or.inr (Or.inl ⟨by simpa using h2, h5, rfl⟩)⟩
  by_cases h40 : fle (fsub upper lower) (.finite 40) = true
  · exact ⟨1, 2, by simp [h2, h5, h40, write_cell_binary64], by norm_num, by norm_num,
      Or.inr (Or.inr (Or.inl ⟨by simpa using h5, h40, rfl⟩))⟩
  · exact ⟨1, 10, by simp [h2, h5, h40, write_cell_binary64], by norm_num, by norm_num,
      Or.inr (Or.inr (Or.inr ⟨by simpa using h40, rfl⟩))⟩

/-- C4, amended for binary64: with both out-pointers set and `upper >= lower` the
function stores two finite values; both are strictly positive unless the loop
overflowed (`places` reached `+inf`), and both are zero if it did. The loop
does not overflow on a range of `1e-307` or more. -/
theorem estimate_increments_binary64_positive (fuel : ℕ) (lower upper s0 p0 : Binary64)
    (hfuel : 309 ≤ fuel) (hle : fge upper lower = true) :
    ∃ s p : ℚ,
      gimp_procedure_dialog_estimate_increments_binary64 fuel lower upper (some s0) (some p0) =
        some (some (.finite s), some (.finite p)) ∧
      (places_overflow (fsub upper lower) → s = 0 ∧ p = 0) ∧
      (¬ places_overflow (fsub upper lower) → 0 < s ∧ 0 < p) ∧
      (∀ q : ℚ, fsub upper lower = .finite q → 1 / 10 ^ 307 ≤ q →
        ¬ places_overflow (fsub upper lower)) := by
  have hlast : ∀ q : ℚ, fsub upper lower = .finite q → 1 / 10 ^ 307 ≤ q →
      ¬ places_overflow (fsub upper lower) := by
    intro q hq hge hov
    obtain ⟨m, hm, hm5⟩ := places_seq_last
    have ht := hov.2.2 307 (by norm_num)
    rw [hq, hm] at ht
    have hlt := lt_five_of_test q m ht
    have h1 : (1 / 10 ^ 307 : ℚ) * (5 * 10 ^ 307) ≤ q * m :=
      mul_le_mul hge hm5 (by positivity) (le_trans (by positivity) hge)
    have h2 : (1 / 10 ^ 307 : ℚ) * (5 * 10 ^ 307) = 5 := by
      field_simp
    linarith
  by_cases hu : flt (.finite 0) (fsub upper lower) = true ∧
      fle (fsub upper lower) (.finite 1) = true
  · obtain ⟨k, hk308, hk, hlt⟩ := exists_first_failing_test _ hu.1
    have hres := estimate_increments_binary64_unit fuel lower upper (some s0) (some p0) hle
      (Or.inl rfl) hu.1 hu.2 k (by omega) hk hlt
    have hiff := places_overflow_iff _ k hk308 hu.1 hu.2 hk hlt
    rcases Nat.lt_or_ge k 308 with hk | hk
    · obtain ⟨m, s, p, _, hs, hp, _, hs0, hsp, _⟩ := increments_check_spec k hk
      refine ⟨s, p, by rw [hres, hs, hp]; rfl, ?_, ?_, hlast⟩
      · intro hov
        have := hiff.mp hov
        omega
      · intro _
        exact ⟨hs0, by linarith⟩
    · have hk' : k = 308 := by omega
      subst hk'
      refine ⟨0, 0, ?_, fun _ => ⟨rfl, rfl⟩, fun hn => absurd (hiff.mpr rfl) hn, hlast⟩
      rw [hres, places_seq_overflow, round64_literals.1]
      rfl
  · obtain ⟨s, p, hres, hs, hsp, _⟩ :=
      estimate_increments_binary64_large_values fuel lower upper s0 p0 hle hu
    refine ⟨s, p, hres, fun hov => absurd ⟨hov.1, hov.2.1⟩ hu, fun _ => ⟨hs, by linarith⟩, hlast⟩

/-- C22, amended for binary64: for every `range > 0` the loop ends, after exactly
the least number `k` of turns such that the rounded product of `range` and the
`k`-th value of `places` is not below `5.0`; `k` is at most 308 and 309 tests
suffice. In exact terms, the products of a finite `range` with the earlier
values of `places` are below 5 and its product with the final value, when that
is finite, is above `5 - 2 ^ (-50)`. The embedding of the function returns a
result on all inputs once 309 tests are allowed. -/
theorem places_loop_binary64_terminates (range : Binary64)
    (h0 : flt (.finite 0) range = true) :
    (∃ k, k ≤ 308 ∧
      flt (fmul range (places_seq k)) (.finite 5) = false ∧
      (∀ i, i < k → flt (fmul range (places_seq i)) (.finite 5) = true) ∧
      (∀ fuel, 309 ≤ fuel →
        places_loop_binary64 fuel range (.finite 10) 0 = some (places_seq k, k)) ∧
      (∀ q : ℚ, range = .finite q →
        (∀ i m, i < k → places_seq i = .finite m → q * m < 5) ∧
        (∀ m, places_seq k = .finite m → 5 - 1 / 2 ^ 50 < q * m))) ∧
    (∀ (lower upper : Binary64) (step page : Option Binary64) (fuel : ℕ), 309 ≤ fuel →
      (gimp_procedure_dialog_estimate_increments_binary64 fuel lower upper step page).isSome
        = true) := by
  constructor
  · obtain ⟨k, hk308, hk, hlt⟩ := exists_first_failing_test _ h0
    refine ⟨k, hk308, hk, hlt,
      fun fuel hf => places_loop_binary64_result range k fuel (by omega) hk hlt, ?_⟩
    intro q hq
    subst hq
    have hq0 : 0 < q := by simpa [flt] using h0
    constructor
    · intro i m hi hm
      have := hlt i hi
      rw [hm] at this
      exact lt_five_of_test q m this
    · intro m hm
      rw [hm] at hk
      have hm0 : 0 ≤ m := by
        rcases Nat.lt_or_ge k 308 with h | h
        · obtain ⟨m', _, _, hm', _, _, h1, _⟩ := increments_check_spec k h
          rw [hm] at hm'
          injection hm' with e
          rw [e]
          exact h1.le
        · have hk' : k = 308 := by omega
          rw [hk', places_seq_overflow] at hm
          exact Binary64.noConfusion hm
      exact gt_of_test_failing q m (mul_nonneg hq0.le hm0) hk
  · intro lower upper step page fuel hfuel
    by_cases g1 : fge upper lower = true
    · by_cases g2 : step.isSome ∨ page.isSome
      · by_cases hu : flt (.finite 0) (fsub upper lower) = true ∧
            fle (fsub upper lower) (.finite 1) = true
        · obtain ⟨k, hk308, hk, hlt⟩ := exists_first_failing_test _ hu.1
          rw [estimate_increments_binary64_unit fuel lower upper step page g1 g2 hu.1 hu.2 k
            (by omega) hk hlt]
          rfl
        · rw [estimate_increments_binary64_large fuel lower upper step page g1 g2 hu]
          split_ifs <;> rfl
      · simp [gimp_procedure_dialog_estimate_increments_binary64, g1, g2]
    · simp [gimp_procedure_dialog_estimate_increments_binary64, g1]

/-- The exact product `range * places` at the end of a loop that did not
overflow is above `5 - 2 ^ (-50)` and below `50 * (1 + 2 ^ (-52))`. -/
theorem product_at_exit (q : ℚ) (hq0 : 0 < q) (hq1 : q ≤ 1) (k : ℕ) (hk308 : k < 308)
    (hk : flt (fmul (.finite q) (places_seq k)) (.finite 5) = false)
    (hlt : ∀ i, i < k → flt (fmul (.finite q) (places_seq i)) (.finite 5) = true)
    (m : ℚ) (hm : places_seq k = .finite m) (hm0 : 0 < m) :
    5 - 1 / 2 ^ 50 < q * m ∧ q * m < 50 * (1 + 1 / 2 ^ 52) := by
  constructor
  · rw [hm] at hk
    exact gt_of_test_failing q m (mul_pos hq0 hm0).le hk
  · cases k with
    | zero =>
      have : m = 10 := by
        have h : Binary64.finite 10 = .finite m := hm
        injection h with e
        exact e.symm
      subst this
      norm_num
      linarith
    | succ j =>
      obtain ⟨m1, _, _, hm1, _, _, hm10, _, _, _, _, hnext⟩ :=
        increments_check_spec j (by omega)
      have h1 := hlt j (by omega)
      rw [hm1] at h1
      have h5 := lt_five_of_test q m1 h1
      have hle := hnext m hm
      have : q * m ≤ q * (10 * m1 * (1 + 1 / 2 ^ 52)) := by gcongr
      have e : q * (10 * m1 * (1 + 1 / 2 ^ 52)) = 10 * (1 + 1 / 2 ^ 52) * (q * m1) := by ring
      have : 10 * (1 + 1 / 2 ^ 52) * (q * m1) < 10 * (1 + 1 / 2 ^ 52) * 5 := by
        gcongr
      linarith

/-- C23, amended for binary64: for `upper >= lower` whose binary64 difference
`range = upper - lower` is positive and on which the loop does not overflow,
the function stores finite increments with `0 < step ≤ page / 2`; for a finite
`range`, `page < range / 2`, and in the bucket `range ≤ 1` the number of pages
across the range, `range / page`, lies within `10 ^ (-12)` of the interval
`[5, 50)`. -/
theorem estimate_increments_binary64_bounds (fuel : ℕ) (lower upper s0 p0 : Binary64)
    (hfuel : 309 ≤ fuel) (hle : fge upper lower = true)
    (hpos : flt (.finite 0) (fsub upper lower) = true)
    (hno : ¬ places_overflow (fsub upper lower)) :
    ∃ s p : ℚ,
      gimp_procedure_dialog_estimate_increments_binary64 fuel lower upper (some s0) (some p0) =
        some (some (.finite s), some (.finite p)) ∧
      0 < s ∧ 2 * s ≤ p ∧
      ∀ q : ℚ, fsub upper lower = .finite q →
        2 * p < q ∧ (q ≤ 1 → 5 - 1 / 10 ^ 12 < q / p ∧ q / p < 50 + 1 / 10 ^ 12) := by
  by_cases hu : flt (.finite 0) (fsub upper lower) = true ∧
      fle (fsub upper lower) (.finite 1) = true
  · obtain ⟨k, hk308, hk, hlt⟩ := exists_first_failing_test _ hu.1
    have hres := estimate_increments_binary64_unit fuel lower upper (some s0) (some p0) hle
      (Or.inl rfl) hu.1 hu.2 k (by omega) hk hlt
    have hklt : k < 308 := by
      rcases Nat.lt_or_ge k 308 with h | h
      · exact h
      · exact absurd ((places_overflow_iff _ k hk308 hu.1 hu.2 hk hlt).mpr (by omega)) hno
    obtain ⟨m, s, p, hm, hs, hp, hm0, hs0, hsp, hup, hlo, _⟩ := increments_check_spec k hklt
    refine ⟨s, p, by rw [hres, hs, hp]; rfl, hs0, hsp, ?_⟩
    intro q hq
    rw [hq] at hu hk hlt
    have hq0 : 0 < q := by simpa [flt] using hu.1
    have hq1 : q ≤ 1 := by simpa [fle] using hu.2
    obtain ⟨h1, h2⟩ := product_at_exit q hq0 hq1 k hklt hk hlt m hm hm0
    have hp0 : 0 < p := by linarith
    have e1 : (1 : ℚ) / 2 ^ 50 = 1 / 1125899906842624 := by norm_num
    have e2 : (1 : ℚ) / 2 ^ 52 = 1 / 4503599627370496 := by norm_num
    rw [e1] at h1
    rw [e2] at h2 hup hlo
    refine ⟨?_, fun _ => ⟨?_, ?_⟩⟩
    · have : 2 * p * m < q * m := by
        have : 2 * p * m = 2 * (p * m) := by ring
        linarith
      exact lt_of_mul_lt_mul_right this hm0.le
    · rw [lt_div_iff₀ hp0]
      have : (5 - 1 / 10 ^ 12) * p * m < q * m := by
        have e : (5 - 1 / 10 ^ 12 : ℚ) * p * m = (5 - 1 / 10 ^ 12) * (p * m) := by ring
        have : (5 - 1 / 10 ^ 12 : ℚ) * (p * m) ≤ (5 - 1 / 10 ^ 12) * (1 + 1 / 4503599627370496) :=
          mul_le_mul_of_nonneg_left hup (by norm_num)
        have : (5 - 1 / 10 ^ 12 : ℚ) * (1 + 1 / 4503599627370496) < 5 - 1 / 1125899906842624 := by
          norm_num
        linarith
      exact lt_of_mul_lt_mul_right this hm0.le
    · rw [div_lt_iff₀ hp0]
      have : q * m < (50 + 1 / 10 ^ 12) * p * m := by
        have e : (50 + 1 / 10 ^ 12 : ℚ) * p * m = (50 + 1 / 10 ^ 12) * (p * m) := by ring
        have : (50 + 1 / 10 ^ 12 : ℚ) * (1 - 1 / 4503599627370496) ≤ (50 + 1 / 10 ^ 12) * (p * m) :=
          mul_le_mul_of_nonneg_left hlo (by norm_num)
        have : (50 : ℚ) * (1 + 1 / 4503599627370496) <
            (50 + 1 / 10 ^ 12) * (1 - 1 / 4503599627370496) := by
          norm_num
        linarith
      exact lt_of_mul_lt_mul_right this hm0.le
  · obtain ⟨s, p, hres, hs, hsp, hcases⟩ :=
      estimate_increments_binary64_large_values fuel lower upper s0 p0 hle hu
    refine ⟨s, p, hres, hs, hsp, ?_⟩
    intro q hq
    rw [hq] at hu hcases hpos
    have hq0 : 0 < q := by simpa [flt] using hpos
    have hq1 : 1 < q := by
      by_contra hc
      exact hu ⟨hpos, by simpa [fle] using hc⟩
    refine ⟨?_, fun h => absurd h (not_le.mpr hq1)⟩
    rcases hcases with ⟨_, hp⟩ | ⟨h2, _, hp⟩ | ⟨h5, _, hp⟩ | ⟨h40, hp⟩
    · rw [hp]
      norm_num
      linarith
    · have : 2 < q := by simpa [fle] using h2
      rw [hp]
      linarith
    · have : 5 < q := by simpa [fle] using h5
      rw [hp]
      linarith
    · have : 40 < q := by simpa [fle] using h40
      rw [hp]
      linarith

/-- Witness for C2: the bounds `(0, 0.8)`; and the three examples of the claim,
ranges `0.8`, `0.3` and `0.06`, give `(0.01, 0.1)`, `(0.001, 0.01)` and
`(0.001, 0.01)` as `gdouble`s. -/
theorem estimate_increments_binary64_unit_bucket_witness :
    (∃ k, k ≤ 308 ∧
      flt (fmul (fsub (round64 0.8) (.finite 0)) (places_seq k)) (.finite 5) = false ∧
      (∀ i, i < k →
        flt (fmul (fsub (round64 0.8) (.finite 0)) (places_seq i)) (.finite 5) = true) ∧
      gimp_procedure_dialog_estimate_increments_binary64 309 (.finite 0) (round64 0.8)
          (some (.finite 0)) (some (.finite 0)) =
        some (write_cell_binary64 (some (.finite 0)) (fdiv (round64 0.1) (places_seq k)),
          write_cell_binary64 (some (.finite 0)) (fdiv (.finite 1) (places_seq k)))) ∧
    gimp_procedure_dialog_estimate_increments_binary64 309 (.finite 0) (round64 0.8)
      (some (.finite 0)) (some (.finite 0)) = some (some (round64 0.01), some (round64 0.1)) ∧
    gimp_procedure_dialog_estimate_increments_binary64 309 (.finite 0) (round64 0.3)
      (some (.finite 0)) (some (.finite 0)) = some (some (round64 0.001), some (round64 0.01)) ∧
    gimp_procedure_dialog_estimate_increments_binary64 309 (.finite 0) (round64 0.06)
      (some (.finite 0)) (some (.finite 0)) = some (some (round64 0.001), some (round64 0.01)) :=
  ⟨estimate_increments_binary64_unit_bucket 309 (.finite 0) (round64 0.8) (some (.finite 0))
      (some (.finite 0)) (by decide!) (Or.inl rfl) (by decide!) (by decide!) le_rfl,
    by decide!, by decide!, by decide!⟩

/-- Counterexample to C2 as stated: `lower = 0` and
`upper = 0.049999999999999996`, a `gdouble` with `0 < upper - lower ≤ 1`. The
smallest of 10, 100, 1000, ... whose exact product with the range reaches 5 is
1000, so that the claim gives `page = 1 / 1000`; the rounded product with 100
is `5.0`, the loop stops there and the function stores `0.1 / 100` and
`1.0 / 100`. -/
theorem estimate_increments_binary64_rounded_product :
    round64 0.049999999999999996 = .finite (7205759403792793 / 144115188075855872) ∧
    (0 : ℚ) < 7205759403792793 / 144115188075855872 - 0 ∧
    (7205759403792793 / 144115188075855872 - 0 : ℚ) ≤ 1 ∧
    (7205759403792793 / 144115188075855872 - 0 : ℚ) * 100 < 5 ∧
    5 ≤ (7205759403792793 / 144115188075855872 - 0 : ℚ) * 1000 ∧
    gimp_procedure_dialog_estimate_increments_binary64 309 (.finite 0)
      (round64 0.049999999999999996) (some (.finite 0)) (some (.finite 0)) =
        some (some (fdiv (round64 0.1) (.finite 100)), some (fdiv (.finite 1) (.finite 100))) ∧
    fdiv (.finite 1) (.finite 100) = .finite (5764607523034235 / 576460752303423488) ∧
    fdiv (.finite 1) (.finite 100) ≠ fdiv (.finite 1) (.finite 1000) ∧
    (5764607523034235 / 576460752303423488 : ℚ) ≠ 1 / 1000 := by
  decide!

/-- Witness for C3: the four examples of the claim, bounds `(0, 2)`, `(1, 6)`,
`(0, 40)` and `(0, 100)`. -/
theorem estimate_increments_binary64_buckets_witness :
    gimp_procedure_dialog_estimate_increments_binary64 0 (.finite 0) (.finite 2)
      (some (.finite 0)) (some (.finite 0)) = some (some (round64 0.01), some (round64 0.1)) ∧
    gimp_procedure_dialog_estimate_increments_binary64 0 (.finite 1) (.finite 6)
      (some (.finite 0)) (some (.finite 0)) = some (some (round64 0.1), some (.finite 1)) ∧
    gimp_procedure_dialog_estimate_increments_binary64 0 (.finite 0) (.finite 40)
      (some (.finite 0)) (some (.finite 0)) = some (some (.finite 1), some (.finite 2)) ∧
    gimp_procedure_dialog_estimate_increments_binary64 0 (.finite 0) (.finite 100)
      (some (.finite 0)) (some (.finite 0)) = some (some (.finite 1), some (.finite 10)) :=
  ⟨(estimate_increments_binary64_buckets 0 (.finite 0) (.finite 2) (some (.finite 0))
      (some (.finite 0)) (by decide!) (Or.inl rfl)).1 (by decide!) (by decide!),
    (estimate_increments_binary64_buckets 0 (.finite 1) (.finite 6) (some (.finite 0))
      (some (.finite 0)) (by decide!) (Or.inl rfl)).2.1 (by decide!) (by decide!),
    (estimate_increments_binary64_buckets 0 (.finite 0) (.finite 40) (some (.finite 0))
      (some (.finite 0)) (by decide!) (Or.inl rfl)).2.2.1 (by decide!) (by decide!),
    (estimate_increments_binary64_buckets 0 (.finite 0) (.finite 100) (some (.finite 0))
      (some (.finite 0)) (by decide!) (Or.inl rfl)).2.2.2 (by decide!)⟩

/-- Counterexample to C3 as stated: `lower = -1e-17` and `upper = 2.0`. The exact
difference is above 2 (and at most 5), for which the claim gives `(0.1, 1.0)`;
the binary64 difference is `2.0` and the function stores `(0.01, 0.1)`. -/
theorem estimate_increments_binary64_rounded_range :
    round64 (-1e-17) = .finite (-6490371073168535 / 2 ^ 109) ∧
    fge (.finite 2) (round64 (-1e-17)) = true ∧
    (2 : ℚ) < 2 - -6490371073168535 / 2 ^ 109 ∧
    (2 - -6490371073168535 / 2 ^ 109 : ℚ) ≤ 5 ∧
    fsub (.finite 2) (round64 (-1e-17)) = .finite 2 ∧
    gimp_procedure_dialog_estimate_increments_binary64 309 (round64 (-1e-17)) (.finite 2)
      (some (.finite 0)) (some (.finite 0)) = some (some (round64 0.01), some (round64 0.1)) ∧
    round64 0.01 ≠ round64 0.1 ∧ round64 0.1 ≠ .finite 1 := by
  decide!

/-- Witness for C4: the degenerate bounds `(3, 3)`. -/
theorem estimate_increments_binary64_positive_witness :
    fge (.finite 3) (.finite 3) = true ∧
    ∃ s p : ℚ,
      gimp_procedure_dialog_estimate_increments_binary64 309 (.finite 3) (.finite 3)
        (some (.finite 0)) (some (.finite 0)) = some (some (.finite s), some (.finite p)) ∧
      (places_overflow (fsub (.finite 3) (.finite 3)) → s = 0 ∧ p = 0) ∧
      (¬ places_overflow (fsub (.finite 3) (.finite 3)) → 0 < s ∧ 0 < p) ∧
      (∀ q : ℚ, fsub (.finite 3) (.finite 3) = .finite q → 1 / 10 ^ 307 ≤ q →
        ¬ places_overflow (fsub (.finite 3) (.finite 3))) :=
  ⟨by decide!,
    estimate_increments_binary64_positive 309 (.finite 3) (.finite 3) (.finite 0) (.finite 0)
      le_rfl (by decide!)⟩

/-- Counterexample to C4 as stated: `lower = 0` and `upper = 1e-308`, a `gdouble`
above `lower`; the function stores a zero step and a zero page. -/
theorem estimate_increments_binary64_zero_increments :
    round64 1e-308 = .finite (1012011266536553 / 2 ^ 1073) ∧
    fge (round64 1e-308) (.finite 0) = true ∧
    (0 : ℚ) < 1012011266536553 / 2 ^ 1073 - 0 ∧
    gimp_procedure_dialog_estimate_increments_binary64 309 (.finite 0) (round64 1e-308)
      (some (.finite 1)) (some (.finite 1)) = some (some (.finite 0), some (.finite 0)) := by
  decide!

/-- Witness for C22: on the range `0.3` the loop makes one turn and ends with
`places = 100.0`. -/
theorem places_loop_binary64_terminates_witness :
    flt (.finite 0) (round64 0.3) = true ∧
    places_loop_binary64 309 (round64 0.3) (.finite 10) 0 = some (.finite 100, 1) := by
  refine ⟨by decide!, ?_⟩
  obtain ⟨⟨k, _, hk, hlt, hloop, _⟩, _⟩ :=
    places_loop_binary64_terminates (round64 0.3) (by decide!)
  have h0 : flt (fmul (round64 0.3) (places_seq 0)) (.finite 5) = true := by decide!
  have h1 : flt (fmul (round64 0.3) (places_seq 1)) (.finite 5) = false := by decide!
  have h100 : places_seq 1 = .finite 100 := by decide!
  have hk1 : k = 1 := by
    rcases Nat.lt_trichotomy k 1 with h | h | h
    · have : k = 0 := by omega
      subst this
      rw [h0] at hk
      exact Bool.noConfusion hk
    · exact h
    · have := hlt 1 h
      rw [h1] at this
      exact Bool.noConfusion this
  subst hk1
  rw [hloop 309 le_rfl, h100]

/-- Counterexample to C22 as stated. On the range `0.049999999999999996` the
least `k` with `range * 10 ^ (k + 1) ≥ 5` is 2, and the loop makes one turn; on
the range `1e-310` that `k` is 310, and the loop makes 308 turns, ending with
`places` at `+inf`. -/
theorem places_loop_binary64_turns :
    round64 0.049999999999999996 = .finite (7205759403792793 / 144115188075855872) ∧
    (7205759403792793 / 144115188075855872 : ℚ) * 10 ^ (1 + 1) < 5 ∧
    5 ≤ (7205759403792793 / 144115188075855872 : ℚ) * 10 ^ (2 + 1) ∧
    places_loop_binary64 309 (round64 0.049999999999999996) (.finite 10) 0 =
      some (.finite 100, 1) ∧
    round64 1e-310 = .finite (20240225330731 / 2 ^ 1074) ∧
    (20240225330731 / 2 ^ 1074 : ℚ) * 10 ^ (309 + 1) < 5 ∧
    5 ≤ (20240225330731 / 2 ^ 1074 : ℚ) * 10 ^ (310 + 1) ∧
    places_loop_binary64 309 (round64 1e-310) (.finite 10) 0 = some (.pos_inf, 308) := by
  decide!

/-- Witness for C23: the bounds `(0, 0.3)`. -/
theorem estimate_increments_binary64_bounds_witness :
    ∃ s p : ℚ,
      gimp_procedure_dialog_estimate_increments_binary64 309 (.finite 0) (round64 0.3)
        (some (.finite 0)) (some (.finite 0)) = some (some (.finite s), some (.finite p)) ∧
      0 < s ∧ 2 * s ≤ p ∧
      ∀ q : ℚ, fsub (round64 0.3) (.finite 0) = .finite q →
        2 * p < q ∧ (q ≤ 1 → 5 - 1 / 10 ^ 12 < q / p ∧ q / p < 50 + 1 / 10 ^ 12) :=
  estimate_increments_binary64_bounds 309 (.finite 0) (round64 0.3) (.finite 0) (.finite 0)
    le_rfl (by decide!) (by decide!)
    (fun h => absurd (h.2.2 1 (by norm_num)) (by decide!))

/-- Counterexample to C23 as stated: for `lower = 0` and
`upper = 0.049999999999999996` the function stores `page = 0.01` (as a
`gdouble`) and `range / page` is below 5; for `lower = 0` and `upper = 1e-308`
it stores a zero step. -/
theorem estimate_increments_binary64_pages_below_five :
    round64 0.049999999999999996 = .finite (7205759403792793 / 144115188075855872) ∧
    (0 : ℚ) < 7205759403792793 / 144115188075855872 - 0 ∧
    (7205759403792793 / 144115188075855872 - 0 : ℚ) ≤ 1 ∧
    gimp_procedure_dialog_estimate_increments_binary64 309 (.finite 0)
      (round64 0.049999999999999996) (some (.finite 0)) (some (.finite 0)) =
        some (some (.finite (1152921504606847 / 1152921504606846976)),
          some (.finite (5764607523034235 / 576460752303423488))) ∧
    (7205759403792793 / 144115188075855872 - 0 : ℚ) /
      (5764607523034235 / 576460752303423488) < 5 ∧
    gimp_procedure_dialog_estimate_increments_binary64 309 (.finite 0) (round64 1e-308)
      (some (.finite 1)) (some (.finite 1)) = some (some (.finite 0), some (.finite 0)) ∧
    ¬ ((0 : ℚ) < 0) := by
  decide!

/-! ## The two embeddings on integer bounds -/

/-- The binary64 difference of two integers less than `2 ^ 53` apart is their
difference. -/
theorem fsub_integer_bounds (minimum maximum : ℤ) (hle : minimum ≤ maximum)
    (hsmall : maximum - minimum < 2 ^ 53) :
    fsub (.finite maximum) (.finite minimum) = .finite ((maximum : ℚ) - minimum) := by
  obtain ⟨z, hz⟩ := Int.eq_ofNat_of_zero_le (sub_nonneg.mpr hle)
  have hzq : (maximum : ℚ) - minimum = (z : ℚ) := by
    have : ((maximum - minimum : ℤ) : ℚ) = ((z : ℤ) : ℚ) := by rw [hz]
    push_cast at this
    exact this
  have hz53 : z < 2 ^ 53 := by
    have : (z : ℤ) < 2 ^ 53 := by rw [← hz]; exact hsmall
    exact_mod_cast this
  rw [fsub, hzq]
  exact round64_natCast z hz53

/-- On integer bounds less than `2 ^ 53` apart, as the widget getter passes,
the binary64 embedding stores the `gdouble`s nearest to the values the embedding
over the rationals stores. -/
theorem estimate_increments_binary64_integer_bounds (minimum maximum : ℤ)
    (hle : minimum ≤ maximum) (hsmall : maximum - minimum < 2 ^ 53)
    (fuel : ℕ) (hfuel : 1 ≤ fuel) (a b : ℚ) (a2 b2 : Binary64) :
    gimp_procedure_dialog_estimate_increments_binary64 fuel (.finite minimum) (.finite maximum)
        (some a2) (some b2) =
      some ((gimp_procedure_dialog_estimate_increments minimum maximum (some a) (some b)).1.map
          round64,
        (gimp_procedure_dialog_estimate_increments minimum maximum (some a) (some b)).2.map
          round64) := by
  have hleq : (minimum : ℚ) ≤ maximum := by exact_mod_cast hle
  have hfge : fge (.finite (maximum : ℚ)) (.finite (minimum : ℚ)) = true := by
    simp [fge, fle, hleq]
  have hsub := fsub_integer_bounds minimum maximum hle hsmall
  have hone : round64 1 = .finite 1 := by decide!
  have htwo : round64 2 = .finite 2 := by decide!
  have hten : round64 10 = .finite 10 := by decide!
  rcases lt_trichotomy ((maximum : ℚ) - minimum) 1 with hlt | heq | hgt
  · -- the difference is 0
    have h0 : (maximum : ℚ) - minimum = 0 := by
      have h1 : maximum - minimum < 1 := by exact_mod_cast hlt
      have h2 : maximum - minimum = 0 := by omega
      exact_mod_cast h2
    rw [estimate_increments_large _ _ (some a) (some b) hleq (Or.inl rfl) (Or.inl h0),
      estimate_increments_binary64_large fuel _ _ (some a2) (some b2) hfge (Or.inl rfl)
        (by rw [hsub, h0]; simp [flt])]
    rw [hsub, h0]
    simp [fle, write_cell, write_cell_binary64]
  · -- the difference is 1: the loop makes no turn
    have hk : flt (fmul (fsub (.finite (maximum : ℚ)) (.finite (minimum : ℚ))) (places_seq 0))
        (.finite 5) = false := by
      rw [hsub, heq]
      decide!
    rw [estimate_increments_places _ _ (some a) (some b) (by rw [heq]; norm_num) (by rw [heq]) (Or.inl rfl) 0
        (by rw [heq]; norm_num) (fun i hi => absurd hi (Nat.not_lt_zero i)),
      estimate_increments_binary64_unit fuel _ _ (some a2) (some b2) hfge (Or.inl rfl)
        (by rw [hsub, heq]; simp [flt]) (by rw [hsub, heq]; simp [fle]) 0 (by omega) hk
        (fun i hi => absurd hi (Nat.not_lt_zero i))]
    have e1 : fdiv (round64 0.1) (places_seq 0) = round64 (0.1 / 10 ^ (0 + 1)) := by decide!
    have e2 : fdiv (.finite 1) (places_seq 0) = round64 (1 / 10 ^ (0 + 1)) := by decide!
    rw [e1, e2]
    simp [write_cell, write_cell_binary64]
  · rw [estimate_increments_large _ _ (some a) (some b) hleq (Or.inl rfl) (Or.inr hgt),
      estimate_increments_binary64_large fuel _ _ (some a2) (some b2) hfge (Or.inl rfl)
        (by rw [hsub]; simp only [fle, decide_eq_true_eq, not_and, not_le]; exact fun _ => hgt)]
    rw [hsub]
    simp only [fle, write_cell, write_cell_binary64, Option.map_some', decide_eq_true_eq]
    split_ifs <;> simp [hone, htwo, hten]

/-! ## The widget hash table -/

theorem lookup_insert_same (t : WidgetTable) (key : String) (v : Widget) :
    g_hash_table_lookup (g_hash_table_insert t key v) key = some v := by
  induction t with
  | nil => simp [g_hash_table_insert, g_hash_table_lookup]
  | cons e rest ih =>
    obtain ⟨k, w⟩ := e
    by_cases h : k = key
    · simp [g_hash_table_insert, g_hash_table_lookup, h]
    · simp [g_hash_table_insert, g_hash_table_lookup, h, ih]

theorem lookup_insert_other (t : WidgetTable) (key key2 : String) (v : Widget)
    (hne : key2 ≠ key) :
    g_hash_table_lookup (g_hash_table_insert t key v) key2 = g_hash_table_lookup t key2 := by
  induction t with
  | nil =>
    have : ¬ key = key2 := fun h => hne h.symm
    simp [g_hash_table_insert, g_hash_table_lookup, this]
  | cons e rest ih =>
    obtain ⟨k, w⟩ := e
    by_cases h : k = key
    · subst h
      have : ¬ k = key2 := fun h => hne h.symm
      simp [g_hash_table_insert, g_hash_table_lookup, this]
    · by_cases h2 : k = key2
      · subst h2
        simp [g_hash_table_insert, g_hash_table_lookup, h]
      · simp [g_hash_table_insert, g_hash_table_lookup, h, h2, ih]

theorem get_widget_hit (d : Dialog) (property : String) (widget_type : GType) (w : Widget)
    (hl : g_hash_table_lookup d.widgets property = some w) :
    gimp_procedure_dialog_get_widget d property widget_type = (some w, d) := by
  simp [gimp_procedure_dialog_get_widget, hl]

theorem get_widget_unknown (d : Dialog) (property : String) (widget_type : GType)
    (hl : g_hash_table_lookup d.widgets property = none)
    (hf : g_object_class_find_property d.config property = none) :
    gimp_procedure_dialog_get_widget d property widget_type =
      (none, d.g_warning
        ("gimp_procedure_dialog_get_widget: parameter " ++ property ++ " does not exist.")) := by
  simp [gimp_procedure_dialog_get_widget, hl, hf]

theorem get_widget_unsupported_type (d : Dialog) (property : String) (widget_type : GType)
    (pspec : ParamSpec)
    (hl : g_hash_table_lookup d.widgets property = none)
    (hf : g_object_class_find_property d.config property = some pspec)
    (hd : get_widget_dispatch pspec property widget_type = .unsupported_type) :
    gimp_procedure_dialog_get_widget d property widget_type =
      (none, d.g_warning
        ("gimp_procedure_dialog_get_widget: parameter " ++ property ++
          " has non supported type " ++ pspec.ptype.type_name)) := by
  simp [gimp_procedure_dialog_get_widget, hl, hf, hd]

theorem get_widget_unsupported_kind (d : Dialog) (property : String) (widget_type : GType)
    (pspec : ParamSpec) (lab : Bool)
    (hl : g_hash_table_lookup d.widgets property = none)
    (hf : g_object_class_find_property d.config property = some pspec)
    (hd : get_widget_dispatch pspec property widget_type = .built none lab) :
    gimp_procedure_dialog_get_widget d property widget_type =
      (none, (d.invalid_read "G_OBJECT_TYPE_NAME (widget_type)").g_warning
        ("gimp_procedure_dialog_get_widget: widget type " ++ widget_type.type_name ++
          " not supported for parameter '" ++ property ++ "' of type " ++
          pspec.ptype.type_name)) := by
  simp [gimp_procedure_dialog_get_widget, hl, hf, hd]

theorem get_widget_built (d : Dialog) (property : String) (widget_type : GType)
    (pspec : ParamSpec) (kind : WidgetKind) (lab : Bool)
    (hl : g_hash_table_lookup d.widgets property = none)
    (hf : g_object_class_find_property d.config property = some pspec)
    (hd : get_widget_dispatch pspec property widget_type = .built (some kind) lab) :
    ∃ d2, gimp_procedure_dialog_get_widget d property widget_type =
        (some ⟨d.next_addr, kind⟩, d2) ∧
      d2.config = d.config ∧
      d2.widgets = g_hash_table_insert d.widgets property ⟨d.next_addr, kind⟩ ∧
      d2.replaced = d.replaced ∧ d2.warnings = d.warnings ∧
      d2.next_addr = d.next_addr + 1 ∧ d2.content_area = d.content_area ∧
      d2.shown = d.shown ∧ d2.bindings = d.bindings := by
  have h : gimp_procedure_dialog_get_widget d property widget_type =
      (some ⟨d.next_addr, kind⟩,
        (if Widget.is_labeled ⟨d.next_addr, kind⟩ ∨ lab then
          { (d.new_widget kind).2 with
            label_group := (d.new_widget kind).2.label_group ++ [d.next_addr] }
        else (d.new_widget kind).2).insert_widget property ⟨d.next_addr, kind⟩) := by
    simp only [gimp_procedure_dialog_get_widget, hl, hf, hd, Dialog.new_widget]
  refine ⟨_, h, ?_⟩
  simp only [Dialog.insert_widget, Dialog.new_widget]
  split_ifs <;> simp_all

/-- The three ways a call of `gimp_procedure_dialog_get_widget` can end. -/
theorem get_widget_cases (d : Dialog) (property : String) (widget_type : GType) :
    (∃ w, g_hash_table_lookup d.widgets property = some w ∧
      gimp_procedure_dialog_get_widget d property widget_type = (some w, d)) ∨
    (g_hash_table_lookup d.widgets property = none ∧
      ∃ msg reads, gimp_procedure_dialog_get_widget d property widget_type =
        (none, { d with
          warnings := d.warnings ++ [msg]
          invalid_reads := d.invalid_reads ++ reads })) ∨
    (g_hash_table_lookup d.widgets property = none ∧
      (g_object_class_find_property d.config property).isSome ∧
      ∃ w d2, gimp_procedure_dialog_get_widget d property widget_type = (some w, d2) ∧
        w.addr = d.next_addr ∧ d2.config = d.config ∧
        d2.widgets = g_hash_table_insert d.widgets property w ∧
        d2.replaced = d.replaced ∧ d2.warnings = d.warnings ∧
        d2.next_addr = d.next_addr + 1) := by
  cases hl : g_hash_table_lookup d.widgets property with
  | some w => exact Or.inl ⟨w, rfl, get_widget_hit d property widget_type w hl⟩
  | none =>
    right
    cases hf : g_object_class_find_property d.config property with
    | none =>
      refine Or.inl ⟨rfl,
        "gimp_procedure_dialog_get_widget: parameter " ++ property ++ " does not exist.",
        [], ?_⟩
      rw [get_widget_unknown d property widget_type hl hf]
      simp [Dialog.g_warning]
    | some pspec =>
      cases hd : get_widget_dispatch pspec property widget_type with
      | unsupported_type =>
        refine Or.inl ⟨rfl,
          "gimp_procedure_dialog_get_widget: parameter " ++ property ++
            " has non supported type " ++ pspec.ptype.type_name, [], ?_⟩
        rw [get_widget_unsupported_type d property widget_type pspec hl hf hd]
        simp [Dialog.g_warning]
      | built wk lab =>
        cases wk with
        | none =>
          refine Or.inl ⟨rfl,
            "gimp_procedure_dialog_get_widget: widget type " ++ widget_type.type_name ++
              " not supported for parameter '" ++ property ++ "' of type " ++
              pspec.ptype.type_name, ["G_OBJECT_TYPE_NAME (widget_type)"], ?_⟩
          rw [get_widget_unsupported_kind d property widget_type pspec lab hl hf hd]
          rfl
        | some kind =>
          right
          obtain ⟨d2, h1, h2, h3, h4, h5, h6, _⟩ :=
            get_widget_built d property widget_type pspec kind lab hl hf hd
          exact ⟨rfl, rfl, _, d2, h1, rfl, h2, h3, h4, h5, h6⟩

/-! ## The widget table only grows -/

theorem CacheKept.kept_refl (d : Dialog) : CacheKept d d :=
  ⟨rfl, fun _ _ h => h, rfl⟩

theorem CacheKept.kept_trans {d1 d2 d3 : Dialog} (h12 : CacheKept d1 d2) (h23 : CacheKept d2 d3) :
    CacheKept d1 d3 :=
  ⟨h23.config_eq.trans h12.config_eq, fun key w h => h23.kept key w (h12.kept key w h),
    h23.replaced_eq.trans h12.replaced_eq⟩

theorem CacheKept.kept_of_same {d1 d2 : Dialog} (hc : d2.config = d1.config)
    (hw : d2.widgets = d1.widgets) (hr : d2.replaced = d1.replaced) : CacheKept d1 d2 :=
  ⟨hc, fun _ _ h => by rw [hw]; exact h, hr⟩

theorem NewKeysAreProperties.keys_of_same {d1 d2 : Dialog} (hw : d2.widgets = d1.widgets) :
    NewKeysAreProperties d1 d2 := by
  intro key h _
  rw [hw]; exact h

theorem NewKeysAreProperties.keys_trans {d1 d2 d3 : Dialog} (h12 : NewKeysAreProperties d1 d2)
    (hc : d2.config = d1.config) (h23 : NewKeysAreProperties d2 d3) :
    NewKeysAreProperties d1 d3 := by
  intro key h hp
  exact h23 key (h12 key h hp) (by rw [hc]; exact hp)

theorem insert_widget_kept (d : Dialog) (key : String) (w : Widget)
    (hl : g_hash_table_lookup d.widgets key = none) : CacheKept d (d.insert_widget key w) := by
  refine ⟨rfl, ?_, ?_⟩
  · intro key2 w2 h
    have hne : key2 ≠ key := by
      intro he
      subst he
      rw [hl] at h
      exact Option.noConfusion h
    simp only [Dialog.insert_widget]
    rw [lookup_insert_other _ _ _ _ hne]
    exact h
  · simp [Dialog.insert_widget, hl]

theorem get_widget_kept (d : Dialog) (property : String) (widget_type : GType) :
    CacheKept d (gimp_procedure_dialog_get_widget d property widget_type).2 := by
  rcases get_widget_cases d property widget_type with
    ⟨w, _, h⟩ | ⟨_, msg, reads, h⟩ | ⟨hl, _, w, d2, h, _, hc, hw, hr, _, _⟩
  · rw [h]; exact CacheKept.kept_refl d
  · rw [h]; exact CacheKept.kept_of_same rfl rfl rfl
  · rw [h]
    refine ⟨hc, ?_, hr⟩
    intro key2 w2 h2
    have hne : key2 ≠ property := by
      intro he
      subst he
      rw [hl] at h2
      exact Option.noConfusion h2
    show g_hash_table_lookup d2.widgets key2 = some w2
    rw [hw, lookup_insert_other _ _ _ _ hne]
    exact h2

theorem get_widget_new_keys (d : Dialog) (property : String) (widget_type : GType) :
    NewKeysAreProperties d (gimp_procedure_dialog_get_widget d property widget_type).2 := by
  rcases get_widget_cases d property widget_type with
    ⟨w, _, h⟩ | ⟨_, msg, reads, h⟩ | ⟨hl, hp, w, d2, h, _, hc, hw, hr, _, _⟩
  · rw [h]; exact NewKeysAreProperties.keys_of_same rfl
  · rw [h]; exact NewKeysAreProperties.keys_of_same rfl
  · rw [h]
    intro key hk hkp
    have hne : key ≠ property := by
      intro he
      subst he
      rw [hkp] at hp
      exact Bool.noConfusion hp
    show g_hash_table_lookup d2.widgets key = none
    rw [hw, lookup_insert_other _ _ _ _ hne]
    exact hk

/-- A widget returned by `gimp_procedure_dialog_get_widget` is stored under the
identifier in the dialog left by the call. -/
theorem get_widget_stored (d : Dialog) (property : String) (widget_type : GType) (w : Widget)
    (hw : (gimp_procedure_dialog_get_widget d property widget_type).1 = some w) :
    g_hash_table_lookup (gimp_procedure_dialog_get_widget d property widget_type).2.widgets
      property = some w := by
  rcases get_widget_cases d property widget_type with
    ⟨w1, hl, h⟩ | ⟨_, msg, reads, h⟩ | ⟨hl, _, w1, d2, h, _, hc, hw2, hr, _, _⟩
  · rw [h] at hw ⊢
    simp only [Option.some.injEq] at hw
    subst hw
    exact hl
  · rw [h] at hw
    exact Option.noConfusion hw
  · rw [h] at hw ⊢
    simp only [Option.some.injEq] at hw
    subst hw
    show g_hash_table_lookup d2.widgets property = some w1
    rw [hw2]
    exact lookup_insert_same _ _ _

theorem fill_list_loop_kept (properties : List String) :
    ∀ d : Dialog, CacheKept d (fill_list_loop properties d) ∧
      NewKeysAreProperties d (fill_list_loop properties d) := by
  induction properties with
  | nil => intro d; exact ⟨CacheKept.kept_refl d, NewKeysAreProperties.keys_of_same rfl⟩
  | cons p rest ih =>
    intro d
    have hk := get_widget_kept d p .none
    have hn := get_widget_new_keys d p .none
    rw [fill_list_loop]
    rcases hres : gimp_procedure_dialog_get_widget d p .none with ⟨r, d1⟩
    rw [hres] at hk hn
    cases r with
    | none =>
      simp only
      exact ⟨hk.kept_trans (ih d1).1, hn.keys_trans hk.config_eq (ih d1).2⟩
    | some widget =>
      simp only
      have hk2 : CacheKept d1 { d1 with
          content_area := d1.content_area ++ [widget.addr]
          shown := d1.shown ++ [widget.addr] } := CacheKept.kept_of_same rfl rfl rfl
      have hn2 : NewKeysAreProperties d1 { d1 with
          content_area := d1.content_area ++ [widget.addr]
          shown := d1.shown ++ [widget.addr] } := NewKeysAreProperties.keys_of_same rfl
      exact ⟨(hk.kept_trans hk2).kept_trans (ih _).1,
        (hn.keys_trans hk.config_eq hn2).keys_trans (hk.kept_trans hk2).config_eq (ih _).2⟩

theorem fill_flowbox_loop_kept (properties : List String) :
    ∀ (d : Dialog) (children : List Nat),
      CacheKept d (fill_flowbox_loop properties (d, children)).1 ∧
      NewKeysAreProperties d (fill_flowbox_loop properties (d, children)).1 := by
  induction properties with
  | nil => intro d children; exact ⟨CacheKept.kept_refl d, NewKeysAreProperties.keys_of_same rfl⟩
  | cons p rest ih =>
    intro d children
    have hk := get_widget_kept d p .none
    have hn := get_widget_new_keys d p .none
    rw [fill_flowbox_loop]
    rcases hres : gimp_procedure_dialog_get_widget d p .none with ⟨r, d1⟩
    rw [hres] at hk hn
    cases r with
    | none =>
      simp only
      exact ⟨hk.kept_trans (ih d1 _).1, hn.keys_trans hk.config_eq (ih d1 _).2⟩
    | some widget =>
      simp only
      have hk2 : CacheKept d1 { d1 with shown := d1.shown ++ [widget.addr] } :=
        CacheKept.kept_of_same rfl rfl rfl
      have hn2 : NewKeysAreProperties d1 { d1 with shown := d1.shown ++ [widget.addr] } :=
        NewKeysAreProperties.keys_of_same rfl
      exact ⟨(hk.kept_trans hk2).kept_trans (ih _ _).1,
        (hn.keys_trans hk.config_eq hn2).keys_trans (hk.kept_trans hk2).config_eq (ih _ _).2⟩

theorem get_int_combo_kept (d : Dialog) (property : String) (store : Nat) :
    CacheKept d (gimp_procedure_dialog_get_int_combo d property store).2 := by
  unfold gimp_procedure_dialog_get_int_combo
  cases hl : g_hash_table_lookup d.widgets property with
  | some w => exact CacheKept.kept_refl d
  | none =>
    cases hf : g_object_class_find_property d.config property with
    | none => exact CacheKept.kept_of_same rfl rfl rfl
    | some pspec =>
      simp only
      split_ifs
      · simp only [Dialog.new_widget]
        exact @CacheKept.kept_trans _ { d with
            next_addr := d.next_addr + 1
            label_group := d.label_group ++ [d.next_addr] } _ (CacheKept.kept_of_same rfl rfl rfl)
          (insert_widget_kept _ _ _ hl)
      · simp only [Dialog.new_widget]
        exact @CacheKept.kept_trans _ { d with next_addr := d.next_addr + 1 } _
          (CacheKept.kept_of_same rfl rfl rfl) (insert_widget_kept _ _ _ hl)
      · exact CacheKept.kept_of_same rfl rfl rfl

theorem get_label_kept (d : Dialog) (label_id text : String) :
    CacheKept d (gimp_procedure_dialog_get_label d label_id text).2 := by
  unfold gimp_procedure_dialog_get_label
  split_ifs
  · exact CacheKept.kept_of_same rfl rfl rfl
  · cases hl : g_hash_table_lookup d.widgets label_id with
    | some w => exact CacheKept.kept_of_same rfl rfl rfl
    | none =>
      simp only [Dialog.new_widget]
      exact @CacheKept.kept_trans _ { d with next_addr := d.next_addr + 1 } _
        (CacheKept.kept_of_same rfl rfl rfl) (insert_widget_kept _ _ _ hl)

theorem fill_list_kept (d : Dialog) (properties : List String) :
    CacheKept d (gimp_procedure_dialog_fill_list d properties) :=
  (fill_list_loop_kept _ d).1

theorem fill_flowbox_list_kept (d : Dialog) (container_id : String)
    (properties : List String) :
    CacheKept d (gimp_procedure_dialog_fill_flowbox_list d container_id properties).2 := by
  unfold gimp_procedure_dialog_fill_flowbox_list
  split_ifs with hp
  · exact CacheKept.kept_of_same rfl rfl rfl
  · cases hl : g_hash_table_lookup d.widgets container_id with
    | some w => exact CacheKept.kept_of_same rfl rfl rfl
    | none =>
      simp only [Dialog.new_widget]
      have hpn : g_object_class_find_property d.config container_id = none := by
        simpa using hp
      obtain ⟨hk, hn⟩ := fill_flowbox_loop_kept
        (fill_properties { d with next_addr := d.next_addr + 1 } properties)
        { d with next_addr := d.next_addr + 1 } []
      have hnone := hn container_id hl hpn
      exact @CacheKept.kept_trans _ { d with next_addr := d.next_addr + 1 } _
        (CacheKept.kept_of_same rfl rfl rfl) (hk.kept_trans (insert_widget_kept _ _ _ hnone))

theorem fill_frame_title_kept (d : Dialog) (container_id : String) (frame : Widget)
    (contents : Option Widget) (title_id : Option String) (invert_title : Bool)
    (hl : g_hash_table_lookup d.widgets container_id = none)
    (hp : g_object_class_find_property d.config container_id = none) :
    CacheKept d (fill_frame_title d container_id frame contents title_id invert_title).2 := by
  unfold fill_frame_title
  cases title_id with
  | none => exact insert_widget_kept _ _ _ hl
  | some tid =>
    simp only
    have hk := get_widget_kept d tid .none
    have hn := get_widget_new_keys d tid .none
    rcases hres : gimp_procedure_dialog_get_widget d tid .none with ⟨r, d1⟩
    rw [hres] at hk hn
    have hnone : g_hash_table_lookup d1.widgets container_id = none := hn container_id hl hp
    cases r with
    | none =>
      simp only
      exact hk.kept_trans (CacheKept.kept_of_same rfl rfl rfl)
    | some title =>
      simp only
      refine hk.kept_trans ?_
      cases contents with
      | none =>
        simp only
        exact @CacheKept.kept_trans _ { d1 with shown := d1.shown ++ [title.addr] } _
          (CacheKept.kept_of_same rfl rfl rfl) (insert_widget_kept _ _ _ hnone)
      | some c =>
        simp only
        split_ifs
        · exact @CacheKept.kept_trans _ { d1 with
              shown := d1.shown ++ [title.addr]
              bindings := d1.bindings ++ [Binding.mk title.addr c.addr invert_title] } _
            (CacheKept.kept_of_same rfl rfl rfl) (insert_widget_kept _ _ _ hnone)
        · exact @CacheKept.kept_trans _ { d1 with shown := d1.shown ++ [title.addr] } _
            (CacheKept.kept_of_same rfl rfl rfl) (insert_widget_kept _ _ _ hnone)

theorem fill_frame_kept (d : Dialog) (container_id : String) (title_id : Option String)
    (invert_title : Bool) (contents_id : Option String) :
    CacheKept d
      (gimp_procedure_dialog_fill_frame d container_id title_id invert_title contents_id).2 := by
  unfold gimp_procedure_dialog_fill_frame
  split_ifs with hp
  · exact CacheKept.kept_of_same rfl rfl rfl
  · cases hl : g_hash_table_lookup d.widgets container_id with
    | some w => exact CacheKept.kept_of_same rfl rfl rfl
    | none =>
      simp only [Dialog.new_widget]
      have hpn : g_object_class_find_property d.config container_id = none := by
        simpa using hp
      have h0 : CacheKept d { d with next_addr := d.next_addr + 1 } :=
        CacheKept.kept_of_same rfl rfl rfl
      refine h0.kept_trans ?_
      cases contents_id with
      | none => exact fill_frame_title_kept _ _ _ _ _ _ hl hpn
      | some cid =>
        simp only
        have hk := get_widget_kept { d with next_addr := d.next_addr + 1 } cid .none
        have hn := get_widget_new_keys { d with next_addr := d.next_addr + 1 } cid .none
        rcases hres : gimp_procedure_dialog_get_widget
          { d with next_addr := d.next_addr + 1 } cid .none with ⟨r, d2⟩
        rw [hres] at hk hn
        have hnone : g_hash_table_lookup d2.widgets container_id = none :=
          hn container_id hl hpn
        cases r with
        | none =>
          simp only
          exact hk.kept_trans (CacheKept.kept_of_same rfl rfl rfl)
        | some contents =>
          simp only
          refine hk.kept_trans ?_
          refine @CacheKept.kept_trans _ { d2 with shown := d2.shown ++ [contents.addr] } _
            (CacheKept.kept_of_same rfl rfl rfl) ?_
          exact fill_frame_title_kept _ _ _ _ _ _ hnone (by rw [hk.config_eq]; exact hpn)

theorem call_kept (op : BuilderOp) (d : Dialog) : CacheKept d (op.call d).2 := by
  cases op with
  | get_widget property widget_type => exact get_widget_kept d property widget_type
  | get_int_combo property store => exact get_int_combo_kept d property store
  | get_label label_id text => exact get_label_kept d label_id text
  | fill_list properties => exact fill_list_kept d properties
  | fill_flowbox_list container_id properties =>
    exact fill_flowbox_list_kept d container_id properties
  | fill_frame container_id title_id invert_title contents_id =>
    exact fill_frame_kept d container_id title_id invert_title contents_id

theorem run_ops_kept (ops : List BuilderOp) : ∀ d : Dialog, CacheKept d (run_ops ops d) := by
  induction ops with
  | nil => intro d; exact CacheKept.kept_refl d
  | cons op rest ih =>
    intro d
    exact (call_kept op d).kept_trans (ih _)

/-! ## Dispatch lemmas -/

theorem dispatch_unsupported_type_iff (pspec : ParamSpec) (property : String) (k : GType) :
    get_widget_dispatch pspec property k = .unsupported_type ↔
      ∃ n, pspec.ptype = .other n := by
  unfold get_widget_dispatch
  cases hp : pspec.ptype with
  | boolean => simp only; split_ifs <;> simp
  | int minimum maximum => simp only; split_ifs <;> simp
  | string => simp only; split_ifs <;> simp
  | other n => simp

theorem dispatch_built_none_iff (pspec : ParamSpec) (property : String) (k : GType) :
    (∃ lab, get_widget_dispatch pspec property k = .built none lab) ↔
      (kind_accepted pspec.ptype k = false ∧ ¬ ∃ n, pspec.ptype = .other n) := by
  unfold get_widget_dispatch
  cases hp : pspec.ptype with
  | boolean => cases k <;> simp [kind_accepted]
  | int minimum maximum => cases k <;> simp [kind_accepted]
  | string => cases k <;> simp [kind_accepted]
  | other n => simp [kind_accepted]

/-- With both out-pointers set, both cells still hold a value after the call. -/
theorem estimate_increments_cells (lower upper a b : ℚ) :
    ∃ s p : ℚ, gimp_procedure_dialog_estimate_increments lower upper (some a) (some b) =
      (some s, some p) := by
  unfold gimp_procedure_dialog_estimate_increments
  simp only [write_cell, Option.map_some']
  split_ifs <;> exact ⟨_, _, rfl⟩

/-! ## The widget getter -/

/-- C1: if a call of `gimp_procedure_dialog_get_widget` with identifier `id` and
any widget kind `k1` returns a non-null widget `w`, then after any further
builder calls a call with the same `id` and any widget kind `k2` returns the
same `w` and leaves the dialog exactly as it was: no widget is built, the
widget table is unchanged. -/
theorem get_widget_returns_cached (d : Dialog) (id : String) (k1 : GType) (w : Widget)
    (h : (gimp_procedure_dialog_get_widget d id k1).1 = some w)
    (ops : List BuilderOp) (k2 : GType) :
    gimp_procedure_dialog_get_widget
        (run_ops ops (gimp_procedure_dialog_get_widget d id k1).2) id k2 =
      (some w, run_ops ops (gimp_procedure_dialog_get_widget d id k1).2) := by
  have hs := get_widget_stored d id k1 w h
  have hk := (run_ops_kept ops (gimp_procedure_dialog_get_widget d id k1).2).kept id w hs
  exact get_widget_hit _ id k2 w hk

/-- Witness for C1: a check button is requested for the boolean property
`enabled`, a label and a flow box are made, then a switch is requested for
`enabled`. -/
theorem get_widget_returns_cached_witness :
    (gimp_procedure_dialog_get_widget example_dialog "enabled" .check_button).1 =
        some ⟨0, .check_button "enabled" "Enabled"⟩ ∧
      gimp_procedure_dialog_get_widget
          (run_ops [.get_label "note" "Some text", .fill_flowbox_list "box" []]
            (gimp_procedure_dialog_get_widget example_dialog "enabled" .check_button).2)
          "enabled" .switch =
        (some ⟨0, .check_button "enabled" "Enabled"⟩,
          run_ops [.get_label "note" "Some text", .fill_flowbox_list "box" []]
            (gimp_procedure_dialog_get_widget example_dialog "enabled" .check_button).2) :=
  ⟨by decide,
    get_widget_returns_cached example_dialog "enabled" .check_button
      ⟨0, .check_button "enabled" "Enabled"⟩ (by decide)
      [.get_label "note" "Some text", .fill_flowbox_list "box" []] .switch⟩

/-- C5: for an identifier that is not cached and names a property, the getter
builds a check button (kind none or check-button) or a switch (kind switch) for
a boolean property; a labeled spinner (none or label-spin), a scale entry
(scale-entry) or a bare spin button (spin-button) for an integer property, the
spin button taking as step and page the values
`gimp_procedure_dialog_estimate_increments` leaves in its two cells for the
declared minimum and maximum; a text view (none or text-view) or an entry
(entry) for a string property. -/
theorem get_widget_builds (d : Dialog) (id : String) (k : GType) (pspec : ParamSpec)
    (hl : g_hash_table_lookup d.widgets id = none)
    (hf : g_object_class_find_property d.config id = some pspec) :
    (pspec.ptype = .boolean →
      (k = .none ∨ k = .check_button →
        (gimp_procedure_dialog_get_widget d id k).1 =
          some ⟨d.next_addr, .check_button id pspec.nick⟩) ∧
      (k = .switch →
        (gimp_procedure_dialog_get_widget d id k).1 =
          some ⟨d.next_addr, .switch id pspec.nick⟩)) ∧
    (∀ minimum maximum : Int, pspec.ptype = .int minimum maximum →
      (k = .none ∨ k = .label_spin →
        (gimp_procedure_dialog_get_widget d id k).1 =
          some ⟨d.next_addr, .label_spin id⟩) ∧
      (k = .scale_entry →
        (gimp_procedure_dialog_get_widget d id k).1 =
          some ⟨d.next_addr, .scale_entry id pspec.nick⟩) ∧
      (k = .spin_button →
        ∃ step page : ℚ,
          gimp_procedure_dialog_estimate_increments minimum maximum (some 0.0) (some 0.0) =
            (some step, some page) ∧
          (gimp_procedure_dialog_get_widget d id k).1 =
            some ⟨d.next_addr, .spin_button id step page⟩)) ∧
    (pspec.ptype = .string →
      (k = .none ∨ k = .text_view →
        (gimp_procedure_dialog_get_widget d id k).1 =
          some ⟨d.next_addr, .text_view id⟩) ∧
      (k = .entry →
        (gimp_procedure_dialog_get_widget d id k).1 =
          some ⟨d.next_addr, .entry id⟩)) := by
  have key : ∀ (kind : WidgetKind) (lab : Bool),
      get_widget_dispatch pspec id k = .built (some kind) lab →
      (gimp_procedure_dialog_get_widget d id k).1 = some ⟨d.next_addr, kind⟩ := by
    intro kind lab hd
    obtain ⟨d2, h, _⟩ := get_widget_built d id k pspec kind lab hl hf hd
    rw [h]
  refine ⟨?_, ?_, ?_⟩
  · intro hp
    refine ⟨?_, ?_⟩
    · intro hk
      apply key _ false
      simp [get_widget_dispatch, hp, hk, gimp_prop_check_button_new]
    · intro hk
      apply key _ true
      simp [get_widget_dispatch, hp, hk, gimp_prop_switch_new]
  · intro minimum maximum hp
    refine ⟨?_, ?_, ?_⟩
    · intro hk
      apply key _ false
      simp [get_widget_dispatch, hp, hk, gimp_prop_label_spin_new]
    · intro hk
      apply key _ false
      simp [get_widget_dispatch, hp, hk, gimp_prop_scale_entry_new]
    · intro hk
      obtain ⟨s, p, hsp⟩ := estimate_increments_cells minimum maximum 0.0 0.0
      refine ⟨s, p, hsp, ?_⟩
      apply key _ false
      simp [get_widget_dispatch, hp, hk, gimp_prop_spin_button_new, hsp]
  · intro hp
    refine ⟨?_, ?_⟩
    · intro hk
      apply key _ false
      simp [get_widget_dispatch, hp, hk, gtk_text_view_new_with_buffer]
    · intro hk
      apply key _ false
      simp [get_widget_dispatch, hp, hk, gimp_prop_entry_new]

/-- Witness for C5: a bare spin button for the integer property `count` with
bounds 0 and 10 gets step 1 and page 2. -/
theorem get_widget_builds_witness :
    g_hash_table_lookup example_dialog.widgets "count" = none ∧
      g_object_class_find_property example_dialog.config "count" =
        some ⟨"count", "Count", .int 0 10, false⟩ ∧
      (gimp_procedure_dialog_get_widget example_dialog "count" .spin_button).1 =
        some ⟨0, .spin_button "count" 1 2⟩ := by
  refine ⟨by decide, by decide, ?_⟩
  obtain ⟨step, page, he, hw⟩ :=
    ((get_widget_builds example_dialog "count" .spin_button
      ⟨"count", "Count", .int 0 10, false⟩ (by decide) (by decide)).2.1 0 10 rfl).2.2 rfl
  have hv : gimp_procedure_dialog_estimate_increments ((0 : Int) : ℚ) ((10 : Int) : ℚ)
      (some 0.0) (some 0.0) = (some 1, some 2) := by
    rw [estimate_increments_large _ _ _ _ (by norm_num) (by simp) (Or.inr (by norm_num))]
    norm_num [write_cell]
  rw [hv] at he
  simp only [Prod.mk.injEq, Option.some.injEq] at he
  rw [hw, ← he.1, ← he.2]
  rfl

/-- The results of `gimp_procedure_dialog_get_widget` in the embedding, which
carries on after the invalid read of the unsupported-kind path: the result is
null exactly when
the identifier is not in the widget table and either names no property, or
names a property whose type is not boolean, integer or string, or the requested
kind is not accepted for the property type; a null result leaves the widget
table (and the count of built widgets) unchanged; a widget built by the call is
fresh and is stored under the identifier in the dialog the call leaves. -/
theorem get_widget_null_iff (d : Dialog) (id : String) (k : GType) :
    ((gimp_procedure_dialog_get_widget d id k).1 = none ↔
      g_hash_table_lookup d.widgets id = none ∧
        (g_object_class_find_property d.config id = none ∨
          ∃ pspec, g_object_class_find_property d.config id = some pspec ∧
            ((∃ n, pspec.ptype = .other n) ∨ kind_accepted pspec.ptype k = false))) ∧
    ((gimp_procedure_dialog_get_widget d id k).1 = none →
      (gimp_procedure_dialog_get_widget d id k).2.widgets = d.widgets ∧
      (gimp_procedure_dialog_get_widget d id k).2.next_addr = d.next_addr) ∧
    (∀ w, (gimp_procedure_dialog_get_widget d id k).1 = some w →
      g_hash_table_lookup (gimp_procedure_dialog_get_widget d id k).2.widgets id = some w ∧
      (g_hash_table_lookup d.widgets id = none →
        w.addr = d.next_addr ∧
        (gimp_procedure_dialog_get_widget d id k).2.next_addr = d.next_addr + 1)) := by
  refine ⟨?_, ?_, ?_⟩
  · cases hl : g_hash_table_lookup d.widgets id with
    | some w => simp [get_widget_hit d id k w hl]
    | none =>
      cases hf : g_object_class_find_property d.config id with
      | none => simp [get_widget_unknown d id k hl hf]
      | some pspec =>
        cases hd : get_widget_dispatch pspec id k with
        | unsupported_type =>
          have ho := (dispatch_unsupported_type_iff pspec id k).mp hd
          simp [get_widget_unsupported_type d id k pspec hl hf hd, ho]
        | built wk lab =>
          cases wk with
          | none =>
            have hn := (dispatch_built_none_iff pspec id k).mp ⟨lab, hd⟩
            simp [get_widget_unsupported_kind d id k pspec lab hl hf hd, hn.1]
          | some kind =>
            obtain ⟨d2, h, _⟩ := get_widget_built d id k pspec kind lab hl hf hd
            have h1 : ¬ ∃ n, pspec.ptype = .other n := by
              intro ho
              rw [(dispatch_unsupported_type_iff pspec id k).mpr ho] at hd
              exact Dispatch.noConfusion hd
            have h2 : ¬ kind_accepted pspec.ptype k = false := by
              intro hacc
              obtain ⟨lab2, hd2⟩ := (dispatch_built_none_iff pspec id k).mpr ⟨hacc, h1⟩
              rw [hd2] at hd
              simp at hd
            simp only [h, true_and, false_or, Option.some.injEq, exists_eq_left', false_iff,
              not_or]
            simp [h1, h2]
  · intro hnull
    rcases get_widget_cases d id k with
      ⟨w, _, h⟩ | ⟨_, msg, reads, h⟩ | ⟨_, _, w, d2, h, _⟩
    · rw [h] at hnull; exact Option.noConfusion hnull
    · rw [h]; exact ⟨rfl, rfl⟩
    · rw [h] at hnull; exact Option.noConfusion hnull
  · intro w hw
    refine ⟨get_widget_stored d id k w hw, ?_⟩
    intro hl
    rcases get_widget_cases d id k with
      ⟨w1, hl1, h⟩ | ⟨_, msg, reads, h⟩ | ⟨_, _, w1, d2, h, ha, _, _, _, _, hn⟩
    · rw [hl] at hl1; exact Option.noConfusion hl1
    · rw [h] at hw; exact Option.noConfusion hw
    · rw [h] at hw ⊢
      simp only [Option.some.injEq] at hw
      subst hw
      exact ⟨ha, hn⟩

/-- C6, the defect on the unsupported-kind path: when the identifier is not in
the widget table and names a boolean, integer or string property for which the
requested kind is not accepted, the call evaluates
`G_OBJECT_TYPE_NAME (widget_type)`, an instance macro applied to a type number,
while it builds the warning, before it returns null; on every other path no
such read is made. -/
theorem get_widget_unsupported_kind_reads_instance (d : Dialog) (id : String) (k : GType) :
    ((g_hash_table_lookup d.widgets id = none ∧
        ∃ pspec, g_object_class_find_property d.config id = some pspec ∧
          kind_accepted pspec.ptype k = false ∧ ¬ ∃ n, pspec.ptype = .other n) →
      (gimp_procedure_dialog_get_widget d id k).1 = none ∧
      (gimp_procedure_dialog_get_widget d id k).2.invalid_reads =
        d.invalid_reads ++ ["G_OBJECT_TYPE_NAME (widget_type)"]) ∧
    (¬ (g_hash_table_lookup d.widgets id = none ∧
        ∃ pspec, g_object_class_find_property d.config id = some pspec ∧
          kind_accepted pspec.ptype k = false ∧ ¬ ∃ n, pspec.ptype = .other n) →
      (gimp_procedure_dialog_get_widget d id k).2.invalid_reads = d.invalid_reads) := by
  constructor
  · rintro ⟨hl, pspec, hf, hk⟩
    obtain ⟨lab, hd⟩ := (dispatch_built_none_iff pspec id k).mpr hk
    rw [get_widget_unsupported_kind d id k pspec lab hl hf hd]
    exact ⟨rfl, rfl⟩
  · intro hn
    cases hl : g_hash_table_lookup d.widgets id with
    | some w => rw [get_widget_hit d id k w hl]
    | none =>
      cases hf : g_object_class_find_property d.config id with
      | none => rw [get_widget_unknown d id k hl hf]; rfl
      | some pspec =>
        cases hd : get_widget_dispatch pspec id k with
        | unsupported_type => rw [get_widget_unsupported_type d id k pspec hl hf hd]; rfl
        | built wk lab =>
          cases wk with
          | none =>
            exact absurd ⟨hl, pspec, hf, (dispatch_built_none_iff pspec id k).mp ⟨lab, hd⟩⟩ hn
          | some kind =>
            have h : gimp_procedure_dialog_get_widget d id k =
                (some ⟨d.next_addr, kind⟩,
                  (if (Widget.mk d.next_addr kind).is_labeled ∨ lab then
                    { (d.new_widget kind).2 with
                      label_group := (d.new_widget kind).2.label_group ++ [d.next_addr] }
                  else (d.new_widget kind).2).insert_widget id ⟨d.next_addr, kind⟩) := by
              simp only [gimp_procedure_dialog_get_widget, hl, hf, hd, Dialog.new_widget]
            rw [h]
            simp only [Dialog.insert_widget, Dialog.new_widget]
            split_ifs <;> rfl

/-- The failing input of C6: a single-line entry is requested for the boolean
property `enabled` of a fresh dialog; the call reads the type number as an
instance and returns null. -/
theorem get_widget_unsupported_kind_reads_instance_witness :
    (g_hash_table_lookup example_dialog.widgets "enabled" = none ∧
      ∃ pspec, g_object_class_find_property example_dialog.config "enabled" = some pspec ∧
        kind_accepted pspec.ptype .entry = false ∧ ¬ ∃ n, pspec.ptype = .other n) ∧
    (gimp_procedure_dialog_get_widget example_dialog "enabled" .entry).1 = none ∧
    (gimp_procedure_dialog_get_widget example_dialog "enabled" .entry).2.invalid_reads =
      ["G_OBJECT_TYPE_NAME (widget_type)"] :=
  have hc : g_hash_table_lookup example_dialog.widgets "enabled" = none ∧
      ∃ pspec, g_object_class_find_property example_dialog.config "enabled" = some pspec ∧
        kind_accepted pspec.ptype .entry = false ∧ ¬ ∃ n, pspec.ptype = .other n :=
    ⟨by decide, ⟨"enabled", "Enabled", .boolean, false⟩, by decide, by decide,
      by rintro ⟨n, h⟩; exact ParamType.noConfusion h⟩
  ⟨hc, (get_widget_unsupported_kind_reads_instance example_dialog "enabled" .entry).1 hc⟩

/-- Counterexample to C7 as stated: `note` names no property, but once it has
been registered as a label id the getter returns that label (not null) and
emits no warning. -/
theorem get_widget_label_id_not_null :
    g_object_class_find_property example_dialog.config "note" = none ∧
      (gimp_procedure_dialog_get_widget
        (gimp_procedure_dialog_get_label example_dialog "note" "Some text").2 "note" .none).1 =
          some ⟨0, .label "Some text"⟩ ∧
      (gimp_procedure_dialog_get_widget
        (gimp_procedure_dialog_get_label example_dialog "note" "Some text").2 "note"
          .none).2.warnings =
        (gimp_procedure_dialog_get_label example_dialog "note" "Some text").2.warnings := by
  decide

/-- C7, amended: for an identifier that names no property of the configuration
and is not a key of the widget table, the getter returns null and emits exactly
one warning, changing nothing else; when such an identifier is a key of the
widget table, the getter returns the widget stored there and emits nothing. -/
theorem get_widget_unknown_identifier (d : Dialog) (id : String) (k : GType)
    (hf : g_object_class_find_property d.config id = none) :
    (g_hash_table_lookup d.widgets id = none →
      (gimp_procedure_dialog_get_widget d id k).1 = none ∧
      (gimp_procedure_dialog_get_widget d id k).2 =
        { d with warnings := d.warnings ++
          ["gimp_procedure_dialog_get_widget: parameter " ++ id ++ " does not exist."] }) ∧
    (∀ w, g_hash_table_lookup d.widgets id = some w →
      gimp_procedure_dialog_get_widget d id k = (some w, d)) := by
  refine ⟨?_, ?_⟩
  · intro hl
    rw [get_widget_unknown d id k hl hf]
    exact ⟨rfl, rfl⟩
  · intro w hl
    exact get_widget_hit d id k w hl

/-- Witness for C7, amended: `missing` names no property and is not cached. -/
theorem get_widget_unknown_identifier_witness :
    g_object_class_find_property example_dialog.config "missing" = none ∧
      (gimp_procedure_dialog_get_widget example_dialog "missing" .none).1 = none ∧
      (gimp_procedure_dialog_get_widget example_dialog "missing" .none).2.warnings =
        ["gimp_procedure_dialog_get_widget: parameter missing does not exist."] := by
  have h := (get_widget_unknown_identifier example_dialog "missing" .none (by decide)).1
    (by decide)
  refine ⟨by decide, h.1, ?_⟩
  rw [h.2]
  decide

/-- C8: over every sequence of builder calls on a dialog, an identifier that is
in the widget table stays there with the same widget (never replaced, never
removed), and no insertion is made under a key that is already present. -/
theorem widget_cache_invariant (d : Dialog) (ops : List BuilderOp) :
    (∀ (key : String) (w : Widget), g_hash_table_lookup d.widgets key = some w →
      g_hash_table_lookup (run_ops ops d).widgets key = some w) ∧
    (run_ops ops d).replaced = d.replaced :=
  ⟨(run_ops_kept ops d).kept, (run_ops_kept ops d).replaced_eq⟩

/-- Witness for C8: after a check button is cached under `enabled`, a run of
further calls, one of them asking for a switch under the same identifier, keeps
that check button and replaces nothing. -/
theorem widget_cache_invariant_witness :
    g_hash_table_lookup
        (gimp_procedure_dialog_get_widget example_dialog "enabled" .none).2.widgets "enabled" =
      some ⟨0, .check_button "enabled" "Enabled"⟩ ∧
    g_hash_table_lookup
        (run_ops [.get_widget "enabled" .switch, .fill_frame "frame" (some "enabled") false
            (some "count"), .fill_list []]
          (gimp_procedure_dialog_get_widget example_dialog "enabled" .none).2).widgets
        "enabled" =
      some ⟨0, .check_button "enabled" "Enabled"⟩ :=
  ⟨by decide,
    (widget_cache_invariant (gimp_procedure_dialog_get_widget example_dialog "enabled" .none).2
      [.get_widget "enabled" .switch, .fill_frame "frame" (some "enabled") false
        (some "count"), .fill_list []]).1 "enabled" _ (by decide)⟩

/-- C9: when the label or container identifier is the name of a property of the
configuration, `gimp_procedure_dialog_get_label`,
`gimp_procedure_dialog_fill_flowbox_list` and `gimp_procedure_dialog_fill_frame`
return null and change nothing in the dialog but the warnings, to which one
message is added: the widget table is unchanged and nothing is built, whatever
the table holds. -/
theorem property_name_rejected (d : Dialog) (id : String) (pspec : ParamSpec)
    (hf : g_object_class_find_property d.config id = some pspec) :
    (∀ text : String,
      gimp_procedure_dialog_get_label d id text =
        (none, { d with warnings := d.warnings ++
          ["gimp_procedure_dialog_get_label: label identifier '" ++ id ++
            "' cannot be an existing property name."] })) ∧
    (∀ properties : List String,
      gimp_procedure_dialog_fill_flowbox_list d id properties =
        (none, { d with warnings := d.warnings ++
          ["gimp_procedure_dialog_fill_flowbox_list: container identifier '" ++ id ++
            "' cannot be an existing property name."] })) ∧
    (∀ (title_id : Option String) (invert_title : Bool) (contents_id : Option String),
      gimp_procedure_dialog_fill_frame d id title_id invert_title contents_id =
        (none, { d with warnings := d.warnings ++
          ["gimp_procedure_dialog_fill_frame: frame identifier '" ++ id ++
            "' cannot be an existing property name."] })) := by
  refine ⟨?_, ?_, ?_⟩
  · intro text
    simp [gimp_procedure_dialog_get_label, hf, Dialog.g_warning]
  · intro properties
    simp [gimp_procedure_dialog_fill_flowbox_list, hf, Dialog.g_warning]
  · intro title_id invert_title contents_id
    simp [gimp_procedure_dialog_fill_frame, hf, Dialog.g_warning]

/-- Witness for C9: `enabled` is a property name, here with a widget already
cached under it. -/
theorem property_name_rejected_witness :
    g_object_class_find_property
        (gimp_procedure_dialog_get_widget example_dialog "enabled" .none).2.config "enabled" =
      some ⟨"enabled", "Enabled", .boolean, false⟩ ∧
    (gimp_procedure_dialog_fill_frame
      (gimp_procedure_dialog_get_widget example_dialog "enabled" .none).2
      "enabled" (some "enabled") false (some "count")).1 = none := by
  refine ⟨by decide, ?_⟩
  rw [(property_name_rejected (gimp_procedure_dialog_get_widget example_dialog "enabled" .none).2
    "enabled" ⟨"enabled", "Enabled", .boolean, false⟩ (by decide)).2.2
    (some "enabled") false (some "count")]

/-- C10: when the identifier is not a property name but is already a key of the
widget table, `gimp_procedure_dialog_get_label`,
`gimp_procedure_dialog_fill_flowbox_list` and `gimp_procedure_dialog_fill_frame`
return the widget stored under it, of whatever kind, and change nothing in the
dialog but the warnings, to which one message is added: the widget table is
unchanged and nothing is built. -/
theorem used_identifier_returned (d : Dialog) (id : String) (w : Widget)
    (hf : g_object_class_find_property d.config id = none)
    (hl : g_hash_table_lookup d.widgets id = some w) :
    (∀ text : String,
      gimp_procedure_dialog_get_label d id text =
        (some w, { d with warnings := d.warnings ++
          ["gimp_procedure_dialog_get_label: label identifier '" ++ id ++
            "' was already configured."] })) ∧
    (∀ properties : List String,
      gimp_procedure_dialog_fill_flowbox_list d id properties =
        (some w, { d with warnings := d.warnings ++
          ["gimp_procedure_dialog_fill_flowbox_list: container identifier '" ++ id ++
            "' was already configured."] })) ∧
    (∀ (title_id : Option String) (invert_title : Bool) (contents_id : Option String),
      gimp_procedure_dialog_fill_frame d id title_id invert_title contents_id =
        (some w, { d with warnings := d.warnings ++
          ["gimp_procedure_dialog_fill_frame: frame identifier '" ++ id ++
            "' was already configured."] })) := by
  refine ⟨?_, ?_, ?_⟩
  · intro text
    simp [gimp_procedure_dialog_get_label, hf, hl, Dialog.g_warning]
  · intro properties
    simp [gimp_procedure_dialog_fill_flowbox_list, hf, hl, Dialog.g_warning]
  · intro title_id invert_title contents_id
    simp [gimp_procedure_dialog_fill_frame, hf, hl, Dialog.g_warning]

/-- Witness for C10: `note` is first registered as a label, then given as the
container id of a flow box over the property `count`; the label comes back and
no widget is built for `count`. -/
theorem used_identifier_returned_witness :
    g_object_class_find_property
        (gimp_procedure_dialog_get_label example_dialog "note" "Some text").2.config "note" =
      none ∧
    g_hash_table_lookup
        (gimp_procedure_dialog_get_label example_dialog "note" "Some text").2.widgets "note" =
      some ⟨0, .label "Some text"⟩ ∧
    (gimp_procedure_dialog_fill_flowbox_list
      (gimp_procedure_dialog_get_label example_dialog "note" "Some text").2
      "note" ["count"]).1 = some ⟨0, .label "Some text"⟩ := by
  refine ⟨by decide, by decide, ?_⟩
  rw [(used_identifier_returned
    (gimp_procedure_dialog_get_label example_dialog "note" "Some text").2
    "note" ⟨0, .label "Some text"⟩ (by decide) (by decide)).2.1 ["count"]]

/-! ## The bulk fill -/

/-- `gimp_procedure_dialog_get_widget` neither reads nor writes the content
area, the shown widgets and the bindings. -/
theorem get_widget_frame (d : Dialog) (c s : List Nat) (b : List Binding) (p : String)
    (k : GType) :
    gimp_procedure_dialog_get_widget { d with content_area := c, shown := s, bindings := b } p k =
      ((gimp_procedure_dialog_get_widget d p k).1,
        { (gimp_procedure_dialog_get_widget d p k).2 with
          content_area := c, shown := s, bindings := b }) := by
  unfold gimp_procedure_dialog_get_widget
  cases hl : g_hash_table_lookup d.widgets p with
  | some w => simp [hl]
  | none =>
    cases hf : g_object_class_find_property d.config p with
    | none => simp [hl, hf, Dialog.g_warning]
    | some pspec =>
      cases hd : get_widget_dispatch pspec p k with
      | unsupported_type => simp [hl, hf, hd, Dialog.g_warning]
      | built wk lab =>
        cases wk with
        | none => simp [hl, hf, hd, Dialog.g_warning, Dialog.invalid_read]
        | some kind =>
          simp only [hl, hf, hd, Dialog.new_widget, Dialog.insert_widget]
          split_ifs <;> simp_all

theorem get_widget_same_packing (d : Dialog) (p : String) (k : GType) :
    (gimp_procedure_dialog_get_widget d p k).2.content_area = d.content_area ∧
    (gimp_procedure_dialog_get_widget d p k).2.shown = d.shown ∧
    (gimp_procedure_dialog_get_widget d p k).2.bindings = d.bindings := by
  cases hl : g_hash_table_lookup d.widgets p with
  | some w => rw [get_widget_hit d p k w hl]; exact ⟨rfl, rfl, rfl⟩
  | none =>
    cases hf : g_object_class_find_property d.config p with
    | none => rw [get_widget_unknown d p k hl hf]; exact ⟨rfl, rfl, rfl⟩
    | some pspec =>
      cases hd : get_widget_dispatch pspec p k with
      | unsupported_type =>
        rw [get_widget_unsupported_type d p k pspec hl hf hd]; exact ⟨rfl, rfl, rfl⟩
      | built wk lab =>
        cases wk with
        | none =>
          rw [get_widget_unsupported_kind d p k pspec lab hl hf hd]; exact ⟨rfl, rfl, rfl⟩
        | some kind =>
          obtain ⟨d2, h, _, _, _, _, _, h1, h2, h3⟩ := get_widget_built d p k pspec kind lab hl hf hd
          rw [h]; exact ⟨h1, h2, h3⟩

theorem get_widget_results_frame (l : List String) :
    ∀ (d : Dialog) (c s : List Nat),
      get_widget_results l { d with content_area := c, shown := s } =
        ((get_widget_results l d).1,
          { (get_widget_results l d).2 with content_area := c, shown := s }) := by
  induction l with
  | nil => intro d c s; rfl
  | cons p rest ih =>
    intro d c s
    have hf := get_widget_frame d c s d.bindings p .none
    have hb := (get_widget_same_packing d p .none).2.2
    have e1 : ({ d with content_area := c, shown := s, bindings := d.bindings } : Dialog) =
        { d with content_area := c, shown := s } := rfl
    rw [e1] at hf
    simp only [get_widget_results, hf]
    have e2 : ({ (gimp_procedure_dialog_get_widget d p .none).2 with
        content_area := c, shown := s, bindings := d.bindings } : Dialog) =
        { (gimp_procedure_dialog_get_widget d p .none).2 with content_area := c, shown := s } := by
      rw [← hb]
    rw [e2, ih]

theorem get_widget_results_same_packing (l : List String) :
    ∀ d : Dialog, (get_widget_results l d).2.content_area = d.content_area ∧
      (get_widget_results l d).2.shown = d.shown := by
  induction l with
  | nil => intro d; exact ⟨rfl, rfl⟩
  | cons p rest ih =>
    intro d
    obtain ⟨h1, h2, _⟩ := get_widget_same_packing d p .none
    obtain ⟨h3, h4⟩ := ih (gimp_procedure_dialog_get_widget d p .none).2
    simp only [get_widget_results]
    exact ⟨h3.trans h1, h4.trans h2⟩

theorem fill_list_loop_results (l : List String) :
    ∀ d : Dialog, fill_list_loop l d =
      { (get_widget_results l d).2 with
        content_area := d.content_area ++ packed_addresses (get_widget_results l d).1
        shown := d.shown ++ packed_addresses (get_widget_results l d).1 } := by
  induction l with
  | nil =>
    intro d
    simp [fill_list_loop, get_widget_results, packed_addresses]
  | cons p rest ih =>
    intro d
    obtain ⟨h1, h2, _⟩ := get_widget_same_packing d p .none
    rw [fill_list_loop]
    simp only [get_widget_results]
    rcases hres : gimp_procedure_dialog_get_widget d p .none with ⟨r, d1⟩
    rw [hres] at h1 h2
    simp only at h1 h2
    cases r with
    | none =>
      simp only [ih d1, packed_addresses, List.filterMap_cons, Option.map_none', h1, h2]
    | some widget =>
      simp only [ih, get_widget_results_frame, packed_addresses, List.filterMap_cons,
        Option.map_some', h1, h2, List.append_assoc, List.singleton_append]

theorem fill_flowbox_loop_results (l : List String) :
    ∀ (d : Dialog) (children : List Nat), fill_flowbox_loop l (d, children) =
      ({ (get_widget_results l d).2 with
          shown := d.shown ++ packed_addresses (get_widget_results l d).1 },
        children ++ packed_addresses (get_widget_results l d).1) := by
  induction l with
  | nil =>
    intro d children
    simp [fill_flowbox_loop, get_widget_results, packed_addresses]
  | cons p rest ih =>
    intro d children
    obtain ⟨h1, h2, _⟩ := get_widget_same_packing d p .none
    rw [fill_flowbox_loop]
    simp only [get_widget_results]
    rcases hres : gimp_procedure_dialog_get_widget d p .none with ⟨r, d1⟩
    rw [hres] at h1 h2
    simp only at h1 h2
    cases r with
    | none =>
      simp only [ih d1, packed_addresses, List.filterMap_cons, Option.map_none', h2]
    | some widget =>
      have e : ({ d1 with shown := d1.shown ++ [widget.addr] } : Dialog) =
          { d1 with content_area := d1.content_area, shown := d1.shown ++ [widget.addr] } := rfl
      simp only [ih, e, get_widget_results_frame, packed_addresses, List.filterMap_cons,
        Option.map_some', h1, h2, List.append_assoc, List.singleton_append]
      rw [(get_widget_results_same_packing rest d1).1, h1]

/-- The list the fill functions iterate over is the given list when that is not
empty, and otherwise the names of the properties not owned by the base
configuration type, in declaration order. -/
theorem fill_properties_eq (d : Dialog) (properties L : List String)
    (hL : L = if properties = [] then
        (d.config.filter (fun p => ! p.owner_is_procedure_config)).map (fun p => p.name)
      else properties) :
    fill_properties d properties = L := by
  subst hL
  cases properties with
  | nil => simp [fill_properties]
  | cons p rest => simp [fill_properties]

/-- C17: let `L` be the given list of identifiers or, when it is empty, the names
of the properties not owned by the base configuration type, in declaration
order. `gimp_procedure_dialog_fill_list` packs into the content area, after
what it holds, exactly the non-null results of `get_widget (p, default kind)`
for `p` in `L`, in the order of `L`; `gimp_procedure_dialog_fill_flowbox_list`
with an unused container id makes those the children of the flow box, registers
the flow box under the container id and returns it. -/
theorem fill_packs_results (d : Dialog) (properties : List String) (container_id : String)
    (L : List String)
    (hL : L = if properties = [] then
        (d.config.filter (fun p => ! p.owner_is_procedure_config)).map (fun p => p.name)
      else properties) :
    gimp_procedure_dialog_fill_list d properties =
      { (get_widget_results L d).2 with
        content_area := d.content_area ++ packed_addresses (get_widget_results L d).1
        shown := d.shown ++ packed_addresses (get_widget_results L d).1 } ∧
    (g_object_class_find_property d.config container_id = none →
      g_hash_table_lookup d.widgets container_id = none →
      (gimp_procedure_dialog_fill_flowbox_list d container_id properties).1 =
        some ⟨d.next_addr, .flow_box (packed_addresses
          (get_widget_results L { d with next_addr := d.next_addr + 1 }).1)⟩ ∧
      g_hash_table_lookup
          (gimp_procedure_dialog_fill_flowbox_list d container_id properties).2.widgets
          container_id =
        (gimp_procedure_dialog_fill_flowbox_list d container_id properties).1 ∧
      (gimp_procedure_dialog_fill_flowbox_list d container_id properties).2.content_area =
        d.content_area) := by
  have hfp : fill_properties d properties = L := fill_properties_eq d properties L hL
  have hfp1 : fill_properties { d with next_addr := d.next_addr + 1 } properties = L :=
    fill_properties_eq { d with next_addr := d.next_addr + 1 } properties L hL
  refine ⟨?_, ?_⟩
  · rw [gimp_procedure_dialog_fill_list, hfp]
    exact fill_list_loop_results L d
  intro hf hl
  have hres : gimp_procedure_dialog_fill_flowbox_list d container_id properties =
      (some ⟨d.next_addr, .flow_box (packed_addresses
          (get_widget_results L { d with next_addr := d.next_addr + 1 }).1)⟩,
        Dialog.insert_widget
          { (get_widget_results L { d with next_addr := d.next_addr + 1 }).2 with
            shown := d.shown ++ packed_addresses
              (get_widget_results L { d with next_addr := d.next_addr + 1 }).1 }
          container_id
          ⟨d.next_addr, .flow_box (packed_addresses
            (get_widget_results L { d with next_addr := d.next_addr + 1 }).1)⟩) := by
    simp [gimp_procedure_dialog_fill_flowbox_list, hf, hl, Dialog.new_widget, hfp1,
      fill_flowbox_loop_results]
  rw [hres]
  refine ⟨rfl, ?_, ?_⟩
  · simp only [Dialog.insert_widget]
    exact lookup_insert_same _ _ _
  · simp only [Dialog.insert_widget]
    exact (get_widget_results_same_packing _ _).1

/-- Witness for C17, on the empty list: the configuration declares `procedure`
(owned by the base configuration type), `enabled`, `count` and `comment`; the
list iterated over is `enabled`, `count`, `comment`, the flow box gets their
three widgets as children, in that order, and `gimp_procedure_dialog_fill_list`
packs the three widgets into the content area. -/
theorem fill_packs_results_witness :
    g_object_class_find_property example_dialog.config "box" = none ∧
    g_hash_table_lookup example_dialog.widgets "box" = none ∧
    (gimp_procedure_dialog_fill_flowbox_list example_dialog "box" []).1 =
      some ⟨0, .flow_box [1, 2, 3]⟩ ∧
    (gimp_procedure_dialog_fill_list example_dialog []).content_area = [0, 1, 2] ∧
    ((gimp_procedure_dialog_fill_list example_dialog []).widgets.map (fun e => e.1)) =
      ["enabled", "count", "comment"] := by
  have h := fill_packs_results example_dialog [] "box" ["enabled", "count", "comment"]
    (by decide)
  refine ⟨by decide, by decide, ?_, ?_, ?_⟩
  · rw [(h.2 (by decide) (by decide)).1]
    decide
  · rw [h.1]
    decide
  · rw [h.1]
    decide

/-! ## Frames and combo boxes -/

/-- Counterexample to C18 as stated: the frame `frame` is made with the title
`enabled`, which resolves to a check button, and no contents; the frame is
returned and registered, and no binding is created. -/
theorem fill_frame_toggle_without_contents :
    g_object_class_find_property example_dialog.config "frame" = none ∧
    g_hash_table_lookup example_dialog.widgets "frame" = none ∧
    (gimp_procedure_dialog_get_widget { example_dialog with next_addr := 1 } "enabled" .none).1 =
      some ⟨1, .check_button "enabled" "Enabled"⟩ ∧
    (gimp_procedure_dialog_fill_frame example_dialog "frame" (some "enabled") false none).1 =
      some ⟨0, .frame (some 1) none⟩ ∧
    (gimp_procedure_dialog_fill_frame example_dialog "frame" (some "enabled") false
      none).2.bindings = [] := by
  decide

/-- C18, amended: in `gimp_procedure_dialog_fill_frame` with an unused container
id whose contents id and title id both resolve to widgets, a binding from the
title's active state to the contents' sensitive state is created exactly when
the title widget is a check button or a switch, and it is inverted exactly when
`invert_title` is true; a title of any other kind creates no binding, and
without contents (`contents_id` is `NULL`) no binding is created whatever the
title is. -/
theorem fill_frame_binding (d : Dialog) (container_id title_id : String) (invert_title : Bool)
    (hf : g_object_class_find_property d.config container_id = none)
    (hl : g_hash_table_lookup d.widgets container_id = none) :
    (∀ (contents_id : String) (contents title : Widget) (d2 d4 : Dialog),
      gimp_procedure_dialog_get_widget { d with next_addr := d.next_addr + 1 }
          contents_id .none = (some contents, d2) →
      gimp_procedure_dialog_get_widget { d2 with shown := d2.shown ++ [contents.addr] }
          title_id .none = (some title, d4) →
      (gimp_procedure_dialog_fill_frame d container_id (some title_id) invert_title
        (some contents_id)).1 =
          some ⟨d.next_addr, .frame (some title.addr) (some contents.addr)⟩ ∧
      (gimp_procedure_dialog_fill_frame d container_id (some title_id) invert_title
        (some contents_id)).2.bindings =
          d.bindings ++
            (if title.is_check_button ∨ title.is_switch then
              [Binding.mk title.addr contents.addr invert_title]
            else [])) ∧
    (gimp_procedure_dialog_fill_frame d container_id (some title_id) invert_title
      none).2.bindings = d.bindings := by
  refine ⟨?_, ?_⟩
  · intro contents_id contents title d2 d4 h1 h2
    have hb2 : d2.bindings = d.bindings := by
      have := (get_widget_same_packing { d with next_addr := d.next_addr + 1 }
        contents_id .none).2.2
      rw [h1] at this
      exact this
    have hb4 : d4.bindings = d.bindings := by
      have := (get_widget_same_packing { d2 with shown := d2.shown ++ [contents.addr] }
        title_id .none).2.2
      rw [h2] at this
      exact this.trans hb2
    simp only [gimp_procedure_dialog_fill_frame, hf, hl, Dialog.new_widget, h1,
      fill_frame_title, h2, Option.isSome_none, Bool.false_eq_true, if_false, Option.map_some']
    split_ifs <;> simp [Dialog.insert_widget, hb4]
  · simp only [gimp_procedure_dialog_fill_frame, hf, hl, Dialog.new_widget, fill_frame_title,
      Option.isSome_none, Bool.false_eq_true, if_false]
    have hb := (get_widget_same_packing { d with next_addr := d.next_addr + 1 }
      title_id .none).2.2
    rcases hres : gimp_procedure_dialog_get_widget { d with next_addr := d.next_addr + 1 }
      title_id .none with ⟨r, d1⟩
    rw [hres] at hb
    cases r with
    | none => simpa [Dialog.g_warning] using hb
    | some title => simpa [Dialog.insert_widget] using hb

/-- Witness for C18, amended: the frame `frame` with the check button of
`enabled` as title, inverted, over the spinner of `count`. -/
theorem fill_frame_binding_witness :
    g_object_class_find_property example_dialog.config "frame" = none ∧
    g_hash_table_lookup example_dialog.widgets "frame" = none ∧
    (gimp_procedure_dialog_fill_frame example_dialog "frame" (some "enabled") true
      (some "count")).2.bindings = [Binding.mk 2 1 true] := by
  have h := ((fill_frame_binding example_dialog "frame" "enabled" true (by decide)
    (by decide)).1 "count" ⟨1, .label_spin "count"⟩ ⟨2, .check_button "enabled" "Enabled"⟩
    _ _ rfl rfl).2
  refine ⟨by decide, by decide, ?_⟩
  rw [h]
  decide

/-- C19, the code at the failing inputs: a frame made over the contents id
`missing`, which resolves to nothing, is returned (not null) but is not in the
widget table, `get_widget` on its id returns null, and a second call with the
same id constructs another frame; the same happens when the title id resolves
to nothing. -/
theorem fill_frame_returned_unregistered :
    (gimp_procedure_dialog_fill_frame example_dialog "frame" none false (some "missing")).1 =
      some ⟨0, .frame none none⟩ ∧
    g_hash_table_lookup
      (gimp_procedure_dialog_fill_frame example_dialog "frame" none false
        (some "missing")).2.widgets "frame" = none ∧
    (gimp_procedure_dialog_get_widget
      (gimp_procedure_dialog_fill_frame example_dialog "frame" none false (some "missing")).2
      "frame" .none).1 = none ∧
    (gimp_procedure_dialog_fill_frame
      (gimp_procedure_dialog_fill_frame example_dialog "frame" none false (some "missing")).2
      "frame" none false (some "missing")).1 = some ⟨1, .frame none none⟩ ∧
    (gimp_procedure_dialog_fill_frame example_dialog "frame" (some "missing") false
      (some "count")).1 = some ⟨0, .frame none (some 1)⟩ ∧
    g_hash_table_lookup
      (gimp_procedure_dialog_fill_frame example_dialog "frame" (some "missing") false
        (some "count")).2.widgets "frame" = none := by
  decide

/-- C20: `gimp_procedure_dialog_get_int_combo` returns the widget stored under
the identifier when there is one, whatever its kind; otherwise it builds a
labeled combo box bound to the caller's store, stores it under the identifier
and returns it exactly when the identifier names a property of boolean or
integer type, and for an unknown identifier or a property of another type it
returns null and leaves the widget table unchanged. -/
theorem get_int_combo_result (d : Dialog) (id : String) (store : Nat) :
    (∀ w, g_hash_table_lookup d.widgets id = some w →
      gimp_procedure_dialog_get_int_combo d id store = (some w, d)) ∧
    (g_hash_table_lookup d.widgets id = none →
      (∀ pspec, g_object_class_find_property d.config id = some pspec →
        (pspec.ptype = .boolean ∨ ∃ minimum maximum, pspec.ptype = .int minimum maximum) →
        (gimp_procedure_dialog_get_int_combo d id store).1 =
          some ⟨d.next_addr, .label_int_widget pspec.nick id store⟩ ∧
        g_hash_table_lookup (gimp_procedure_dialog_get_int_combo d id store).2.widgets id =
          some ⟨d.next_addr, .label_int_widget pspec.nick id store⟩ ∧
        (gimp_procedure_dialog_get_int_combo d id store).2.next_addr = d.next_addr + 1) ∧
      ((gimp_procedure_dialog_get_int_combo d id store).1 ≠ none ↔
        ∃ pspec, g_object_class_find_property d.config id = some pspec ∧
          (pspec.ptype = .boolean ∨
            ∃ minimum maximum, pspec.ptype = .int minimum maximum)) ∧
      ((gimp_procedure_dialog_get_int_combo d id store).1 = none →
        (gimp_procedure_dialog_get_int_combo d id store).2.widgets = d.widgets ∧
        (gimp_procedure_dialog_get_int_combo d id store).2.next_addr = d.next_addr)) := by
  refine ⟨?_, ?_⟩
  · intro w hl
    simp [gimp_procedure_dialog_get_int_combo, hl]
  · intro hl
    have hbuilt : ∀ pspec, g_object_class_find_property d.config id = some pspec →
        (pspec.ptype = .boolean ∨ ∃ minimum maximum, pspec.ptype = .int minimum maximum) →
        (gimp_procedure_dialog_get_int_combo d id store).1 =
          some ⟨d.next_addr, .label_int_widget pspec.nick id store⟩ ∧
        g_hash_table_lookup (gimp_procedure_dialog_get_int_combo d id store).2.widgets id =
          some ⟨d.next_addr, .label_int_widget pspec.nick id store⟩ ∧
        (gimp_procedure_dialog_get_int_combo d id store).2.next_addr = d.next_addr + 1 := by
      intro pspec hf ht
      have hres : gimp_procedure_dialog_get_int_combo d id store =
          (some ⟨d.next_addr, .label_int_widget pspec.nick id store⟩,
            Dialog.insert_widget
              { d with next_addr := d.next_addr + 1,
                       label_group := d.label_group ++ [d.next_addr] }
              id ⟨d.next_addr, .label_int_widget pspec.nick id store⟩) := by
        rcases ht with hb | ⟨minimum, maximum, hi⟩
        · simp [gimp_procedure_dialog_get_int_combo, hl, hf, hb, Dialog.new_widget,
            gimp_label_int_widget_new, Widget.is_labeled]
        · simp [gimp_procedure_dialog_get_int_combo, hl, hf, hi, Dialog.new_widget,
            gimp_label_int_widget_new, Widget.is_labeled]
      rw [hres]
      refine ⟨rfl, ?_, rfl⟩
      simp only [Dialog.insert_widget]
      exact lookup_insert_same _ _ _
    refine ⟨hbuilt, ?_, ?_⟩
    · cases hf : g_object_class_find_property d.config id with
      | none => simp [gimp_procedure_dialog_get_int_combo, hl, hf]
      | some pspec =>
        by_cases ht : pspec.ptype = .boolean ∨
            ∃ minimum maximum, pspec.ptype = .int minimum maximum
        · rw [(hbuilt pspec hf ht).1]
          simp [ht]
        · have hno : gimp_procedure_dialog_get_int_combo d id store =
              (none, d.g_warning
                ("gimp_procedure_dialog_get_int_combo: parameter '" ++ id ++ "' of type " ++
                  pspec.ptype.type_name ++ " not suitable as GimpIntComboBox")) := by
            cases hp : pspec.ptype with
            | boolean => exact absurd (Or.inl hp) ht
            | int minimum maximum => exact absurd (Or.inr ⟨minimum, maximum, hp⟩) ht
            | string => simp [gimp_procedure_dialog_get_int_combo, hl, hf, hp]
            | other n => simp [gimp_procedure_dialog_get_int_combo, hl, hf, hp]
          rw [hno]
          simp [ht]
    · intro hnull
      cases hf : g_object_class_find_property d.config id with
      | none => simp [gimp_procedure_dialog_get_int_combo, hl, hf, Dialog.g_warning]
      | some pspec =>
        by_cases ht : pspec.ptype = .boolean ∨
            ∃ minimum maximum, pspec.ptype = .int minimum maximum
        · rw [(hbuilt pspec hf ht).1] at hnull
          exact Option.noConfusion hnull
        · cases hp : pspec.ptype with
          | boolean => exact absurd (Or.inl hp) ht
          | int minimum maximum => exact absurd (Or.inr ⟨minimum, maximum, hp⟩) ht
          | string =>
            simp [gimp_procedure_dialog_get_int_combo, hl, hf, hp, Dialog.g_warning]
          | other n =>
            simp [gimp_procedure_dialog_get_int_combo, hl, hf, hp, Dialog.g_warning]

/-- Witness for C20: a combo box for the integer property `count`, and none for
the string property `comment`. -/
theorem get_int_combo_result_witness :
    g_hash_table_lookup example_dialog.widgets "count" = none ∧
    (gimp_procedure_dialog_get_int_combo example_dialog "count" 7).1 =
      some ⟨0, .label_int_widget "Count" "count" 7⟩ ∧
    (gimp_procedure_dialog_get_int_combo example_dialog "comment" 7).1 = none := by
  have h := ((get_int_combo_result example_dialog "count" 7).2 (by decide)).1
    ⟨"count", "Count", .int 0 10, false⟩ (by decide) (Or.inr ⟨0, 10, rfl⟩)
  exact ⟨by decide, h.1, by decide⟩

/-! ## Reset and run -/

/-- Every action keeps the snapshot and the declared defaults of the
configuration under edit. -/
theorem perform_keeps_snapshot (c0 : ProcedureConfig) (action : DialogAction)
    (s : DialogSession) (hi : s.initial_config = some c0)
    (hc : ∃ v, s.config = some ⟨c0.defaults, v⟩) :
    (action.perform s).initial_config = some c0 ∧
      ∃ v, (action.perform s).config = some ⟨c0.defaults, v⟩ := by
  obtain ⟨v, hv⟩ := hc
  cases action with
  | edit name value =>
    exact ⟨hi, _, by simp [DialogAction.perform, hv, ProcedureConfig.set_value]; rfl⟩
  | load_defaults success values error =>
    simp only [DialogAction.perform, gimp_procedure_dialog_load_defaults]
    split_ifs
    · exact ⟨hi, values, by simp [hv]⟩
    · cases error <;> exact ⟨hi, values, by simp [hv]⟩
  | save_defaults error =>
    cases error <;> exact ⟨hi, v, hv⟩
  | reset_initial =>
    exact ⟨hi, c0.values, by
      simp [DialogAction.perform, gimp_procedure_dialog_reset_initial, hi, hv, gimp_config_copy]⟩
  | reset_factory =>
    exact ⟨hi, c0.defaults, by
      simp [DialogAction.perform, gimp_procedure_dialog_reset_factory, hv, gimp_config_reset]⟩

theorem perform_actions_keep_snapshot (c0 : ProcedureConfig) (actions : List DialogAction) :
    ∀ s : DialogSession, s.initial_config = some c0 →
      (∃ v, s.config = some ⟨c0.defaults, v⟩) →
      (perform_actions actions s).initial_config = some c0 ∧
        ∃ v, (perform_actions actions s).config = some ⟨c0.defaults, v⟩ := by
  induction actions with
  | nil => intro s hi hc; exact ⟨hi, hc⟩
  | cons action rest ih =>
    intro s hi hc
    obtain ⟨h1, h2⟩ := perform_keeps_snapshot c0 action s hi hc
    exact ih _ h1 h2

/-- C15: for a dialog constructed on a configuration `c0`, after any sequence of
property edits, load-defaults and save-defaults clicks and resets, the snapshot
still is `c0`, "reset to initial" leaves the configuration equal to `c0`, and
"reset to factory" leaves it with its declared defaults as values, whatever the
values of `c0` were. -/
theorem reset_restores (c0 : ProcedureConfig) (actions : List DialogAction) :
    (perform_actions actions (gimp_procedure_dialog_new c0)).initial_config = some c0 ∧
    (gimp_procedure_dialog_reset_initial
      (perform_actions actions (gimp_procedure_dialog_new c0))).config = some c0 ∧
    (gimp_procedure_dialog_reset_factory
      (perform_actions actions (gimp_procedure_dialog_new c0))).config =
        some { c0 with values := c0.defaults } := by
  obtain ⟨hi, v, hv⟩ := perform_actions_keep_snapshot c0 actions (gimp_procedure_dialog_new c0)
    rfl ⟨c0.values, rfl⟩
  refine ⟨hi, ?_, ?_⟩
  · simp [gimp_procedure_dialog_reset_initial, hi, hv, gimp_config_copy]
  · simp [gimp_procedure_dialog_reset_factory, hv, gimp_config_reset]

/-- While every response is the Reset response the run does not return. -/
theorem run_resets (resets : List RunEvent)
    (hr : ∀ e ∈ resets, e.response = RESPONSE_RESET) :
    ∀ (rest : List RunEvent) (dialog : DialogSession),
      ∃ d1, gimp_procedure_dialog_run (resets ++ rest) dialog =
          gimp_procedure_dialog_run rest d1 ∧
        ((∀ e ∈ resets, e.actions = []) → d1.config = dialog.config ∧
          d1.initial_config = dialog.initial_config) := by
  induction resets with
  | nil => intro rest dialog; exact ⟨dialog, rfl, fun _ => ⟨rfl, rfl⟩⟩
  | cons e more ih =>
    intro rest dialog
    have he : e.response = RESPONSE_RESET := hr e (List.mem_cons_self _ _)
    obtain ⟨d1, h1, h2⟩ := ih (fun x hx => hr x (List.mem_cons_of_mem _ hx)) rest
      { perform_actions e.actions dialog with reset_popover := some true }
    refine ⟨d1, ?_, ?_⟩
    · simp only [List.cons_append, gimp_procedure_dialog_run, he, if_true]
      exact h1
    · intro hall
      have hnil : e.actions = [] := hall e (List.mem_cons_self _ _)
      obtain ⟨h3, h4⟩ := h2 (fun x hx => hall x (List.mem_cons_of_mem _ hx))
      rw [h3, h4, hnil]
      exact ⟨rfl, rfl⟩

/-- C16: for a sequence of calls of `gimp_dialog_run` that return the Reset
response zero or more times and then a response `r` that is not Reset,
`gimp_procedure_dialog_run` returns, and returns `TRUE` if and only if `r` is
`GTK_RESPONSE_OK`; while only Reset responses have come the run has not
returned, and Reset responses during which no button is clicked and nothing is
edited leave the configuration as it was. -/
theorem run_returns_ok (resets : List RunEvent) (last : RunEvent) (dialog : DialogSession)
    (hr : ∀ e ∈ resets, e.response = RESPONSE_RESET)
    (hl : last.response ≠ RESPONSE_RESET) :
    (gimp_procedure_dialog_run (resets ++ [last]) dialog).1 =
        some (decide (last.response = GTK_RESPONSE_OK)) ∧
    ((gimp_procedure_dialog_run (resets ++ [last]) dialog).1 = some true ↔
      last.response = GTK_RESPONSE_OK) ∧
    (gimp_procedure_dialog_run resets dialog).1 = none ∧
    ((∀ e ∈ resets, e.actions = []) →
      (gimp_procedure_dialog_run resets dialog).2.config = dialog.config) := by
  obtain ⟨d1, h1, _⟩ := run_resets resets hr [last] dialog
  obtain ⟨d2, h2, h3⟩ := run_resets resets hr [] dialog
  have hres : (gimp_procedure_dialog_run (resets ++ [last]) dialog).1 =
      some (decide (last.response = GTK_RESPONSE_OK)) := by
    rw [h1]
    simp [gimp_procedure_dialog_run, hl]
  refine ⟨hres, ?_, ?_, ?_⟩
  · rw [hres]; simp
  · rw [← List.append_nil resets, h2]; rfl
  · intro hall
    rw [← List.append_nil resets, h2]
    exact (h3 hall).1

/-- Witness for C16: two Reset responses, the second with a click on "reset to
factory", then the Cancel response. -/
theorem run_returns_ok_witness :
    (gimp_procedure_dialog_run
      ([⟨[], RESPONSE_RESET⟩, ⟨[.reset_factory], RESPONSE_RESET⟩] ++
        [⟨[], GTK_RESPONSE_CANCEL⟩])
      (gimp_procedure_dialog_new example_config)).1 = some false :=
  (run_returns_ok [⟨[], RESPONSE_RESET⟩, ⟨[.reset_factory], RESPONSE_RESET⟩]
    ⟨[], GTK_RESPONSE_CANCEL⟩ (gimp_procedure_dialog_new example_config)
    (by decide) (by decide)).1

/-! ## The search loop over the rationals: number of turns -/

theorem places_loop_iterations_done (range places : ℚ) (hr : 0 < range) (hp : 0 < places)
    (h : 5 ≤ range * places) : places_loop_iterations range places hr hp = 0 := by
  rw [places_loop_iterations]
  have : ¬ range * places < 5.0 := by norm_num; exact h
  simp [this]

/-! ## Increment estimation: bounds, monotonicity, integer bounds -/

/-- For a positive integer range the exit test of the loop holds at
`places = 10`. -/
theorem integer_range_exit (minimum maximum : Int) (hr : (0 : ℚ) < (maximum : ℚ) - minimum) :
    (5 : ℚ) ≤ ((maximum : ℚ) - minimum) * 10.0 := by
  have h1 : (1 : ℚ) ≤ (maximum : ℚ) - minimum := by
    have hz : (0 : ℤ) < maximum - minimum := by exact_mod_cast hr
    have : (1 : ℤ) ≤ maximum - minimum := hz
    exact_mod_cast this
  norm_num
  linarith

/-- C25: for integer bounds with `minimum <= maximum`, as passed by the bare
spin-button branch of the widget getter, the search loop makes no turn, and the
increments stored are `(0.01, 0.1)` for `maximum - minimum` in `{0, 1, 2}`,
`(0.1, 1.0)` for 3 to 5, `(1.0, 2.0)` for 6 to 40 and `(1.0, 10.0)` above 40;
so the step is an integer exactly when `maximum - minimum >= 6`, and it is 1
then. -/
theorem estimate_increments_integer_bounds (minimum maximum : Int) (a b : ℚ)
    (hle : minimum ≤ maximum) :
    (∀ (hr : (0 : ℚ) < (maximum : ℚ) - minimum) (hp : (0 : ℚ) < 10.0),
      places_loop_iterations ((maximum : ℚ) - minimum) 10.0 hr hp = 0) ∧
    (maximum - minimum ≤ 2 →
      gimp_procedure_dialog_estimate_increments minimum maximum (some a) (some b) =
        (some 0.01, some 0.1)) ∧
    (3 ≤ maximum - minimum ∧ maximum - minimum ≤ 5 →
      gimp_procedure_dialog_estimate_increments minimum maximum (some a) (some b) =
        (some 0.1, some 1.0)) ∧
    (6 ≤ maximum - minimum ∧ maximum - minimum ≤ 40 →
      gimp_procedure_dialog_estimate_increments minimum maximum (some a) (some b) =
        (some 1.0, some 2.0)) ∧
    (40 < maximum - minimum →
      gimp_procedure_dialog_estimate_increments minimum maximum (some a) (some b) =
        (some 1.0, some 10.0)) ∧
    (∀ s p : ℚ,
      gimp_procedure_dialog_estimate_increments minimum maximum (some a) (some b) =
        (some s, some p) →
      ((∃ n : ℤ, s = n) ↔ 6 ≤ maximum - minimum) ∧ ((∃ n : ℤ, s = n) → s = 1)) := by
  have hleq : (minimum : ℚ) ≤ maximum := by exact_mod_cast hle
  have hcast : ∀ n : ℤ, (maximum - minimum ≤ n ↔ (maximum : ℚ) - minimum ≤ n) := by
    intro n
    constructor
    · intro h; exact_mod_cast h
    · intro h; exact_mod_cast h
  have hnn : 0 ≤ maximum - minimum := by omega
  -- the four buckets over the integers
  have hb1 : maximum - minimum ≤ 2 →
      gimp_procedure_dialog_estimate_increments minimum maximum (some a) (some b) =
        (some 0.01, some 0.1) := by
    intro h2
    have h2q : (maximum : ℚ) - minimum ≤ 2 := by exact_mod_cast (hcast 2).mp h2
    by_cases h1 : maximum - minimum = 1
    · have h1q : (maximum : ℚ) - minimum = 1 := by exact_mod_cast h1
      have hv := estimate_increments_places minimum maximum (some a) (some b)
        (by rw [h1q]; norm_num) (by rw [h1q]) (by simp) 0 (by rw [h1q]; norm_num)
        (fun i hi => absurd hi (Nat.not_lt_zero i))
      rw [hv]
      norm_num [write_cell]
    · have hr : (maximum : ℚ) - minimum = 0 ∨ 1 < (maximum : ℚ) - minimum := by
        rcases Int.lt_or_lt_of_ne h1 with hlt | hgt
        · left
          have : maximum - minimum = 0 := by omega
          exact_mod_cast this
        · right
          exact_mod_cast hgt
      rw [estimate_increments_large _ _ _ _ hleq (by simp) hr, if_pos h2q]
      norm_num [write_cell]
  have hlarge : 3 ≤ maximum - minimum →
      gimp_procedure_dialog_estimate_increments minimum maximum (some a) (some b) =
        if (maximum : ℚ) - minimum ≤ 5 then (some 0.1, some 1)
        else if (maximum : ℚ) - minimum ≤ 40 then (some 1, some 2)
        else (some 1, some 10) := by
    intro h3
    have h3q : (3 : ℚ) ≤ (maximum : ℚ) - minimum := by exact_mod_cast h3
    rw [estimate_increments_large _ _ _ _ hleq (by simp) (Or.inr (by linarith)),
      if_neg (by linarith)]
    split_ifs <;> simp [write_cell]
  have hb2 : 3 ≤ maximum - minimum ∧ maximum - minimum ≤ 5 →
      gimp_procedure_dialog_estimate_increments minimum maximum (some a) (some b) =
        (some 0.1, some 1.0) := by
    rintro ⟨h3, h5⟩
    have h5q : (maximum : ℚ) - minimum ≤ 5 := by exact_mod_cast (hcast 5).mp h5
    rw [hlarge h3, if_pos h5q]
    norm_num
  have hb3 : 6 ≤ maximum - minimum ∧ maximum - minimum ≤ 40 →
      gimp_procedure_dialog_estimate_increments minimum maximum (some a) (some b) =
        (some 1.0, some 2.0) := by
    rintro ⟨h6, h40⟩
    have h6q : (6 : ℚ) ≤ (maximum : ℚ) - minimum := by exact_mod_cast h6
    have h40q : (maximum : ℚ) - minimum ≤ 40 := by exact_mod_cast (hcast 40).mp h40
    rw [hlarge (by omega), if_neg (by linarith), if_pos h40q]
    norm_num
  have hb4 : 40 < maximum - minimum →
      gimp_procedure_dialog_estimate_increments minimum maximum (some a) (some b) =
        (some 1.0, some 10.0) := by
    intro h40
    have h40q : (40 : ℚ) < (maximum : ℚ) - minimum := by exact_mod_cast h40
    rw [hlarge (by omega), if_neg (by linarith), if_neg (by linarith)]
    norm_num
  refine ⟨?_, hb1, hb2, hb3, hb4, ?_⟩
  · intro hr hp
    exact places_loop_iterations_done _ _ hr hp (integer_range_exit minimum maximum hr)
  · intro s p hsp
    have hnot1 : ¬ ∃ n : ℤ, (0.01 : ℚ) = n := by
      rintro ⟨n, hn⟩
      have h1 : (0 : ℚ) < n := by rw [← hn]; norm_num
      have h2 : (n : ℚ) < 1 := by rw [← hn]; norm_num
      have h3 : (0 : ℤ) < n := by exact_mod_cast h1
      have h4 : n < 1 := by exact_mod_cast h2
      omega
    have hnot2 : ¬ ∃ n : ℤ, (0.1 : ℚ) = n := by
      rintro ⟨n, hn⟩
      have h1 : (0 : ℚ) < n := by rw [← hn]; norm_num
      have h2 : (n : ℚ) < 1 := by rw [← hn]; norm_num
      have h3 : (0 : ℤ) < n := by exact_mod_cast h1
      have h4 : n < 1 := by exact_mod_cast h2
      omega
    have hone : ∃ n : ℤ, (1.0 : ℚ) = n := ⟨1, by norm_num⟩
    by_cases c1 : maximum - minimum ≤ 2
    · rw [hb1 c1] at hsp
      simp only [Prod.mk.injEq, Option.some.injEq] at hsp
      rw [← hsp.1]
      exact ⟨⟨fun h => absurd h hnot1, fun h => by omega⟩, fun h => absurd h hnot1⟩
    · by_cases c2 : maximum - minimum ≤ 5
      · rw [hb2 ⟨by omega, c2⟩] at hsp
        simp only [Prod.mk.injEq, Option.some.injEq] at hsp
        rw [← hsp.1]
        exact ⟨⟨fun h => absurd h hnot2, fun h => by omega⟩, fun h => absurd h hnot2⟩
      · by_cases c3 : maximum - minimum ≤ 40
        · rw [hb3 ⟨by omega, c3⟩] at hsp
          simp only [Prod.mk.injEq, Option.some.injEq] at hsp
          rw [← hsp.1]
          exact ⟨⟨fun _ => by omega, fun _ => hone⟩, fun _ => by norm_num⟩
        · rw [hb4 (by omega)] at hsp
          simp only [Prod.mk.injEq, Option.some.injEq] at hsp
          rw [← hsp.1]
          exact ⟨⟨fun _ => by omega, fun _ => hone⟩, fun _ => by norm_num⟩

/-- Witness for C25: the integer bounds 0 and 10, those of the property `count`
of the example dialog, give step 1 and page 2. -/
theorem estimate_increments_integer_bounds_witness :
    (0 : Int) ≤ 10 ∧
    gimp_procedure_dialog_estimate_increments ((0 : Int) : ℚ) ((10 : Int) : ℚ)
        (some 0.0) (some 0.0) = (some 1.0, some 2.0) :=
  ⟨by decide,
    (estimate_increments_integer_bounds 0 10 0.0 0.0 (by decide)).2.2.2.1
      ⟨by decide, by decide⟩⟩

/-- C21, the code at the failing input: for the string property `comment`, not
yet cached, the getter called with `G_TYPE_NONE` builds a text view, and builds
an entry only when `GTK_TYPE_ENTRY` is asked for. -/
theorem get_widget_string_default :
    g_hash_table_lookup example_dialog.widgets "comment" = none ∧
    g_object_class_find_property example_dialog.config "comment" =
      some ⟨"comment", "Comment", .string, false⟩ ∧
    (gimp_procedure_dialog_get_widget example_dialog "comment" .none).1 =
      some ⟨0, .text_view "comment"⟩ ∧
    (gimp_procedure_dialog_get_widget example_dialog "comment" .entry).1 =
      some ⟨0, .entry "comment"⟩ := by
  decide

end GimpProcedureDialog

namespace GimpPlugInProc

/-! ## Registrar: table search -/

theorem procedure_find_none_iff (l : List Procedure) (proc_name : String) :
    gimp_plug_in_procedure_find l proc_name = none ↔ ∀ p ∈ l, p.name ≠ proc_name := by
  induction l with
  | nil => simp [gimp_plug_in_procedure_find]
  | cons p rest ih =>
    by_cases h : p.name = proc_name
    · simp [gimp_plug_in_procedure_find, h]
    · simp [gimp_plug_in_procedure_find, h, ih]

/-- A procedure found in a table is at the position returned, has the name
searched for, and no procedure before it has that name. -/
theorem procedure_find_some (l : List Procedure) (proc_name : String) :
    ∀ (i : Nat) (p : Procedure), gimp_plug_in_procedure_find l proc_name = some (i, p) →
      l[i]? = some p ∧ p.name = proc_name ∧
      ∀ (j : Nat) (q : Procedure), j < i → l[j]? = some q → q.name ≠ proc_name := by
  induction l with
  | nil => intro i p h; simp [gimp_plug_in_procedure_find] at h
  | cons a rest ih =>
    intro i p h
    by_cases ha : a.name = proc_name
    · simp only [gimp_plug_in_procedure_find, ha, if_true, Option.some.injEq,
        Prod.mk.injEq] at h
      obtain ⟨hi, hp⟩ := h
      subst hi
      subst hp
      exact ⟨by simp, ha, fun j q hj _ => absurd hj (Nat.not_lt_zero j)⟩
    · simp only [gimp_plug_in_procedure_find, ha, if_false, Option.map_eq_some',
        Prod.mk.injEq] at h
      obtain ⟨⟨i0, p0⟩, hfind, hi, hp⟩ := h
      simp only at hi hp
      subst hi
      subst hp
      obtain ⟨h1, h2, h3⟩ := ih i0 p0 hfind
      refine ⟨by simpa using h1, h2, ?_⟩
      intro j q hj hq
      cases j with
      | zero =>
        simp only [List.getElem?_cons_zero, Option.some.injEq] at hq
        subst hq
        exact ha
      | succ j =>
        simp only [List.getElem?_cons_succ] at hq
        exact h3 j q (by omega) hq

/-- Writing a procedure of the same name at the position where the search
stopped makes the search stop there again, on the procedure written. -/
theorem procedure_find_set (l : List Procedure) (proc_name : String) (q : Procedure)
    (hq : q.name = proc_name) :
    ∀ (i : Nat) (p : Procedure), gimp_plug_in_procedure_find l proc_name = some (i, p) →
      gimp_plug_in_procedure_find (l.set i q) proc_name = some (i, q) := by
  induction l with
  | nil => intro i p h; simp [gimp_plug_in_procedure_find] at h
  | cons a rest ih =>
    intro i p h
    by_cases ha : a.name = proc_name
    · simp only [gimp_plug_in_procedure_find, ha, if_true, Option.some.injEq,
        Prod.mk.injEq] at h
      obtain ⟨hi, _⟩ := h
      subst hi
      simp [gimp_plug_in_procedure_find, hq]
    · simp only [gimp_plug_in_procedure_find, ha, if_false, Option.map_eq_some',
        Prod.mk.injEq] at h
      obtain ⟨⟨i0, p0⟩, hfind, hi, _⟩ := h
      simp only at hi
      subst hi
      simp [gimp_plug_in_procedure_find, ha, ih i0 p0 hfind]

theorem proc_find_none_iff (plug_in : PlugIn) (proc_name : String) :
    gimp_plug_in_proc_find plug_in proc_name = none ↔
      (∀ p ∈ plug_in.static_procedures, p.name ≠ proc_name) ∧
      (∀ p ∈ plug_in.temp_procedures, p.name ≠ proc_name) := by
  unfold gimp_plug_in_proc_find PlugIn.static_procedures
  cases hd : plug_in.plug_in_def with
  | none =>
    simp [procedure_find_none_iff]
  | some procedures =>
    cases hs : gimp_plug_in_procedure_find procedures proc_name with
    | none =>
      have := (procedure_find_none_iff procedures proc_name).mp hs
      simp only [hs, Option.map_none', Option.map_eq_none', procedure_find_none_iff, Option.getD_some]
      exact ⟨fun h => ⟨this, h⟩, fun h => h.2⟩
    | some r =>
      have hne : ¬ ∀ p ∈ procedures, p.name ≠ proc_name := by
        intro hall
        rw [(procedure_find_none_iff procedures proc_name).mpr hall] at hs
        exact Option.noConfusion hs
      simp [hs, hne]

theorem proc_find_static (plug_in : PlugIn) (proc_name : String)
    (procedures : List Procedure) (i : Nat) (p : Procedure)
    (hd : plug_in.plug_in_def = some procedures)
    (hs : gimp_plug_in_procedure_find procedures proc_name = some (i, p)) :
    gimp_plug_in_proc_find plug_in proc_name = some (⟨.static, i⟩, p) := by
  simp [gimp_plug_in_proc_find, hd, hs]

theorem proc_find_temporary (plug_in : PlugIn) (proc_name : String)
    (hs : ∀ p ∈ plug_in.static_procedures, p.name ≠ proc_name) :
    gimp_plug_in_proc_find plug_in proc_name =
      (gimp_plug_in_procedure_find plug_in.temp_procedures proc_name).map
        (fun r => (⟨.temporary, r.1⟩, r.2)) := by
  unfold gimp_plug_in_proc_find
  unfold PlugIn.static_procedures at hs
  cases hd : plug_in.plug_in_def with
  | none => simp
  | some procedures =>
    rw [hd] at hs
    have := (procedure_find_none_iff procedures proc_name).mpr (by simpa using hs)
    simp [this]

/-- The procedure the lookup returns has the name looked up. -/
theorem proc_find_name (plug_in : PlugIn) (proc_name : String) (ref : ProcRef)
    (proc : Procedure)
    (hfind : gimp_plug_in_proc_find plug_in proc_name = some (ref, proc)) :
    proc.name = proc_name := by
  unfold gimp_plug_in_proc_find at hfind
  cases hd : plug_in.plug_in_def with
  | none =>
    simp only [hd, Option.map_eq_some'] at hfind
    obtain ⟨⟨i, p⟩, hf, he⟩ := hfind
    simp only [Prod.mk.injEq] at he
    rw [← he.2]
    exact (procedure_find_some _ _ i p hf).2.1
  | some procedures =>
    cases hs : gimp_plug_in_procedure_find procedures proc_name with
    | some r =>
      obtain ⟨i, p⟩ := r
      simp only [hd, hs, Option.map_some', Option.some.injEq, Prod.mk.injEq] at hfind
      rw [← hfind.2]
      exact (procedure_find_some _ _ i p hs).2.1
    | none =>
      simp only [hd, hs, Option.map_none', Option.map_eq_some'] at hfind
      obtain ⟨⟨i, p⟩, hf, he⟩ := hfind
      simp only [Prod.mk.injEq] at he
      rw [← he.2]
      exact (procedure_find_some _ _ i p hf).2.1

/-- After a procedure of the same name is written through the pointer the
lookup returned, the lookup returns the same pointer and the procedure
written. -/
theorem proc_find_store (plug_in : PlugIn) (proc_name : String) (ref : ProcRef)
    (proc q : Procedure) (hq : q.name = proc_name)
    (hfind : gimp_plug_in_proc_find plug_in proc_name = some (ref, proc)) :
    gimp_plug_in_proc_find (plug_in.store ref q) proc_name = some (ref, q) := by
  unfold gimp_plug_in_proc_find at hfind ⊢
  cases hd : plug_in.plug_in_def with
  | none =>
    simp only [hd, Option.map_eq_some'] at hfind
    obtain ⟨⟨i, p⟩, hf, he⟩ := hfind
    simp only [Prod.mk.injEq] at he
    obtain ⟨hr, _⟩ := he
    subst hr
    simp [PlugIn.store, hd, procedure_find_set _ _ q hq i p hf]
  | some procedures =>
    cases hs : gimp_plug_in_procedure_find procedures proc_name with
    | some r =>
      obtain ⟨i, p⟩ := r
      simp only [hd, hs, Option.map_some', Option.some.injEq, Prod.mk.injEq] at hfind
      obtain ⟨hr, _⟩ := hfind
      subst hr
      simp [PlugIn.store, hd, procedure_find_set _ _ q hq i p hs]
    | none =>
      simp only [hd, hs, Option.map_none', Option.map_eq_some'] at hfind
      obtain ⟨⟨i, p⟩, hf, he⟩ := hfind
      simp only [Prod.mk.injEq] at he
      obtain ⟨hr, _⟩ := he
      subst hr
      simp [PlugIn.store, hd, hs, procedure_find_set _ _ q hq i p hf]



/-! ## Registrar: the six setters -/

/-- C11: when the procedure name is in neither the static nor the temporary
table, each of the six registrar setters returns `FALSE`, sends exactly one
error message through the messaging channel and leaves the plug-in otherwise
as it was, so no procedure of either table is changed. For the menu-label
setter the label is non-empty, as its `g_return_val_if_fail` requires; with an
empty label it returns `FALSE` and changes nothing at all. -/
theorem registrar_not_found (env : SetterFailures) (plug_in : PlugIn) (proc_name : String)
    (hs : ∀ p ∈ plug_in.static_procedures, p.name ≠ proc_name)
    (ht : ∀ p ∈ plug_in.temp_procedures, p.name ≠ proc_name) :
    (∀ image_types,
      gimp_plug_in_set_proc_image_types plug_in proc_name image_types =
        (false, { plug_in with messages := plug_in.messages ++
          [⟨.error, not_installed_message plug_in "register images types" proc_name⟩] })) ∧
    (∀ menu_label, menu_label ≠ "" →
      gimp_plug_in_set_proc_menu_label env plug_in proc_name menu_label =
        (false, { plug_in with messages := plug_in.messages ++
          [⟨.error, not_installed_message plug_in
            ("register the menu label \"" ++ menu_label ++ "\"") proc_name⟩] })) ∧
    gimp_plug_in_set_proc_menu_label env plug_in proc_name "" = (false, plug_in) ∧
    (∀ menu_path,
      gimp_plug_in_add_proc_menu_path env plug_in proc_name menu_path =
        (false, { plug_in with messages := plug_in.messages ++
          [⟨.error, not_installed_message plug_in
            ("register the menu item \"" ++ menu_path ++ "\"") proc_name⟩] })) ∧
    (∀ type data data_length,
      gimp_plug_in_set_proc_icon env plug_in proc_name type data data_length =
        (false, { plug_in with messages := plug_in.messages ++
          [⟨.error, not_installed_message plug_in "set the icon" proc_name⟩] })) ∧
    (∀ blurb help help_id,
      gimp_plug_in_set_proc_help plug_in proc_name blurb help help_id =
        (false, { plug_in with messages := plug_in.messages ++
          [⟨.error, not_installed_message plug_in "register help" proc_name⟩] })) ∧
    (∀ authors copyright date,
      gimp_plug_in_set_proc_attribution plug_in proc_name authors copyright date =
        (false, { plug_in with messages := plug_in.messages ++
          [⟨.error, not_installed_message plug_in "register the attribution" proc_name⟩] })) := by
  have hnone := (proc_find_none_iff plug_in proc_name).mpr ⟨hs, ht⟩
  refine ⟨?_, ?_, ?_, ?_, ?_, ?_, ?_⟩
  · intro image_types
    simp [gimp_plug_in_set_proc_image_types, hnone, PlugIn.gimp_message]
  · intro menu_label hne
    simp [gimp_plug_in_set_proc_menu_label, hne, hnone, PlugIn.gimp_message]
  · simp [gimp_plug_in_set_proc_menu_label]
  · intro menu_path
    simp [gimp_plug_in_add_proc_menu_path, hnone, PlugIn.gimp_message]
  · intro type data data_length
    simp [gimp_plug_in_set_proc_icon, hnone, PlugIn.gimp_message]
  · intro blurb help help_id
    simp [gimp_plug_in_set_proc_help, hnone, PlugIn.gimp_message]
  · intro authors copyright date
    simp [gimp_plug_in_set_proc_attribution, hnone, PlugIn.gimp_message]

/-- Witness for C11: `no-such-proc` is in neither table of the example plug-in. -/
theorem registrar_not_found_witness :
    (∀ p ∈ example_plug_in.static_procedures, p.name ≠ "no-such-proc") ∧
    (∀ p ∈ example_plug_in.temp_procedures, p.name ≠ "no-such-proc") ∧
    (gimp_plug_in_set_proc_help example_plug_in "no-such-proc" (some "Blurs") none none).1 =
      false ∧
    (gimp_plug_in_set_proc_help example_plug_in "no-such-proc" (some "Blurs") none
      none).2.messages.length = 1 := by
  have h := (registrar_not_found example_setters example_plug_in "no-such-proc"
    (by decide) (by decide)).2.2.2.2.2.1 (some "Blurs") none none
  refine ⟨by decide, by decide, ?_, ?_⟩
  · rw [h]
  · rw [h]; rfl

/-- Counterexample to C12 as stated: `temp-proc` is in the temporary table, the
menu-path setter rejects the path `Filters/Blur`, and the registrar returns
`FALSE`; the list of menu paths of the procedure is still empty. -/
theorem registrar_found_setter_fails :
    gimp_plug_in_proc_find example_plug_in "temp-proc" =
        some (⟨.temporary, 1⟩, Procedure.bare "temp-proc") ∧
    (gimp_plug_in_add_proc_menu_path example_setters example_plug_in "temp-proc"
      "Filters/Blur").1 = false ∧
    (gimp_plug_in_proc_find
      (gimp_plug_in_add_proc_menu_path example_setters example_plug_in "temp-proc"
        "Filters/Blur").2 "temp-proc").map (fun r => r.2.menu_paths) = some [] := by
  decide

/-- C12, amended: when the lookup finds the procedure, the image-types, help
and attribution setters return `TRUE` and the procedure found under that name
afterwards has the new image types, the new blurb, help and help id, the new
attribution; the menu-label (label non-empty), menu-path and icon setters
return `TRUE`, with the new label, the path appended, the new icon, when the
procedure's own setter succeeds, and return `FALSE` when it fails. -/
theorem registrar_found (env : SetterFailures) (plug_in : PlugIn) (proc_name : String)
    (ref : ProcRef) (proc : Procedure)
    (hfind : gimp_plug_in_proc_find plug_in proc_name = some (ref, proc)) :
    (∀ image_types,
      (gimp_plug_in_set_proc_image_types plug_in proc_name image_types).1 = true ∧
      gimp_plug_in_proc_find
          (gimp_plug_in_set_proc_image_types plug_in proc_name image_types).2 proc_name =
        some (ref, { proc with image_types := image_types })) ∧
    (∀ blurb help help_id,
      (gimp_plug_in_set_proc_help plug_in proc_name blurb help help_id).1 = true ∧
      gimp_plug_in_proc_find
          (gimp_plug_in_set_proc_help plug_in proc_name blurb help help_id).2 proc_name =
        some (ref, { proc with blurb := blurb, help := help, help_id := help_id })) ∧
    (∀ authors copyright date,
      (gimp_plug_in_set_proc_attribution plug_in proc_name authors copyright date).1 = true ∧
      gimp_plug_in_proc_find
          (gimp_plug_in_set_proc_attribution plug_in proc_name authors copyright date).2
          proc_name =
        some (ref, { proc with authors := authors, copyright := copyright, date := date })) ∧
    (∀ menu_label, menu_label ≠ "" →
      (env.menu_label_error proc menu_label = none →
        (gimp_plug_in_set_proc_menu_label env plug_in proc_name menu_label).1 = true ∧
        gimp_plug_in_proc_find
            (gimp_plug_in_set_proc_menu_label env plug_in proc_name menu_label).2 proc_name =
          some (ref, { proc with menu_label := some menu_label })) ∧
      (env.menu_label_error proc menu_label ≠ none →
        (gimp_plug_in_set_proc_menu_label env plug_in proc_name menu_label).1 = false)) ∧
    (∀ menu_path,
      (env.menu_path_error proc menu_path = none →
        (gimp_plug_in_add_proc_menu_path env plug_in proc_name menu_path).1 = true ∧
        gimp_plug_in_proc_find
            (gimp_plug_in_add_proc_menu_path env plug_in proc_name menu_path).2 proc_name =
          some (ref, { proc with menu_paths := proc.menu_paths ++ [menu_path] })) ∧
      (env.menu_path_error proc menu_path ≠ none →
        (gimp_plug_in_add_proc_menu_path env plug_in proc_name menu_path).1 = false)) ∧
    (∀ type data data_length,
      (env.icon_error proc ⟨type, data, data_length⟩ = none →
        (gimp_plug_in_set_proc_icon env plug_in proc_name type data data_length).1 = true ∧
        gimp_plug_in_proc_find
            (gimp_plug_in_set_proc_icon env plug_in proc_name type data data_length).2
            proc_name =
          some (ref, { proc with icon := some ⟨type, data, data_length⟩ })) ∧
      (env.icon_error proc ⟨type, data, data_length⟩ ≠ none →
        (gimp_plug_in_set_proc_icon env plug_in proc_name type data data_length).1 =
          false)) := by
  have hname : proc.name = proc_name := proc_find_name plug_in proc_name ref proc hfind
  have hst : ∀ q : Procedure, q.name = proc_name →
      gimp_plug_in_proc_find (plug_in.store ref q) proc_name = some (ref, q) :=
    fun q hq => proc_find_store plug_in proc_name ref proc q hq hfind
  refine ⟨?_, ?_, ?_, ?_, ?_, ?_⟩
  · intro image_types
    simp only [gimp_plug_in_set_proc_image_types, hfind, gimp_plug_in_procedure_set_image_types]
    exact ⟨trivial, hst _ hname⟩
  · intro blurb help help_id
    simp only [gimp_plug_in_set_proc_help, hfind, gimp_procedure_set_help]
    exact ⟨trivial, hst _ hname⟩
  · intro authors copyright date
    simp only [gimp_plug_in_set_proc_attribution, hfind, gimp_procedure_set_attribution]
    exact ⟨trivial, hst _ hname⟩
  · intro menu_label hne
    refine ⟨?_, ?_⟩
    · intro hok
      simp only [gimp_plug_in_set_proc_menu_label, hne, if_false, hfind,
        gimp_plug_in_procedure_set_menu_label, hok]
      exact ⟨trivial, hst _ hname⟩
    · intro herr
      obtain ⟨message, hm⟩ := Option.ne_none_iff_exists'.mp herr
      simp [gimp_plug_in_set_proc_menu_label, hne, hfind,
        gimp_plug_in_procedure_set_menu_label, hm]
  · intro menu_path
    refine ⟨?_, ?_⟩
    · intro hok
      simp only [gimp_plug_in_add_proc_menu_path, hfind,
        gimp_plug_in_procedure_add_menu_path, hok]
      exact ⟨trivial, hst _ hname⟩
    · intro herr
      obtain ⟨message, hm⟩ := Option.ne_none_iff_exists'.mp herr
      simp [gimp_plug_in_add_proc_menu_path, hfind, gimp_plug_in_procedure_add_menu_path, hm]
  · intro type data data_length
    refine ⟨?_, ?_⟩
    · intro hok
      simp only [gimp_plug_in_set_proc_icon, hfind, gimp_plug_in_procedure_set_icon, hok]
      exact ⟨trivial, hst _ hname⟩
    · intro herr
      obtain ⟨message, hm⟩ := Option.ne_none_iff_exists'.mp herr
      simp [gimp_plug_in_set_proc_icon, hfind, gimp_plug_in_procedure_set_icon, hm]

/-- Witness for C12, amended: the image types of the static procedure
`plug-in-blur` are set. -/
theorem registrar_found_witness :
    gimp_plug_in_proc_find example_plug_in "plug-in-blur" =
        some (⟨.static, 0⟩, Procedure.bare "plug-in-blur") ∧
    (gimp_plug_in_proc_find
      (gimp_plug_in_set_proc_image_types example_plug_in "plug-in-blur" (some "RGB*")).2
      "plug-in-blur").map (fun r => r.2.image_types) = some (some "RGB*") := by
  have h := ((registrar_found example_setters example_plug_in "plug-in-blur" ⟨.static, 0⟩
    (Procedure.bare "plug-in-blur") (by decide)).1 (some "RGB*")).2
  refine ⟨by decide, ?_⟩
  rw [h]
  rfl

/-- C13: when the lookup finds the procedure, the menu-label (label non-empty,
as its `g_return_val_if_fail` requires), menu-path and icon registrars return
`TRUE` exactly when the procedure's own setter succeeds; when that setter fails
with a message, the registrar returns `FALSE`, the messaging channel receives
exactly one more message, an error whose text is the setter's message, and the
procedure in the table is what the failed setter left (no rollback). -/
theorem registrar_setter_result (env : SetterFailures) (plug_in : PlugIn) (proc_name : String)
    (ref : ProcRef) (proc : Procedure)
    (hfind : gimp_plug_in_proc_find plug_in proc_name = some (ref, proc)) :
    (∀ menu_label, menu_label ≠ "" →
      ((gimp_plug_in_set_proc_menu_label env plug_in proc_name menu_label).1 = true ↔
        (gimp_plug_in_procedure_set_menu_label env proc menu_label).2 = none) ∧
      (∀ message,
        (gimp_plug_in_procedure_set_menu_label env proc menu_label).2 = some message →
        gimp_plug_in_set_proc_menu_label env plug_in proc_name menu_label =
          (false,
            { (plug_in.store ref (gimp_plug_in_procedure_set_menu_label env proc menu_label).1)
              with messages := plug_in.messages ++ [⟨.error, message⟩] }))) ∧
    (∀ menu_path,
      ((gimp_plug_in_add_proc_menu_path env plug_in proc_name menu_path).1 = true ↔
        (gimp_plug_in_procedure_add_menu_path env proc menu_path).2 = none) ∧
      (∀ message,
        (gimp_plug_in_procedure_add_menu_path env proc menu_path).2 = some message →
        gimp_plug_in_add_proc_menu_path env plug_in proc_name menu_path =
          (false,
            { (plug_in.store ref (gimp_plug_in_procedure_add_menu_path env proc menu_path).1)
              with messages := plug_in.messages ++ [⟨.error, message⟩] }))) ∧
    (∀ type data data_length,
      ((gimp_plug_in_set_proc_icon env plug_in proc_name type data data_length).1 = true ↔
        (gimp_plug_in_procedure_set_icon env proc type data data_length).2 = none) ∧
      (∀ message,
        (gimp_plug_in_procedure_set_icon env proc type data data_length).2 = some message →
        gimp_plug_in_set_proc_icon env plug_in proc_name type data data_length =
          (false,
            { (plug_in.store ref
                (gimp_plug_in_procedure_set_icon env proc type data data_length).1)
              with messages := plug_in.messages ++ [⟨.error, message⟩] }))) := by
  have hmsg : ∀ q : Procedure, (plug_in.store ref q).messages = plug_in.messages := by
    intro q
    unfold PlugIn.store
    cases ref.table <;> rfl
  refine ⟨?_, ?_, ?_⟩
  · intro menu_label hne
    rcases hres : gimp_plug_in_procedure_set_menu_label env proc menu_label with ⟨proc1, err⟩
    cases err with
    | none => simp [gimp_plug_in_set_proc_menu_label, hne, hfind, hres]
    | some message =>
      simp [gimp_plug_in_set_proc_menu_label, hne, hfind, hres, PlugIn.gimp_message, hmsg]
  · intro menu_path
    rcases hres : gimp_plug_in_procedure_add_menu_path env proc menu_path with ⟨proc1, err⟩
    cases err with
    | none => simp [gimp_plug_in_add_proc_menu_path, hfind, hres]
    | some message =>
      simp [gimp_plug_in_add_proc_menu_path, hfind, hres, PlugIn.gimp_message, hmsg]
  · intro type data data_length
    rcases hres : gimp_plug_in_procedure_set_icon env proc type data data_length with
      ⟨proc1, err⟩
    cases err with
    | none => simp [gimp_plug_in_set_proc_icon, hfind, hres]
    | some message =>
      simp [gimp_plug_in_set_proc_icon, hfind, hres, PlugIn.gimp_message, hmsg]

/-- Witness for C13: the menu-path setter rejects `Filters/Blur` for the
temporary procedure `temp-proc`; the registrar returns `FALSE` and the one
message sent is the setter's. -/
theorem registrar_setter_result_witness :
    gimp_plug_in_proc_find example_plug_in "temp-proc" =
        some (⟨.temporary, 1⟩, Procedure.bare "temp-proc") ∧
    (gimp_plug_in_add_proc_menu_path example_setters example_plug_in "temp-proc"
      "Filters/Blur").1 = false ∧
    (gimp_plug_in_add_proc_menu_path example_setters example_plug_in "temp-proc"
      "Filters/Blur").2.messages = [⟨.error, "invalid menu location Filters/Blur"⟩] := by
  have h := ((registrar_setter_result example_setters example_plug_in "temp-proc"
    ⟨.temporary, 1⟩ (Procedure.bare "temp-proc") (by decide)).2.1 "Filters/Blur").2
    "invalid menu location Filters/Blur" (by decide)
  refine ⟨by decide, ?_, ?_⟩
  · rw [h]
  · rw [h]; rfl

/-- C14: `gimp_plug_in_proc_find` probes the static table first and the
temporary table only when that probe finds nothing. A name found in the static
table yields the pointer to the first static procedure of that name, and the
six setters then leave the temporary table as it was; a name not in the static
table (or a plug-in without static definition) yields the result of the search
in the temporary table; the result is null exactly when the name is in neither
table. -/
theorem proc_find_static_first (env : SetterFailures) (plug_in : PlugIn) (proc_name : String) :
    (∀ procedures i p, plug_in.plug_in_def = some procedures →
      gimp_plug_in_procedure_find procedures proc_name = some (i, p) →
      gimp_plug_in_proc_find plug_in proc_name = some (⟨.static, i⟩, p) ∧
      procedures[i]? = some p ∧ p.name = proc_name ∧
      (∀ j q, j < i → procedures[j]? = some q → q.name ≠ proc_name) ∧
      (∀ image_types,
        (gimp_plug_in_set_proc_image_types plug_in proc_name image_types).2 =
          { plug_in with
            plug_in_def :=
              some (procedures.set i (gimp_plug_in_procedure_set_image_types p image_types)) }) ∧
      (∀ menu_label,
        (gimp_plug_in_set_proc_menu_label env plug_in proc_name menu_label).2.temp_procedures =
          plug_in.temp_procedures) ∧
      (∀ menu_path,
        (gimp_plug_in_add_proc_menu_path env plug_in proc_name menu_path).2.temp_procedures =
          plug_in.temp_procedures) ∧
      (∀ type data data_length,
        (gimp_plug_in_set_proc_icon env plug_in proc_name type data
          data_length).2.temp_procedures = plug_in.temp_procedures) ∧
      (∀ blurb help help_id,
        (gimp_plug_in_set_proc_help plug_in proc_name blurb help help_id).2 =
          { plug_in with
            plug_in_def :=
              some (procedures.set i (gimp_procedure_set_help p blurb help help_id)) }) ∧
      (∀ authors copyright date,
        (gimp_plug_in_set_proc_attribution plug_in proc_name authors copyright date).2 =
          { plug_in with
            plug_in_def :=
              some (procedures.set i
                (gimp_procedure_set_attribution p authors copyright date)) })) ∧
    ((∀ p ∈ plug_in.static_procedures, p.name ≠ proc_name) →
      gimp_plug_in_proc_find plug_in proc_name =
        (gimp_plug_in_procedure_find plug_in.temp_procedures proc_name).map
          (fun r => (⟨.temporary, r.1⟩, r.2))) ∧
    (plug_in.plug_in_def = none →
      gimp_plug_in_proc_find plug_in proc_name =
        (gimp_plug_in_procedure_find plug_in.temp_procedures proc_name).map
          (fun r => (⟨.temporary, r.1⟩, r.2))) ∧
    (gimp_plug_in_proc_find plug_in proc_name = none ↔
      (∀ p ∈ plug_in.static_procedures, p.name ≠ proc_name) ∧
      (∀ p ∈ plug_in.temp_procedures, p.name ≠ proc_name)) := by
  refine ⟨?_, proc_find_temporary plug_in proc_name, ?_, proc_find_none_iff plug_in proc_name⟩
  · intro procedures i p hd hs
    have hfind := proc_find_static plug_in proc_name procedures i p hd hs
    obtain ⟨h1, h2, h3⟩ := procedure_find_some procedures proc_name i p hs
    refine ⟨hfind, h1, h2, h3, ?_, ?_, ?_, ?_, ?_, ?_⟩
    · intro image_types
      simp [gimp_plug_in_set_proc_image_types, hfind, PlugIn.store, hd]
    · intro menu_label
      by_cases hne : menu_label = ""
      · simp [gimp_plug_in_set_proc_menu_label, hne]
      · rcases hres : gimp_plug_in_procedure_set_menu_label env p menu_label with ⟨p1, err⟩
        cases err <;>
          simp [gimp_plug_in_set_proc_menu_label, hne, hfind, hres, PlugIn.store,
            PlugIn.gimp_message]
    · intro menu_path
      rcases hres : gimp_plug_in_procedure_add_menu_path env p menu_path with ⟨p1, err⟩
      cases err <;>
        simp [gimp_plug_in_add_proc_menu_path, hfind, hres, PlugIn.store, PlugIn.gimp_message]
    · intro type data data_length
      rcases hres : gimp_plug_in_procedure_set_icon env p type data data_length with ⟨p1, err⟩
      cases err <;>
        simp [gimp_plug_in_set_proc_icon, hfind, hres, PlugIn.store, PlugIn.gimp_message]
    · intro blurb help help_id
      simp [gimp_plug_in_set_proc_help, hfind, PlugIn.store, hd]
    · intro authors copyright date
      simp [gimp_plug_in_set_proc_attribution, hfind, PlugIn.store, hd]
  · intro hd
    apply proc_find_temporary
    simp [PlugIn.static_procedures, hd]

/-- Witness for C14: `plug-in-blur` is in both tables of the example plug-in;
the lookup returns the static one and setting its help leaves the temporary
procedure of the same name without help. -/
theorem proc_find_static_first_witness :
    gimp_plug_in_proc_find example_plug_in "plug-in-blur" =
        some (⟨.static, 0⟩, Procedure.bare "plug-in-blur") ∧
    (gimp_plug_in_set_proc_help example_plug_in "plug-in-blur" (some "Blurs") none
      none).2.temp_procedures = example_plug_in.temp_procedures := by
  have h := (proc_find_static_first example_setters example_plug_in "plug-in-blur").1
    [Procedure.bare "plug-in-blur"] 0 (Procedure.bare "plug-in-blur") rfl (by decide)
  refine ⟨h.1, ?_⟩
  rw [h.2.2.2.2.2.2.2.2.1 (some "Blurs") none none]

end GimpPlugInProc
